import Mathlib

/-!
Geany project / session lifecycle.

A shallow embedding of `src/project.c` (and the startup glue of `src/libmain.c`):
the optional singleton `app->project`, its persisted key file, the default
session, and the preference overlay.  Stateful C code is written as explicit
state passing over `Geany.State`; user interaction and collaborator outcomes
are scripted inside the state (or passed as explicit lists where they drive a
loop), and every observable side effect is appended to `State.log`.
-/

namespace Geany

/-! ## Strings and paths (GLib helpers) -/

/-- C `strlen`: the number of bytes of the UTF-8 encoding. -/
def strlen (s : String) : Nat := s.utf8ByteSize

/-- The `EMPTY(ptr)` test of utils.h on a non-NULL string: the first byte is NUL. -/
def EMPTY (s : String) : Bool := decide (strlen s = 0)

/-- The constant `MAX_NAME_LEN` of project.c. -/
def MAX_NAME_LEN : Nat := 50

/-- The constant `GEANY_STRING_UNTITLED`, the text "untitled". -/
def GEANY_STRING_UNTITLED : String := "untitled"

/-- The errno values used by `update_config`. -/
def EACCES : Int := 13

/-- The errno value for "is a directory". -/
def EISDIR : Int := 21

/-- The errno value for "no space left on device". -/
def ENOSPC : Int := 28

/-- GLib `g_ascii_isspace`: tab, newline, form feed, carriage return and space. -/
def g_ascii_isspace (c : Char) : Bool :=
  c.toNat = 32 || c.toNat = 9 || c.toNat = 10 || c.toNat = 12 || c.toNat = 13

/-- GLib `g_strchug`: drop leading white space. -/
def g_strchug (cs : List Char) : List Char := cs.dropWhile g_ascii_isspace

/-- GLib `g_strchomp`: drop trailing white space. -/
def g_strchomp (cs : List Char) : List Char := (cs.reverse.dropWhile g_ascii_isspace).reverse

/-- GLib `g_strstrip`, which is `g_strchomp (g_strchug s)`. -/
def g_strstrip (cs : List Char) : List Char := g_strchomp (g_strchug cs)

/-- Split at every occurrence of the delimiter character; the result always has
one more piece than there are delimiters. -/
def splitOnChar (d : Char) : List Char → List (List Char)
  | [] => [[]]
  | c :: cs =>
    if c = d then [] :: splitOnChar d cs
    else
      match splitOnChar d cs with
      | [] => [[c]]
      | t :: ts => (c :: t) :: ts

/-- GLib `g_strsplit (s, delimiter, -1)` for a delimiter of one character: the
pieces between the delimiters; as GLib documents, splitting the empty string
gives the empty vector. -/
def g_strsplit (cs : List Char) (delimiter : Char) : List (List Char) :=
  match cs with
  | [] => []
  | _ :: _ => splitOnChar delimiter cs

/-- Modelled from the spec: `utils_string_replace_all (str, "  ", " ")` of utils.c,
which is not part of the sources at hand.  One left-to-right pass replacing each
non-overlapping occurrence of two spaces by one space ("collapsing runs of
spaces"); the first component is the number of replacements made. -/
def utils_string_replace_all_spaces : List Char → Nat × List Char
  | [] => (0, [])
  | [c] => (0, [c])
  | c :: d :: rest =>
    if c = ' ' ∧ d = ' ' then
      let r := utils_string_replace_all_spaces rest
      (r.1 + 1, ' ' :: r.2)
    else
      let r := utils_string_replace_all_spaces (d :: rest)
      (r.1, c :: r.2)

/-- The loop `do {} while (utils_string_replace_all (str, "  ", " "))` of
`update_config`, with an explicit bound on the number of passes; `none` means the
bound was reached before a pass made no replacement. -/
def collapse_spaces_loop : Nat → List Char → Option (List Char)
  | 0, _ => none
  | fuel + 1, cs =>
    let r := utils_string_replace_all_spaces cs
    if r.1 = 0 then some r.2 else collapse_spaces_loop fuel r.2

/-- GLib `g_path_is_absolute` on a POSIX system: the path starts with a slash. -/
def g_path_is_absolute (p : String) : Bool :=
  match p.data with
  | [] => false
  | c :: _ => decide (c = '/')

/-- GLib `g_path_get_dirname` on a POSIX system: "." when there is no slash,
otherwise everything before the last slash with trailing slashes removed, and
"/" when nothing else is left. -/
def g_path_get_dirname (p : String) : String :=
  let cs := p.data
  if cs.contains '/' then
    let before := (cs.reverse.dropWhile (fun c => decide (c ≠ '/'))).drop 1
    let dir := (before.dropWhile (fun c => decide (c = '/'))).reverse
    match dir with
    | [] => "/"
    | _ :: _ => String.mk dir
  else "."

/-- GLib `g_build_filename (dir, path, NULL)` for two elements: empty elements
are ignored, trailing slashes of the first and leading slashes of the last
element are removed and one slash is put between them. -/
def g_build_filename (dir path : String) : String :=
  if dir = "" then path
  else if path = "" then dir
  else
    let d := (dir.data.reverse.dropWhile (fun c => decide (c = '/'))).reverse
    let q := path.data.dropWhile (fun c => decide (c = '/'))
    String.mk (d ++ '/' :: q)

/-! ## The key-file codec (ConfigCodec) -/

/-- Modelled from the spec: a typed value of the key-value configuration codec
("typed accessors (string, integer, string-list)"; booleans are used by the stash
fields). -/
inductive KVal where
  | str (v : String)
  | int (v : Int)
  | bool (v : Bool)
  | strlist (v : List String)
  deriving DecidableEq

/-- Modelled from the spec: GLib's `GKeyFile`, "a flat section→key→value store";
an ordered list of (section, key, value) entries. -/
abbrev GKeyFile := List (String × String × KVal)

/-- Look a key up: the first entry of that section and key. -/
def g_key_file_lookup : GKeyFile → String → String → Option KVal
  | [], _, _ => none
  | (g, k, v) :: rest, group, key =>
    if g = group ∧ k = key then some v else g_key_file_lookup rest group key

/-- Set a key: overwrite the first entry of that section and key in place, or
append a new entry; every other entry is kept. -/
def g_key_file_set : GKeyFile → String → String → KVal → GKeyFile
  | [], group, key, v => [(group, key, v)]
  | (g, k, w) :: rest, group, key, v =>
    if g = group ∧ k = key then (group, key, v) :: rest
    else (g, k, w) :: g_key_file_set rest group key v

/-- `g_key_file_has_key`. -/
def g_key_file_has_key (kf : GKeyFile) (group key : String) : Bool :=
  (g_key_file_lookup kf group key).isSome

/-- Modelled from the spec: `utils_get_setting_string` of utils.c, a typed
accessor with a default: the stored string, or the default when the key
is missing (or not a string). -/
def utils_get_setting_string (kf : GKeyFile) (group key default_value : String) : String :=
  match g_key_file_lookup kf group key with
  | some (KVal.str v) => v
  | _ => default_value

/-- Modelled from the spec: `utils_get_setting_integer` of utils.c: the stored
integer, or the default. -/
def utils_get_setting_integer (kf : GKeyFile) (group key : String) (default_value : Int) : Int :=
  match g_key_file_lookup kf group key with
  | some (KVal.int v) => v
  | _ => default_value

/-- Modelled from the spec: `utils_get_setting_boolean` of utils.c: the stored
boolean, or the default. -/
def utils_get_setting_boolean (kf : GKeyFile) (group key : String) (default_value : Bool) : Bool :=
  match g_key_file_lookup kf group key with
  | some (KVal.bool v) => v
  | _ => default_value

/-- `g_key_file_get_string_list`: the stored list, or NULL (`none`) when the key
is missing. -/
def g_key_file_get_string_list (kf : GKeyFile) (group key : String) : Option (List String) :=
  match g_key_file_lookup kf group key with
  | some (KVal.strlist v) => some v
  | _ => none

/-- What is stored at a path: a file the codec can parse, or one it cannot. -/
inductive FileData where
  | keyfile (kf : GKeyFile)
  | garbage
  deriving DecidableEq

/-- The part of the file system the lifecycle touches. -/
structure FS where
  /-- regular files and their content -/
  files : List (String × FileData)
  /-- existing directories -/
  dirs : List String
  /-- paths that cannot be written or created (permission denied) -/
  readonly : List String
  /-- paths where a write fails although the access check passes (the disk is
  full, the directory is gone) -/
  no_space : List String
  deriving DecidableEq

/-- Content of the regular file at a path, if there is one. -/
def FS.read (fs : FS) (path : String) : Option FileData :=
  (fs.files.find? (fun e => decide (e.1 = path))).map (fun e => e.2)

/-- `g_file_test (path, G_FILE_TEST_IS_DIR)`. -/
def FS.is_dir (fs : FS) (path : String) : Bool := fs.dirs.contains path

/-- `g_file_test (path, G_FILE_TEST_EXISTS)`. -/
def FS.file_exists (fs : FS) (path : String) : Bool :=
  (fs.read path).isSome || fs.is_dir path

/-- `g_key_file_load_from_file`: the parsed content, or `none` when the file is
missing or cannot be parsed. -/
def g_key_file_load_from_file (fs : FS) (path : String) : Option GKeyFile :=
  match fs.read path with
  | some (FileData.keyfile kf) => some kf
  | _ => none

/-- Modelled from the spec: `utils_is_file_writable` of utils.c ("the target
project file path must be writable"): 0, or the errno of the failed access check. -/
def utils_is_file_writable (fs : FS) (path : String) : Int :=
  if fs.readonly.contains path then EACCES else 0

/-- Replace or add the file at a path. -/
def FS.store (fs : FS) (path : String) (d : FileData) : FS :=
  { fs with files := (path, d) :: fs.files.filter (fun e => decide (e.1 ≠ path)) }

/-- Modelled from the spec: `utils_write_file` of utils.c (the write fails on
"permission, is-a-directory, etc."): 0 and the file replaced, or an errno and nothing changed
(the path is read-only, is a directory, or the write itself fails). -/
def utils_write_file (fs : FS) (path : String) (kf : GKeyFile) : Int × FS :=
  if fs.readonly.contains path then (EACCES, fs)
  else if fs.is_dir path then (EISDIR, fs)
  else if fs.no_space.contains path then (ENOSPC, fs)
  else (0, fs.store path (FileData.keyfile kf))

/-- Modelled from the spec: `utils_mkdir (path, TRUE)` of utils.c (directory
creation may fail): 0 and the directory created, or an errno. -/
def utils_mkdir (fs : FS) (path : String) : Int × FS :=
  if fs.readonly.contains path then (EACCES, fs)
  else (0, { fs with dirs := path :: fs.dirs })

/-! ## Data model -/

/-- The indentation preferences `GeanyIndentPrefs` (editor.h). -/
structure GeanyIndentPrefs where
  width : Int
  type : Int
  hard_tab_width : Int
  auto_indent_mode : Int
  detect_type : Bool
  detect_width : Bool
  deriving DecidableEq

/-- The global file preferences `GeanyFilePrefs` (document.h): the four fields a
project can override, the two other fields the lifecycle reads, and `rest` for
all remaining fields of the C struct. -/
structure GeanyFilePrefs where
  final_new_line : Bool
  ensure_convert_new_lines : Bool
  strip_trailing_spaces : Bool
  replace_tabs : Bool
  cmdline_new_files : Bool
  mru_length : Nat
  rest : List Int
  deriving DecidableEq

/-- The editor preferences a project can override (`GeanyEditorPrefs`, editor.h). -/
structure GeanyEditorPrefs where
  indentation : GeanyIndentPrefs
  line_wrapping : Bool
  line_break_column : Int
  auto_continue_multiline : Bool
  long_line_column : Int
  deriving DecidableEq

/-- The struct `GeanyProject` (project.h); `priv` always points at the static
`priv` of project.c, which is a component of the state. -/
structure GeanyProject where
  name : Option String
  description : Option String
  file_name : Option String
  base_path : Option String
  file_patterns : Option (List String)
  deriving DecidableEq

/-- The struct `GeanyProjectPrivate` (projectprivate.h); its `indentation`
pointer always points at the static `indentation` of project.c. -/
structure GeanyProjectPrivate where
  long_line_behaviour : Int
  long_line_column : Int
  final_new_line : Bool
  ensure_convert_new_lines : Bool
  strip_trailing_spaces : Bool
  replace_tabs : Bool
  line_wrapping : Bool
  line_break_column : Int
  auto_continue_multiline : Bool
  /-- indices into `State.filetypes`; `none` is the NULL array -/
  build_filetypes_list : Option (List Nat)
  /-- session files loaded from the project file and not yet opened -/
  session_files : Option (List String)
  deriving DecidableEq

/-- The result of `memset (&priv, 0, sizeof priv)`. -/
def GeanyProjectPrivate.zero : GeanyProjectPrivate :=
  { long_line_behaviour := 0, long_line_column := 0, final_new_line := false,
    ensure_convert_new_lines := false, strip_trailing_spaces := false, replace_tabs := false,
    line_wrapping := false, line_break_column := 0, auto_continue_multiline := false,
    build_filetypes_list := none, session_files := none }

/-- The result of `g_new0 (GeanyProject, 1)`. -/
def GeanyProject.zero : GeanyProject :=
  { name := none, description := none, file_name := none, base_path := none,
    file_patterns := none }

/-- The project-scoped fields of a filetype (`GeanyFiletypePrivate`). -/
structure GeanyFiletypePrivate where
  projfilecmds : Option String
  projexeccmds : Option String
  projerror_regex_string : Option String
  project_list_entry : Int
  deriving DecidableEq

/-- An open document: the part of `GeanyDocument` the lifecycle reads, and the
editor preferences last applied to its editor widget. -/
structure GeanyDocument where
  file_name : Option String
  changed : Bool
  /-- index into `State.filetypes` -/
  file_type : Option Nat
  applied : GeanyEditorPrefs
  deriving DecidableEq

/-- The setting a stash preference is bound to (the `setting` pointer). -/
inductive StashField where
  | indent_width
  | indent_type
  | indent_hard_tab_width
  | detect_type
  | detect_width
  | auto_indent_mode
  | final_new_line
  | ensure_convert_new_lines
  | strip_trailing_spaces
  | replace_tabs
  | line_wrapping
  | line_break_column
  | auto_continue_multiline
  deriving DecidableEq

/-- Modelled from the spec: a stash field of stash.c, "a (struct field ↔ config
key ↔ UI control) triple used for uniform load/save/display". -/
structure StashPref where
  setting : StashField
  key_name : String
  default_value : KVal
  /-- name of the bound dialog widget; `none` for a hidden preference -/
  widget : Option String
  deriving DecidableEq

/-- Modelled from the spec: a stash group of stash.c, one section of the
project file with its fields. -/
structure StashGroup where
  name : String
  use_defaults : Bool
  entries : List StashPref
  deriving DecidableEq

/-- Contents of the New Project / Properties dialog when a response arrives
(`PropertyDialogElements` and the widgets looked up by name). -/
structure PropertyDialogElements where
  name : String
  file_name : String
  base_path : String
  description : String
  patterns : String
  radio_long_line_disabled : Bool
  radio_long_line_default : Bool
  spin_long_line : Int
  /-- values of the widgets bound to stash fields, by widget name -/
  widgets : List (String × KVal)
  /-- the build table: commands for the current filetype and for the project -/
  build_ft_cmds : Option String
  build_proj_cmds : List String
  entries_modified : Bool
  deriving DecidableEq

/-- One `gtk_dialog_run` of the project dialog: the response and the dialog
contents at that moment. -/
structure DialogRun where
  ok : Bool
  e : PropertyDialogElements
  deriving DecidableEq

/-- Observable effects, in the order they happen. -/
inductive Event where
  /-- `g_signal_emit_by_name (geany_object, name)` -/
  | signal (name : String)
  /-- `SHOW_ERR` / `SHOW_ERR1` -/
  | msgbox_error (msg : String)
  /-- `gtk_widget_grab_focus` on a dialog field -/
  | grab_focus (field : String)
  /-- `ui_set_statusbar` -/
  | statusbar (msg : String)
  /-- `g_warning` -/
  | warning (msg : String)
  /-- a yes/no question put to the user -/
  | question (msg : String)
  /-- `update_ui` refreshed the window title, menus and sidebar -/
  | update_ui
  /-- `apply_editor_prefs` -/
  | apply_editor_prefs
  /-- `document_close_all` was called and answered -/
  | close_all (ok : Bool)
  /-- a document was opened for a path -/
  | open_file (path : String)
  /-- a new untitled document was opened -/
  | new_file
  /-- `ui_focus_current_document` -/
  | focus_document
  /-- `configuration_save_default_session` -/
  | save_default_session
  /-- `configuration_clear_default_session` -/
  | clear_default_session
  /-- `configuration_load_default_session` -/
  | load_default_session
  /-- `utils_write_file` on the project file and its result -/
  | write_file (path : String) (ok : Bool)
  deriving DecidableEq

/-- The command line options `cl_options` read by the lifecycle. -/
structure CommandLineOptions where
  load_session : Bool
  new_instance : Bool
  readonly : Bool
  goto_line : Int
  goto_column : Int
  deriving DecidableEq

/-- The whole state: `app->project`, the statics of project.c, the globals it
reads, the collaborators' state, the scripted environment and the log. -/
structure State where
  /-- `app->project` -/
  project : Option GeanyProject
  /-- `static GeanyProjectPrivate priv` -/
  priv : GeanyProjectPrivate
  /-- `static GeanyIndentPrefs indentation` -/
  indentation : GeanyIndentPrefs
  /-- `static GSList *stash_groups` -/
  stash_groups : List StashGroup
  /-- `static GeanyFilePrefs fp` of `project_get_file_prefs` -/
  fp : GeanyFilePrefs
  /-- `local_prefs.project_file_path` -/
  project_file_path : Option String
  /-- `project_prefs.session_file` -/
  session_file : Option String
  /-- `project_prefs.project_file_in_basedir` -/
  project_file_in_basedir : Bool
  file_prefs : GeanyFilePrefs
  editor_prefs : GeanyEditorPrefs
  cl_options : CommandLineOptions
  /-- `prefs.load_session` -/
  prefs_load_session : Bool
  /-- `interface_prefs.warn_on_project_close` -/
  warn_on_project_close : Bool
  /-- `main_status.opening_session_files` -/
  opening_session_files : Nat
  /-- `main_status.quitting` -/
  quitting : Bool
  /-- the open documents, in notebook order -/
  docs : List GeanyDocument
  /-- the notebook page showing (clamped to the last page when out of range) -/
  cur_page : Nat
  filetypes : List GeanyFiletypePrivate
  /-- the project-scoped, filetype-independent build commands -/
  build_proj : List String
  fs : FS
  /-- the persisted default session: the files to reopen without a project -/
  default_session : List String
  /-- the default session as loaded and not yet opened -/
  default_session_files : List String
  /-- `ui_prefs.recent_projects_queue`, most recent first -/
  recent_projects : List String
  /-- outcomes of the coming `document_close_all` calls (`true`: all closed) -/
  close_all_script : List Bool
  /-- answers to the coming yes/no questions -/
  question_script : List Bool
  log : List Event
  /-- ghost: `GeanyProject` objects allocated and not yet freed -/
  live_projects : Nat
  /-- ghost: the largest value `live_projects` ever had -/
  peak_projects : Nat
  deriving DecidableEq

/-! ## Collaborators: log, dialogs, documents, sessions, build, stash -/

/-- Append an event to the log. -/
def State.emit (s : State) (ev : Event) : State := { s with log := s.log ++ [ev] }

/-- `SHOW_ERR` and `SHOW_ERR1`: a modal error message. -/
def SHOW_ERR (msg : String) (s : State) : State := s.emit (Event.msgbox_error msg)

/-- `gtk_widget_grab_focus` on a field of the dialog. -/
def gtk_widget_grab_focus (field : String) (s : State) : State := s.emit (Event.grab_focus field)

/-- Modelled from the spec: `ui_set_statusbar` of ui_utils.c, a status line
message. -/
def ui_set_statusbar (msg : String) (s : State) : State := s.emit (Event.statusbar msg)

/-- `g_warning`. -/
def g_warning (msg : String) (s : State) : State := s.emit (Event.warning msg)

/-- `g_signal_emit_by_name (geany_object, name, ...)`; no listener is connected. -/
def g_signal_emit_by_name (name : String) (s : State) : State := s.emit (Event.signal name)

/-- Modelled from the spec: `dialogs_show_question` and
`dialogs_show_question_full` of dialogs.c, a confirmation point: the next scripted
answer; a dialog that gets no answer counts as declined. -/
def dialogs_show_question (msg : String) (s : State) : Bool × State :=
  (s.question_script.headD false,
    { s with question_script := s.question_script.tail, log := s.log ++ [Event.question msg] })

/-- Modelled from the spec: `document_get_current` of document.c: the document
of the current notebook page. -/
def document_get_current (s : State) : Option GeanyDocument :=
  s.docs.get? (min s.cur_page (s.docs.length - 1))

/-- Modelled from the spec: `document_close_all` of document.c, "close all open
documents (may be refused)".  The next scripted outcome decides (none left: not
refused): on refusal no document is closed, otherwise all are. -/
def document_close_all (s : State) : Bool × State :=
  let ok := s.close_all_script.headD true
  (ok,
    { s with close_all_script := s.close_all_script.tail,
             docs := if ok then [] else s.docs,
             cur_page := if ok then 0 else s.cur_page,
             log := s.log ++ [Event.close_all ok] })

/-- Modelled from the spec: `editor_get_long_line_column` of editor.c, the
long-line preference (disabled, use global default, custom column): the
project's column unless the project follows the global setting. -/
def editor_get_long_line_column (s : State) : Int :=
  if s.project.isSome ∧ s.priv.long_line_behaviour ≠ 1 then s.priv.long_line_column
  else s.editor_prefs.long_line_column

/-- Modelled from the spec: the effective editor preferences of editor.c, "taking
the active Project's overlay fields when a Project is active, else the global
defaults". -/
def editor_get_prefs (s : State) : GeanyEditorPrefs :=
  match s.project with
  | none => s.editor_prefs
  | some _ =>
    { indentation := s.indentation,
      line_wrapping := s.priv.line_wrapping,
      line_break_column := s.priv.line_break_column,
      auto_continue_multiline := s.priv.auto_continue_multiline,
      long_line_column := editor_get_long_line_column s }

/-- `apply_editor_prefs`: `editor_apply_update_prefs` on every open document. -/
def apply_editor_prefs (s : State) : State :=
  ({ s with docs := s.docs.map (fun (d : GeanyDocument) => { d with applied := editor_get_prefs s }) }).emit
    Event.apply_editor_prefs

/-- A freshly opened document with the given editor preferences applied. -/
def GeanyDocument.fresh (file_name : Option String) (applied : GeanyEditorPrefs) : GeanyDocument :=
  { file_name := file_name, changed := false, file_type := none, applied := applied }

/-- Modelled from the spec: `document_open_file` of document.c, "open a file at
path": a new last page, made current, with the effective preferences applied. -/
def document_open_file (path : String) (s : State) : State :=
  ({ s with
      docs := s.docs ++ [GeanyDocument.fresh (some path) (editor_get_prefs s)],
      cur_page := s.docs.length }).emit (Event.open_file path)

/-- Modelled from the spec: `document_new_file_if_non_open` of document.c,
"ensures at least one document is open". -/
def document_new_file_if_non_open (s : State) : State :=
  match s.docs with
  | [] =>
    ({ s with
        docs := [GeanyDocument.fresh none (editor_get_prefs s)],
        cur_page := 0 }).emit Event.new_file
  | _ :: _ => s

/-- Modelled from the spec: `ui_focus_current_document` of ui_utils.c, "focus
current document". -/
def ui_focus_current_document (s : State) : State := s.emit Event.focus_document

/-- Modelled from the spec: `configuration_open_files` of keyfile.c, realising a
list of session files as open documents, in order; NULL opens nothing. -/
def configuration_open_files (files : Option (List String)) (s : State) : State :=
  (files.getD []).foldl (fun st f => document_open_file f st) s

/-- The session file list of the live documents: the paths of the documents
that have a file. -/
def session_file_names (s : State) : List String := s.docs.filterMap (fun d => d.file_name)

/-- Modelled from the spec: `configuration_save_default_session` of keyfile.c,
persisting the DefaultSession from the open documents. -/
def configuration_save_default_session (s : State) : State :=
  ({ s with default_session := session_file_names s }).emit Event.save_default_session

/-- Modelled from the spec: `configuration_clear_default_session` of keyfile.c,
"the DefaultSession snapshot is discarded so it won't be replayed later". -/
def configuration_clear_default_session (s : State) : State :=
  ({ s with default_session := [] }).emit Event.clear_default_session

/-- Modelled from the spec: `configuration_load_default_session` of keyfile.c,
loading the persisted DefaultSession for later opening. -/
def configuration_load_default_session (s : State) : State :=
  ({ s with default_session_files := s.default_session }).emit Event.load_default_session

/-- Modelled from the spec: `configuration_open_default_session` of keyfile.c,
opening the loaded DefaultSession files and emptying the loaded list. -/
def configuration_open_default_session (s : State) : State :=
  { configuration_open_files (some s.default_session_files) s with default_session_files := [] }

/-- Modelled from the spec: `configuration_save_session_files` of keyfile.c, the
session file list "captured from live open documents at save time", under the
collaborator's own section. -/
def configuration_save_session_files (config : GKeyFile) (s : State) : GKeyFile :=
  g_key_file_set config "files" "session_files" (KVal.strlist (session_file_names s))

/-- Modelled from the spec: `configuration_load_session_files` of keyfile.c, the
list read back from the collaborator's section (empty when absent). -/
def configuration_load_session_files (config : GKeyFile) : List String :=
  (g_key_file_get_string_list config "files" "session_files").getD []

/-- Modelled from the spec: `build_save_menu (config, project, GEANY_BCS_PROJ)` of
build.c, "save build config for a given scope", under the collaborator's section. -/
def build_save_menu (config : GKeyFile) (s : State) : GKeyFile :=
  g_key_file_set config "build-menu" "commands" (KVal.strlist s.build_proj)

/-- Modelled from the spec: `build_load_menu (config, GEANY_BCS_PROJ, project)` of
build.c, "load build config for a given scope". -/
def build_load_menu (config : GKeyFile) (s : State) : State :=
  { s with build_proj := (g_key_file_get_string_list config "build-menu" "commands").getD [] }

/-- Modelled from the spec: `ui_add_recent_project_file` of ui_utils.c, the
"bounded ordered sequence of previously opened project file paths,
most-recent-first". -/
def ui_add_recent_project_file (path : String) (s : State) : State :=
  { s with recent_projects :=
      (path :: s.recent_projects.filter (fun q => decide (q ≠ path))).take s.file_prefs.mru_length }

/-- The two statics of project.c the stash fields point into. -/
structure Overlay where
  priv : GeanyProjectPrivate
  indentation : GeanyIndentPrefs
  deriving DecidableEq

/-- The current content of the two statics. -/
def State.overlay (s : State) : Overlay := { priv := s.priv, indentation := s.indentation }

/-- Store new content into the two statics. -/
def State.set_overlay (s : State) (o : Overlay) : State :=
  { s with priv := o.priv, indentation := o.indentation }

/-- Read the setting a stash field is bound to. -/
def stash_get (f : StashField) (o : Overlay) : KVal :=
  match f with
  | StashField.indent_width => KVal.int o.indentation.width
  | StashField.indent_type => KVal.int o.indentation.type
  | StashField.indent_hard_tab_width => KVal.int o.indentation.hard_tab_width
  | StashField.detect_type => KVal.bool o.indentation.detect_type
  | StashField.detect_width => KVal.bool o.indentation.detect_width
  | StashField.auto_indent_mode => KVal.int o.indentation.auto_indent_mode
  | StashField.final_new_line => KVal.bool o.priv.final_new_line
  | StashField.ensure_convert_new_lines => KVal.bool o.priv.ensure_convert_new_lines
  | StashField.strip_trailing_spaces => KVal.bool o.priv.strip_trailing_spaces
  | StashField.replace_tabs => KVal.bool o.priv.replace_tabs
  | StashField.line_wrapping => KVal.bool o.priv.line_wrapping
  | StashField.line_break_column => KVal.int o.priv.line_break_column
  | StashField.auto_continue_multiline => KVal.bool o.priv.auto_continue_multiline

/-- Write the setting a stash field is bound to; a value of the wrong type is
ignored. -/
def stash_set (f : StashField) (v : KVal) (o : Overlay) : Overlay :=
  match f, v with
  | StashField.indent_width, KVal.int i => { o with indentation := { o.indentation with width := i } }
  | StashField.indent_type, KVal.int i => { o with indentation := { o.indentation with type := i } }
  | StashField.indent_hard_tab_width, KVal.int i =>
    { o with indentation := { o.indentation with hard_tab_width := i } }
  | StashField.detect_type, KVal.bool b =>
    { o with indentation := { o.indentation with detect_type := b } }
  | StashField.detect_width, KVal.bool b =>
    { o with indentation := { o.indentation with detect_width := b } }
  | StashField.auto_indent_mode, KVal.int i =>
    { o with indentation := { o.indentation with auto_indent_mode := i } }
  | StashField.final_new_line, KVal.bool b => { o with priv := { o.priv with final_new_line := b } }
  | StashField.ensure_convert_new_lines, KVal.bool b =>
    { o with priv := { o.priv with ensure_convert_new_lines := b } }
  | StashField.strip_trailing_spaces, KVal.bool b =>
    { o with priv := { o.priv with strip_trailing_spaces := b } }
  | StashField.replace_tabs, KVal.bool b => { o with priv := { o.priv with replace_tabs := b } }
  | StashField.line_wrapping, KVal.bool b => { o with priv := { o.priv with line_wrapping := b } }
  | StashField.line_break_column, KVal.int i =>
    { o with priv := { o.priv with line_break_column := i } }
  | StashField.auto_continue_multiline, KVal.bool b =>
    { o with priv := { o.priv with auto_continue_multiline := b } }
  | _, _ => o

/-- The typed read of one stash field from a key file: the stored value of the
field's type, or the field's default. -/
def stash_read_value (group : String) (p : StashPref) (kf : GKeyFile) : KVal :=
  match p.default_value with
  | KVal.bool d => KVal.bool (utils_get_setting_boolean kf group p.key_name d)
  | KVal.int d => KVal.int (utils_get_setting_integer kf group p.key_name d)
  | other => other

/-- Modelled from the spec: `stash_group_load_from_key_file` of stash.c; a group
that does not use defaults leaves a setting alone when its key is missing. -/
def stash_group_load_from_key_file (group : StashGroup) (kf : GKeyFile) (o : Overlay) : Overlay :=
  group.entries.foldl
    (fun st p =>
      if !group.use_defaults && !g_key_file_has_key kf group.name p.key_name then st
      else stash_set p.setting (stash_read_value group.name p kf) st)
    o

/-- Modelled from the spec: `stash_group_save_to_key_file` of stash.c; every
field of the group is written under the group's section. -/
def stash_group_save_to_key_file (group : StashGroup) (kf : GKeyFile) (o : Overlay) : GKeyFile :=
  group.entries.foldl (fun k p => g_key_file_set k group.name p.key_name (stash_get p.setting o)) kf

/-- Look up a widget value of the dialog by widget name. -/
def lookup_widget (ws : List (String × KVal)) (name : String) : Option KVal :=
  (ws.find? (fun w => decide (w.1 = name))).map (fun w => w.2)

/-- Modelled from the spec: `stash_group_update` of stash.c; every field with a
bound widget takes the widget's value. -/
def stash_group_update (group : StashGroup) (e : PropertyDialogElements) (o : Overlay) : Overlay :=
  group.entries.foldl
    (fun st p =>
      match p.widget with
      | none => st
      | some w =>
        match lookup_widget e.widgets w with
        | some v => stash_set p.setting v st
        | none => st)
    o

/-- The loop `foreach_slist (node, stash_groups) stash_group_load_from_key_file
(node->data, config)`. -/
def stash_groups_load (config : GKeyFile) (s : State) : State :=
  s.set_overlay
    (s.stash_groups.foldl (fun o g => stash_group_load_from_key_file g config o) s.overlay)

/-- The loop `foreach_slist (node, stash_groups) stash_group_save_to_key_file
(node->data, config)`. -/
def stash_groups_save (config : GKeyFile) (s : State) : GKeyFile :=
  s.stash_groups.foldl (fun k g => stash_group_save_to_key_file g k s.overlay) config

/-- The loop `foreach_slist (node, stash_groups) stash_group_update (node->data,
e->dialog)`. -/
def stash_groups_update (e : PropertyDialogElements) (s : State) : State :=
  s.set_overlay (s.stash_groups.foldl (fun o g => stash_group_update g e o) s.overlay)

/-! ## project.c -/

/-- `have_session_docs`: whether working documents are open. -/
def have_session_docs (s : State) : Bool :=
  let npages := s.docs.length
  decide (npages > 1) ||
    (decide (npages = 1) &&
      match document_get_current s with
      | some doc => doc.file_name.isSome || doc.changed
      | none => false)

/-- `update_ui`: called when creating, opening, closing and updating projects. -/
def update_ui (s : State) : State :=
  if s.quitting then s else s.emit Event.update_ui

/-- The "indentation" stash group of `init_stash_prefs`. -/
def indentation_group : StashGroup :=
  { name := "indentation", use_defaults := false,
    entries :=
      [ { setting := StashField.indent_width, key_name := "indent_width",
          default_value := KVal.int 4, widget := some "spin_indent_width_project" },
        { setting := StashField.indent_type, key_name := "indent_type",
          default_value := KVal.int 1, widget := some "radio_indent_spaces_project" },
        { setting := StashField.indent_hard_tab_width, key_name := "indent_hard_tab_width",
          default_value := KVal.int 8, widget := none },
        { setting := StashField.detect_type, key_name := "detect_indent",
          default_value := KVal.bool false, widget := some "check_detect_indent_type_project" },
        { setting := StashField.detect_width, key_name := "detect_indent_width",
          default_value := KVal.bool false, widget := some "check_detect_indent_width_project" },
        { setting := StashField.auto_indent_mode, key_name := "indent_mode",
          default_value := KVal.int 2, widget := some "combo_auto_indent_mode_project" } ] }

/-- The "file_prefs" stash group of `init_stash_prefs`; the defaults are the
global file preferences. -/
def file_prefs_group (fp : GeanyFilePrefs) : StashGroup :=
  { name := "file_prefs", use_defaults := true,
    entries :=
      [ { setting := StashField.final_new_line, key_name := "final_new_line",
          default_value := KVal.bool fp.final_new_line, widget := some "check_new_line1" },
        { setting := StashField.ensure_convert_new_lines, key_name := "ensure_convert_new_lines",
          default_value := KVal.bool fp.ensure_convert_new_lines,
          widget := some "check_ensure_convert_new_lines1" },
        { setting := StashField.strip_trailing_spaces, key_name := "strip_trailing_spaces",
          default_value := KVal.bool fp.strip_trailing_spaces,
          widget := some "check_trailing_spaces1" },
        { setting := StashField.replace_tabs, key_name := "replace_tabs",
          default_value := KVal.bool fp.replace_tabs, widget := some "check_replace_tabs1" } ] }

/-- The "editor" stash group of `init_stash_prefs`; the defaults are the global
editor preferences. -/
def editor_group (ep : GeanyEditorPrefs) : StashGroup :=
  { name := "editor", use_defaults := true,
    entries :=
      [ { setting := StashField.line_wrapping, key_name := "line_wrapping",
          default_value := KVal.bool ep.line_wrapping, widget := some "check_line_wrapping1" },
        { setting := StashField.line_break_column, key_name := "line_break_column",
          default_value := KVal.int ep.line_break_column, widget := some "spin_line_break1" },
        { setting := StashField.auto_continue_multiline, key_name := "auto_continue_multiline",
          default_value := KVal.bool ep.auto_continue_multiline,
          widget := some "check_auto_multiline1" } ] }

/-- `add_stash_group`: register the group and, when asked, apply its defaults
by loading it from an empty key file. -/
def add_stash_group (group : StashGroup) (apply_defaults : Bool) (s : State) : State :=
  let s1 := { s with stash_groups := group :: s.stash_groups }
  if !apply_defaults then s1
  else s1.set_overlay (stash_group_load_from_key_file group [] s1.overlay)

/-- `init_stash_prefs`: copy the global indentation defaults, then register the
three groups (the fields of a group are listed when it is registered). -/
def init_stash_prefs (s : State) : State :=
  let s1 := { s with indentation := s.editor_prefs.indentation }
  let s2 := add_stash_group indentation_group false s1
  let s3 := add_stash_group (file_prefs_group s2.file_prefs) true s2
  add_stash_group (editor_group s3.editor_prefs) true s3

/-- `create_project`: a zeroed project with zeroed private part, the stash
groups registered and the long-line defaults set, stored in `app->project`. -/
def create_project (s : State) : State :=
  let s1 := { s with priv := GeanyProjectPrivate.zero }
  let s2 := init_stash_prefs s1
  let s3 := { s2 with priv := { s2.priv with long_line_behaviour := 1,
                                             long_line_column := s2.editor_prefs.long_line_column } }
  { s3 with project := some GeanyProject.zero,
            live_projects := s3.live_projects + 1,
            peak_projects := max s3.peak_projects (s3.live_projects + 1) }

/-- Set a key to a string; as in GLib, a NULL string is rejected and nothing is set. -/
def g_key_file_set_string (config : GKeyFile) (group key : String) (v : Option String) : GKeyFile :=
  match v with
  | some str => g_key_file_set config group key (KVal.str str)
  | none => config

/-- The key file `write_config` builds before it serialises it: the existing
file if it can be loaded, with the project's own keys set over it. -/
def write_config_key_file (p : GeanyProject) (s : State) : GKeyFile :=
  let filename := p.file_name.getD ""
  -- try to load an existing config to keep manually added comments
  let config0 := (g_key_file_load_from_file s.fs filename).getD []
  let config1 := stash_groups_save config0 s
  let config2 := g_key_file_set_string config1 "project" "name" p.name
  let config3 := g_key_file_set_string config2 "project" "base_path" p.base_path
  let config4 :=
    match p.description with
    | some d => g_key_file_set config3 "project" "description" (KVal.str d)
    | none => config3
  let config5 :=
    match p.file_patterns with
    | some l => g_key_file_set config4 "project" "file_patterns" (KVal.strlist l)
    | none => config4
  -- editor settings
  let config6 :=
    g_key_file_set config5 "long line marker" "long_line_behaviour"
      (KVal.int s.priv.long_line_behaviour)
  let config7 :=
    g_key_file_set config6 "long line marker" "long_line_column"
      (KVal.int s.priv.long_line_column)
  -- store the session files into the project too
  let config8 := configuration_save_session_files config7 s
  build_save_menu config8 s

/-- `write_config`: write the project settings and the project session files
into the project file.  Returns TRUE if the file was written. -/
def write_config (s : State) : Bool × State :=
  match s.project with
  | none => (false, s)
  | some p =>
    let filename := p.file_name.getD ""
    let config := write_config_key_file p s
    let s1 := g_signal_emit_by_name "project-save" s
    -- write the file
    let w := utils_write_file s1.fs filename config
    let ret := decide (w.1 = 0)
    (ret, ({ s1 with fs := w.2 }).emit (Event.write_file filename ret))

/-- First part of a successful `load_config`: create the project, load the
stash groups and the project's own keys from the parsed file, re-apply the
editor preferences and read the project-scoped build configuration. -/
def load_config_fields (filename : String) (config : GKeyFile) (s : State) : State :=
  let s1 := create_project s
  let s2 := stash_groups_load config s1
  let p : GeanyProject :=
    { name := some (utils_get_setting_string config "project" "name" GEANY_STRING_UNTITLED),
      description := some (utils_get_setting_string config "project" "description" ""),
      file_name := some filename,
      base_path := some (utils_get_setting_string config "project" "base_path" ""),
      file_patterns := g_key_file_get_string_list config "project" "file_patterns" }
  let s3 := { s2 with project := some p }
  let s4 :=
    { s3 with priv :=
        { s3.priv with
            long_line_behaviour :=
              utils_get_setting_integer config "long line marker" "long_line_behaviour" 1,
            long_line_column :=
              utils_get_setting_integer config "long line marker" "long_line_column"
                s3.editor_prefs.long_line_column } }
  build_load_menu config (apply_editor_prefs s4)

/-- Second part of a successful `load_config`: unless session files are being
opened, save the current (non-project) session if there are session documents,
then close all open files; the result of the close is not looked at. -/
def load_config_session (s : State) : State :=
  if s.opening_session_files = 0 then
    (document_close_all
      (if have_session_docs s then configuration_save_default_session s else s)).2
  else s

/-- Last part of a successful `load_config`: read the session files so they can
be opened later, notify, refresh the UI. -/
def load_config_finish (config : GKeyFile) (s : State) : State :=
  update_ui
    (g_signal_emit_by_name "project-open"
      { s with priv :=
          { s.priv with session_files := some (configuration_load_session_files config) } })

/-- `load_config`: read the file and create a new project with the data found
in it.  There must not be an open project. -/
def load_config (filename : String) (s : State) : Bool × State :=
  if s.project.isSome then (false, s)
  else
    match g_key_file_load_from_file s.fs filename with
    | none => (false, s)
    | some config =>
      (true,
        load_config_finish config (load_config_session (load_config_fields filename config s)))

/-- `project_load_file`. -/
def project_load_file (locale_file_name : String) (s : State) : Bool × State :=
  let r := load_config locale_file_name s
  if r.1 then
    let name := ((r.2.project.map (fun p => p.name)).getD none).getD ""
    let s1 := ui_set_statusbar ("Project \"" ++ name ++ "\" opened.") r.2
    (true, ui_add_recent_project_file locale_file_name s1)
  else
    (false,
      ui_set_statusbar ("Project file \"" ++ locale_file_name ++ "\" could not be loaded.") r.2)

/-- `project_load_file_with_session`. -/
def project_load_file_with_session (locale_file_name : String) (s : State) : Bool × State :=
  let r := project_load_file locale_file_name s
  if r.1 then
    let s1 := configuration_open_files r.2.priv.session_files r.2
    let s2 := { s1 with priv := { s1.priv with session_files := none } }
    let s3 := document_new_file_if_non_open s2
    (true, ui_focus_current_document s3)
  else (false, r.2)

/-- `remove_foreach_project_filetype` on one filetype. -/
def remove_foreach_project_filetype (ft : GeanyFiletypePrivate) : GeanyFiletypePrivate :=
  { ft with projfilecmds := none, projexeccmds := none, projerror_regex_string := none,
            project_list_entry := -1 }

/-- Apply a function to the filetype at an index. -/
def modify_filetype (fts : List GeanyFiletypePrivate) (i : Nat)
    (f : GeanyFiletypePrivate → GeanyFiletypePrivate) : List GeanyFiletypePrivate :=
  match fts.get? i with
  | some ft => fts.set i (f ft)
  | none => fts

/-- First part of `destroy_project`: emit "project-before-close", remove the
project build entries of the filetypes and the project build menu items, free
the project, clear `app->project`, free the stash groups. -/
def destroy_project_release (s : State) : State :=
  let s1 := g_signal_emit_by_name "project-before-close" s
  -- remove project filetypes build entries
  let s2 :=
    match s1.priv.build_filetypes_list with
    | some l =>
      { s1 with filetypes :=
          (l.foldl (fun fts i => modify_filetype fts i remove_foreach_project_filetype)
            s1.filetypes) }
    | none => s1
  -- remove project non filetype build menu items
  let s3 := { s2 with build_proj := [] }
  let s4 := { s3 with project := none, live_projects := s3.live_projects - 1 }
  { s4 with stash_groups := [] }

/-- The part of `destroy_project` guarded by `open_default &&
cl_options.load_session`: after closing all tabs open the tabs found in the
default config. -/
def destroy_project_reopen (open_default : Bool) (s : State) : State :=
  if open_default && s.cl_options.load_session then
    ui_focus_current_document
      (document_new_file_if_non_open
        (configuration_open_default_session (configuration_load_default_session s)))
  else s

/-- `destroy_project`: notify, release the build entries, free and clear the
singleton, drop the stash groups, re-apply the editor preferences (to ensure
that global settings are restored), optionally reopen the default session,
notify again and refresh the UI. -/
def destroy_project (open_default : Bool) (s : State) : State :=
  match s.project with
  | none => s
  | some _ =>
    update_ui
      (g_signal_emit_by_name "project-close"
        (destroy_project_reopen open_default (apply_editor_prefs (destroy_project_release s))))

/-- The first step of `project_close`: save the project file, with a warning
(and nothing else) when it could not be written. -/
def project_close_write (s : State) : State :=
  if !(write_config s).1 then
    g_warning
      ("Project file \"" ++ ((s.project.map (fun p => p.file_name)).getD none).getD "" ++
        "\" could not be written")
      (write_config s).2
  else (write_config s).2

/-- `project_close`; `open_default` makes it reload the default session files. -/
def project_close (open_default : Bool) (s : State) : Bool × State :=
  match s.project with
  | none => (false, s)
  | some p =>
    -- save project session files, etc; then close all existing tabs first
    let c := document_close_all (project_close_write s)
    if !c.1 then (false, c.2)
    else
      (true,
        destroy_project open_default
          (ui_set_statusbar ("Project \"" ++ p.name.getD "" ++ "\" closed.") c.2))

/-- The end of `handle_current_session`: `if (app->project) return
project_close (FALSE); return TRUE;`. -/
def handle_current_session_tail (s : State) : Bool × State :=
  if s.project.isSome then project_close false s
  else (true, s)

/-- `handle_current_session`. -/
def handle_current_session (s : State) : Bool × State :=
  if s.project.isNone then
    -- save session in case the dialog is cancelled
    let s1 := configuration_save_default_session s
    -- do not ask if the only doc is an unmodified new doc
    if have_session_docs s1 then
      let q := dialogs_show_question "Move the current documents into the new project's session?" s1
      if q.1 then
        -- do not reload session on closing project
        handle_current_session_tail (configuration_clear_default_session q.2)
      else
        let c := document_close_all q.2
        if !c.1 then (false, c.2)
        else handle_current_session_tail c.2
    else handle_current_session_tail s1
  else handle_current_session_tail s

/-- Modelled from the spec: `build_read_project` of build.c, "read back the
build-command table": the project commands are taken from the table, and so are
the commands of the current filetype when there is one. -/
def build_read_project (ft : Option Nat) (e : PropertyDialogElements) (s : State) : State :=
  let s1 := { s with build_proj := e.build_proj_cmds }
  match ft with
  | some i =>
    { s1 with filetypes :=
        modify_filetype s1.filetypes i (fun (f : GeanyFiletypePrivate) => { f with projfilecmds := e.build_ft_cmds }) }
  | none => s1

/-- The normalisation of the file patterns entry in `update_config`: strip,
collapse every run of spaces, split at single spaces.  The pass bound of the
collapsing loop is the length plus one, which is never reached. -/
def split_file_patterns (patterns : String) : List String :=
  let tmp := g_strstrip patterns.data
  let str := (collapse_spaces_loop (tmp.length + 1) tmp).getD tmp
  (g_strsplit str ' ').map String.mk

/-- The properties-specific part of `update_config` (the block guarded by
`if (! new_project)`). -/
def update_config_properties (e : PropertyDialogElements) (s : State) : State :=
  let doc := document_get_current s
  let ft : Option Nat :=
    match doc with
    | some d => d.file_type
    | none => none
  -- get and set the project description
  let s1 := { s with project := s.project.map (fun (p : GeanyProject) => { p with description := some e.description }) }
  let s2 := stash_groups_update e s1
  -- read the project build menu
  let ftpriv (st : State) : Option GeanyFiletypePrivate :=
    match ft with
    | some i => st.filetypes.get? i
    | none => none
  let oldvalue : Option String :=
    match ftpriv s2 with
    | some f => f.projfilecmds
    | none => none
  let s3 := build_read_project ft e s2
  let s4 :=
    match ft, ftpriv s3 with
    | some i, some f =>
      if f.projfilecmds ≠ oldvalue ∧ f.project_list_entry < 0 then
        let l := s3.priv.build_filetypes_list.getD []
        { s3 with
            filetypes :=
              modify_filetype s3.filetypes i (fun (g : GeanyFiletypePrivate) => { g with project_list_entry := l.length }),
            priv := { s3.priv with build_filetypes_list := some (l ++ [i]) } }
      else s3
    | _, _ => s3
  -- build_menu_update (doc) only refreshes the build menu
  let behaviour : Int :=
    if e.radio_long_line_disabled then 0
    else if e.radio_long_line_default then 1
    else 2
  let s5 :=
    { s4 with priv := { s4.priv with long_line_behaviour := behaviour,
                                     long_line_column := e.spin_long_line } }
  let s6 := apply_editor_prefs s5
  -- get and set the project file patterns
  { s6 with project :=
      s6.project.map (fun (p : GeanyProject) => { p with file_patterns := some (split_file_patterns e.patterns) }) }

/-- The commit part of `update_config`, reached when every check has passed:
create `app->project` if it is NULL, copy the validated fields, and for a
properties edit read the other fields. -/
def update_config_commit (e : PropertyDialogElements) (new_project : Bool) (s : State) :
    Bool × State :=
  let created := s.project.isNone
  let s1 := if created then create_project s else s
  let new_project := new_project || created
  let s2 :=
    { s1 with project :=
        s1.project.map (fun (p : GeanyProject) =>
          { p with name := some e.name, file_name := some e.file_name,
                   -- use "." if base_path is empty
                   base_path := some (if !EMPTY e.base_path then e.base_path else "./") }) }
  let s3 := if !new_project then update_config_properties e s2 else s2
  (true, update_ui s3)

/-- The errno of the last check of `update_config`: the project file must be
writable and must not be a directory. -/
def update_config_err_code (e : PropertyDialogElements) (s : State) : Int :=
  if utils_is_file_writable s.fs e.file_name ≠ 0 then utils_is_file_writable s.fs e.file_name
  else if s.fs.is_dir e.file_name then EISDIR
  else 0

/-- The last checks of `update_config`: the project file must be writable and
not a directory, and an existing file is overwritten only after confirmation
when a new project is created. -/
def update_config_check_file (e : PropertyDialogElements) (new_project : Bool) (s : State) :
    Bool × State :=
  if update_config_err_code e s ≠ 0 then
    (false,
      gtk_widget_grab_focus "file_name"
        (SHOW_ERR
          ("Project file could not be written (errno " ++ toString (update_config_err_code e s) ++
            ").") s))
  else if new_project && s.fs.file_exists e.file_name then
    let q :=
      dialogs_show_question
        ("The file '" ++ e.file_name ++ "' already exists. Do you want to overwrite it?") s
    if !q.1 then (false, gtk_widget_grab_focus "file_name" q.2)
    else update_config_commit e new_project q.2
  else update_config_commit e new_project s

/-- The directory `update_config` tests for the base path: a relative base path
is resolved against the directory of the project file. -/
def update_config_locale_path (e : PropertyDialogElements) : String :=
  if !g_path_is_absolute e.base_path then
    -- relative base path, so add base dir of project file name
    g_build_filename (g_path_get_dirname e.file_name) e.base_path
  else e.base_path

/-- The part of `update_config` run when the base path directory does not
exist: ask whether to create it; a refusal or a failed creation is a validation
failure with the base path field refocused. -/
def update_config_create_dir (e : PropertyDialogElements) (new_project : Bool) (s : State) :
    Bool × State :=
  let q :=
    dialogs_show_question
      ("Create the project's base path directory? The path \"" ++ e.base_path ++
        "\" does not exist.") s
  let m := if q.1 then utils_mkdir q.2.fs (update_config_locale_path e) else (0, q.2.fs)
  if !q.1 || decide (m.1 ≠ 0) then
    (false,
      gtk_widget_grab_focus "base_path"
        (if m.1 ≠ 0 then
          SHOW_ERR ("Project base directory could not be created (errno " ++ toString m.1 ++ ").")
            { q.2 with fs := m.2 }
         else { q.2 with fs := m.2 }))
  else update_config_check_file e new_project { q.2 with fs := m.2 }

/-- `update_config`: verifies the data of the New and Properties dialogs,
creates `app->project` if NULL, and returns FALSE if the user needs to change
any data. -/
def update_config (e : PropertyDialogElements) (new_project : Bool) (s : State) : Bool × State :=
  if strlen e.name = 0 then
    (false, gtk_widget_grab_focus "name" (SHOW_ERR "The specified project name is too short." s))
  else if strlen e.name > MAX_NAME_LEN then
    (false,
      gtk_widget_grab_focus "name"
        (SHOW_ERR "The specified project name is too long (max. 50 characters)." s))
  else if EMPTY e.file_name then
    (false,
      gtk_widget_grab_focus "file_name"
        (SHOW_ERR "You have specified an invalid project filename." s))
  else if !EMPTY e.base_path then
    -- check whether the given directory actually exists
    if !s.fs.is_dir (update_config_locale_path e) then update_config_create_dir e new_project s
    else update_config_check_file e new_project s
  else
    -- finally test whether the given project file can be written
    update_config_check_file e new_project s

/-- The body of the loop of `run_new_dialog`: validate and commit the dialog
contents and write the project file.  The first component tells whether the
function returns here, with the project created. -/
def run_new_dialog_body (e : PropertyDialogElements) (s : State) : Bool × State :=
  let u := update_config e true s
  if u.1 then
    -- app->project is now set
    let w := write_config u.2
    if !w.1 then
      (false, destroy_project false (SHOW_ERR "Project file could not be written" w.2))
    else
      let name := ((w.2.project.map (fun p => p.name)).getD none).getD ""
      let file := ((w.2.project.map (fun p => p.file_name)).getD none).getD ""
      (true,
        ui_add_recent_project_file file
          (ui_set_statusbar ("Project \"" ++ name ++ "\" created.") w.2))
  else (false, u.2)

/-- The `do ... while (gtk_dialog_run (...) == GTK_RESPONSE_OK)` loop of
`run_new_dialog`, entered with the dialog contents `e`; `runs` are the coming
dialog responses (none left counts as a cancellation).  The first component
tells whether the function returned from inside the loop, with the project
created. -/
def run_new_dialog_loop (e : PropertyDialogElements) (runs : List DialogRun) (s : State) :
    Bool × State :=
  let b := run_new_dialog_body e s
  if b.1 then (true, b.2)
  else
    match runs with
    | [] => (false, b.2)
    | r :: rest =>
      if r.ok then run_new_dialog_loop r.e rest b.2
      else (false, b.2)

/-- `run_new_dialog`; `runs` are the responses of the successive
`gtk_dialog_run` calls with the dialog contents at each. -/
def run_new_dialog (runs : List DialogRun) (s : State) : State :=
  match runs with
  | [] => s
  | r :: rest =>
    if !r.ok then s
    else
      let h := handle_current_session s
      if !h.1 then h.2
      else
        let l := run_new_dialog_loop r.e rest h.2
        if l.1 then l.2
        else
          -- any open docs were meant to be moved into the project
          -- rewrite default session because it was cleared
          if have_session_docs l.2 then configuration_save_default_session l.2
          else
            -- reload any documents that were closed
            configuration_open_default_session (configuration_load_default_session l.2)

/-- `project_new`: `chosen` is the folder picked when `from_folder` is set
(`none`: the folder chooser was cancelled); the dialog construction itself is
not modelled. -/
def project_new (from_folder : Bool) (chosen : Option String) (runs : List DialogRun)
    (s : State) : State :=
  if from_folder && chosen.isNone then s
  else
    ui_focus_current_document (document_new_file_if_non_open (run_new_dialog runs s))

/-- The state after the test `app->project && !project_close (FALSE)` of
`run_open_dialog`: the close is attempted only when a project is active. -/
def run_open_dialog_closed (s : State) : State :=
  if s.project.isSome then (project_close false s).2 else s

/-- `run_open_dialog`; `choices` are the results of the successive runs of the
file chooser (`none`: cancelled). -/
def run_open_dialog (choices : List (Option String)) (s : State) : State :=
  match choices with
  | [] => s
  | none :: _ => s
  | some filename :: rest =>
    if s.project.isSome && !(project_close false s).1 then
      -- the empty branch: the loop is left at the `break`
      run_open_dialog_closed s
    else if !(project_load_file_with_session filename (run_open_dialog_closed s)).1 then
      -- try to load the config failed: report and run the chooser again
      run_open_dialog rest
        (SHOW_ERR ("Project file \"" ++ filename ++ "\" could not be loaded.")
          (project_load_file_with_session filename (run_open_dialog_closed s)).2)
    else (project_load_file_with_session filename (run_open_dialog_closed s)).2

/-- `project_open`: the chooser set-up is not modelled. -/
def project_open (choices : List (Option String)) (s : State) : State :=
  run_open_dialog choices s

/-- `project_ask_close`: checks whether there is an open project and asks the
user whether to close it; FALSE when the caller should be cancelled. -/
def project_ask_close (s : State) : Bool × State :=
  match s.project with
  | some p =>
    if !s.warn_on_project_close then project_close false s
    else
      let q :=
        dialogs_show_question
          ("The '" ++ p.name.getD "" ++ "' project is open. Do you want to close it before proceeding?")
          s
      if q.1 then project_close false q.2
      else (false, q.2)
  | none => (true, s)

/-- `project_get_file_prefs`: the global file preferences, or the static copy
`fp` with the four project fields copied over it. -/
def project_get_file_prefs (s : State) : GeanyFilePrefs × State :=
  if s.project.isNone then (s.file_prefs, s)
  else
    let fp := s.file_prefs
    let fp1 := { fp with final_new_line := s.priv.final_new_line }
    let fp2 := { fp1 with ensure_convert_new_lines := s.priv.ensure_convert_new_lines }
    let fp3 := { fp2 with strip_trailing_spaces := s.priv.strip_trailing_spaces }
    let fp4 := { fp3 with replace_tabs := s.priv.replace_tabs }
    (fp4, { s with fp := fp4 })

/-- `project_get_base_path`: the absolute base path of the project, or NULL. -/
def project_get_base_path (s : State) : Option String :=
  match s.project with
  | some project =>
    match project.base_path with
    | some base_path =>
      if !EMPTY base_path then
        if g_path_is_absolute base_path then some base_path
        else
          -- build base_path out of project file name's dir and base_path
          let dir := g_path_get_dirname (project.file_name.getD "")
          if base_path = "./" then some dir
          else some (g_build_filename dir base_path)
      else none
    | none => none
  | none => none

/-! ## Words of the specification -/

/-- Whether two adjacent characters of the string are both spaces. -/
def has_double_space : List Char → Bool
  | [] => false
  | [_] => false
  | c :: d :: rest => (decide (c = ' ') && decide (d = ' ')) || has_double_space (d :: rest)

/-- Follows the spec's words: "the ordered list of the non-empty space-separated
tokens" of a string. -/
def nonempty_space_tokens (cs : List Char) : List (List Char) :=
  (splitOnChar ' ' cs).filter (fun t => !t.isEmpty)

/-- The stash groups `create_project` registers (the list is built by
prepending, so the last group registered comes first). -/
def project_stash_groups (fp : GeanyFilePrefs) (ep : GeanyEditorPrefs) : List StashGroup :=
  [editor_group ep, file_prefs_group fp, indentation_group]

/-- The allocation view of the state: whether a project is active, the
registered stash groups and the allocation counters. -/
def State.alloc_part (s : State) : Bool × List StashGroup × Nat × Nat :=
  (s.project.isSome, s.stash_groups, s.live_projects, s.peak_projects)

/-- The singleton invariant: exactly the active project is allocated, never
more than one project was allocated at a time, and the three stash groups of
`init_stash_prefs` are registered exactly while a project is active. -/
def singleton_inv (s : State) : Prop :=
  s.live_projects = (if s.project.isSome then 1 else 0) ∧ s.peak_projects ≤ 1 ∧
    (s.project.isSome = false → s.stash_groups = []) ∧
    (s.project.isSome = true → ∃ fp ep, s.stash_groups = project_stash_groups fp ep)

/-- The project part of the state: the singleton, the statics it points at,
the registered stash groups and the allocation counters. -/
def State.project_part (s : State) :
    Option GeanyProject × GeanyProjectPrivate × GeanyIndentPrefs × List StashGroup × Nat × Nat :=
  (s.project, s.priv, s.indentation, s.stash_groups, s.live_projects, s.peak_projects)

/-- The documents as the session logic sees them: file name and modification
flag of every page, and the current page. -/
def State.doc_shape (s : State) : List (Option String × Bool) × Nat :=
  (s.docs.map (fun d => (d.file_name, d.changed)), s.cur_page)

/-- The session part of the state: the documents as the session logic sees
them, the persisted default session and the loaded default session. -/
def State.session_part (s : State) :
    (List (Option String × Bool) × Nat) × List String × List String :=
  (s.doc_shape, s.default_session, s.default_session_files)

/-- The global file and editor preferences. -/
def State.global_prefs (s : State) : GeanyFilePrefs × GeanyEditorPrefs :=
  (s.file_prefs, s.editor_prefs)

/-- The preference-overlay fields of the active project: the settings of the
indentation, file_prefs and editor stash groups. -/
def overlay_fields (s : State) :
    GeanyIndentPrefs × (Bool × Bool × Bool × Bool) × (Bool × Int × Bool) :=
  (s.indentation,
    (s.priv.final_new_line, s.priv.ensure_convert_new_lines, s.priv.strip_trailing_spaces,
      s.priv.replace_tabs),
    (s.priv.line_wrapping, s.priv.line_break_column, s.priv.auto_continue_multiline))

/-! ## Startup state and operation sequences -/

/-- Global indentation defaults used by the startup state. -/
def default_indent_prefs : GeanyIndentPrefs :=
  { width := 4, type := 1, hard_tab_width := 8, auto_indent_mode := 2,
    detect_type := false, detect_width := false }

/-- Global file preferences used by the startup state. -/
def default_file_prefs : GeanyFilePrefs :=
  { final_new_line := true, ensure_convert_new_lines := false, strip_trailing_spaces := false,
    replace_tabs := false, cmdline_new_files := true, mru_length := 10, rest := [] }

/-- Global editor preferences used by the startup state. -/
def default_editor_prefs : GeanyEditorPrefs :=
  { indentation := default_indent_prefs, line_wrapping := false, line_break_column := 72,
    auto_continue_multiline := true, long_line_column := 72 }

/-- The state after `main_init` of libmain.c: no project, no document, an empty
recent-projects queue, `opening_session_files` zero; on an empty file system,
with nothing scripted. -/
def main_init : State :=
  { project := none, priv := GeanyProjectPrivate.zero, indentation := default_indent_prefs,
    stash_groups := [], fp := default_file_prefs, project_file_path := none,
    session_file := none, project_file_in_basedir := false,
    file_prefs := default_file_prefs, editor_prefs := default_editor_prefs,
    cl_options := { load_session := true, new_instance := false, readonly := false,
                    goto_line := -1, goto_column := -1 },
    prefs_load_session := true, warn_on_project_close := false,
    opening_session_files := 0, quitting := false,
    docs := [], cur_page := 0, filetypes := [], build_proj := [],
    fs := { files := [], dirs := [], readonly := [], no_space := [] },
    default_session := [], default_session_files := [], recent_projects := [],
    close_all_script := [], question_script := [], log := [],
    live_projects := 0, peak_projects := 0 }

/-- A dialog whose fields are all empty. -/
def empty_dialog : PropertyDialogElements :=
  { name := "", file_name := "", base_path := "", description := "", patterns := "",
    radio_long_line_disabled := false, radio_long_line_default := true, spin_long_line := 72,
    widgets := [], build_ft_cmds := none, build_proj_cmds := [], entries_modified := false }

/-- A project file as found on disk: a name, a description, file patterns and
two session files. -/
def demo_key_file : GKeyFile :=
  [("project", "name", KVal.str "demo"), ("project", "description", KVal.str "old notes"),
   ("project", "file_patterns", KVal.strlist ["*.old"]),
   ("files", "session_files", KVal.strlist ["/src/a.c", "/src/b.c"])]

/-- The startup state with a project file, an unparsable file and a read-only
path on disk. -/
def demo_state : State :=
  { main_init with
      fs := { files := [("/p.geany", FileData.keyfile demo_key_file),
                        ("/bad.geany", FileData.garbage)],
              dirs := ["/"], readonly := ["/ro.geany"], no_space := [] } }

/-- The New Project dialog filled in with a name and the path of the project
file, the base path left empty. -/
def demo_dialog : PropertyDialogElements :=
  { empty_dialog with name := "demo", file_name := "/p.geany" }

/-- The state after the project file on disk was loaded. -/
def loaded_state : State := (load_config "/p.geany" demo_state).2

/-- The state after a New Project dialog created a project over the existing
project file, the overwrite confirmed. -/
def overwrite_state : State :=
  (update_config demo_dialog true { demo_state with question_script := [true] }).2

/-- A state with one unsaved document, no project, and a user who will refuse
to have the documents closed. -/
def unsaved_state : State :=
  { demo_state with
      docs := [{ file_name := none, changed := true, file_type := none,
                 applied := default_editor_prefs }],
      close_all_script := [false] }

/-- A state with two documents backed by files and no project; the user will
answer yes to two questions. -/
def two_docs_state : State :=
  { demo_state with
      docs := [GeanyDocument.fresh (some "/src/a.c") default_editor_prefs,
               GeanyDocument.fresh (some "/src/b.c") default_editor_prefs],
      cur_page := 1,
      question_script := [true, true] }

/-- A user-level lifecycle operation together with its scripted dialog input. -/
inductive Op where
  /-- `project_new` -/
  | new_project (from_folder : Bool) (chosen : Option String) (runs : List DialogRun)
  /-- `project_open` -/
  | open_project (choices : List (Option String))
  /-- `project_load_file_with_session` -/
  | load (path : String)
  /-- `project_load_file` -/
  | load_file (path : String)
  /-- `project_close` -/
  | close (open_default : Bool)
  /-- `project_ask_close` -/
  | ask_close

/-- Run one operation. -/
def Op.run (op : Op) (s : State) : State :=
  match op with
  | Op.new_project from_folder chosen runs => project_new from_folder chosen runs s
  | Op.open_project choices => project_open choices s
  | Op.load path => (project_load_file_with_session path s).2
  | Op.load_file path => (project_load_file path s).2
  | Op.close open_default => (project_close open_default s).2
  | Op.ask_close => (project_ask_close s).2

/-- Run a sequence of operations, first to last. -/
def run_ops (ops : List Op) (s : State) : State := ops.foldl (fun st op => op.run st) s

/-! ## Signals, own keys and the settled part of the state -/

/-- The names of the signals emitted in a stretch of the log, in order. -/
def signals (l : List Event) : List String :=
  l.filterMap (fun e => match e with
    | Event.signal n => some n
    | _ => none)

/-- Whether a section and key is one a registered stash group writes. -/
def stash_groups_key (s : State) (group key : String) : Bool :=
  s.stash_groups.any (fun g =>
    decide (g.name = group) && g.entries.any (fun p => decide (p.key_name = key)))

/-- Follows the spec's words: the project's own keys in the project file:
"name, base_path, description (if set), file_patterns (if set), long-line
behavior/column, the preference-overlay stash keys, the current
DefaultSession-shaped list of session files ..., and the project-scoped build
configuration"; the session files and the build configuration are the
collaborators' sections as a whole. -/
def write_config_own_key (s : State) (group key : String) : Bool :=
  (decide (group = "project") &&
      ["name", "base_path", "description", "file_patterns"].contains key) ||
    (decide (group = "long line marker") &&
      ["long_line_behaviour", "long_line_column"].contains key) ||
    stash_groups_key s group key ||
    decide (group = "files") ||
    decide (group = "build-menu")

/-- The loaded demo project with a project file on disk that holds a key of a
plugin besides a description. -/
def foreign_state : State :=
  { loaded_state with
      fs := { loaded_state.fs with
                files := [("/p.geany", FileData.keyfile
                  [("plugin", "x", KVal.int 7), ("project", "description", KVal.str "old")])] } }

/-- The state with the log, the scripted answers and the file system blanked:
the part the checks of `update_config` (messages, questions, the creation of
the base directory) cannot change. -/
def State.settled_part (s : State) : State :=
  { s with log := [], question_script := [], close_all_script := [],
           fs := { files := [], dirs := [], readonly := [], no_space := [] } }

/-! ## libmain.c: the startup files -/

/-- `g_str_has_suffix`. -/
def g_str_has_suffix (str suffix : String) : Bool := suffix.data.isSuffixOf str.data

/-- `g_ascii_isdigit`. -/
def g_ascii_isdigit (c : Char) : Bool := decide ('0' ≤ c) && decide (c ≤ '9')

/-- The digits read by `atoi`, most significant first. -/
def atoi_digits : List Char → Nat → Nat
  | [], acc => acc
  | c :: rest, acc =>
    if g_ascii_isdigit c then atoi_digits rest (acc * 10 + (c.toNat - 48)) else acc

/-- `G_MAXINT`: the largest value of a `gint`, which has 32 bits. -/
def G_MAXINT : Int := 2147483647

/-- `G_MININT`: the smallest value of a `gint`. -/
def G_MININT : Int := -2147483648

/-- The conversion of an integer value to `int`: the low 32 bits, read as two's
complement. -/
def to_gint (v : Int) : Int := (v + 2147483648) % 4294967296 - 2147483648

/-- `atoi` of the C library: leading white space, an optional sign, then the
decimal digits up to the first other character.  The result is an `int`: a
value in its range is returned as it is; for a value outside it C leaves the
result undefined, and the model keeps the low 32 bits (which is what the GNU C
library returns for a value in the range of `long`). -/
def atoi (cs : List Char) : Int :=
  to_gint
    (match g_strchug cs with
     | '-' :: rest => - (atoi_digits rest 0 : Int)
     | '+' :: rest => (atoi_digits rest 0 : Int)
     | rest => (atoi_digits rest 0 : Int))

/-- Whether "://" occurs in the characters. -/
def has_scheme_separator : List Char → Bool
  | [] => false
  | c :: rest => "://".data.isPrefixOf (c :: rest) || has_scheme_separator rest

/-- Modelled from the spec: `utils_is_uri` of utils.c (command-line glue, an
external collaborator): whether the string contains "://". -/
def utils_is_uri (uri : String) : Bool := has_scheme_separator uri.data

/-- Modelled from the spec: `utils_get_path_from_uri` of utils.c (command-line
glue, an external collaborator): a string that is no URI is returned as it is; a
"file://" URI gives its path; any other URI gives NULL. -/
def utils_get_path_from_uri (uri : String) : Option String :=
  if !utils_is_uri uri then some uri
  else if "file://".data.isPrefixOf uri.data then some (String.mk (uri.data.drop 7))
  else none

/-- `main_get_argv_filename`: the full file path of a command-line argument;
`cwd` is `original_cwd`, or the current directory when that is NULL. -/
def main_get_argv_filename (cwd : String) (filename : String) : String :=
  if g_path_is_absolute filename || utils_is_uri filename then filename
  else cwd ++ "/" ++ filename

/-- The variables of `get_line_and_column_from_filename`. -/
structure LineColumn where
  filename : List Char
  colon_count : Nat
  have_number : Bool
  line : Int
  column : Int
  deriving DecidableEq

/-- The loop of `get_line_and_column_from_filename`, `for (i = len - 1; i >= 1;
i--)`, from index `i` downwards. -/
def get_line_and_column_loop : Nat → LineColumn → LineColumn
  | 0, st => st
  | i + 1, st =>
    let c := st.filename.getD (i + 1) (Char.ofNat 0)
    let is_colon := decide (c = ':')
    let is_digit := g_ascii_isdigit c
    if !is_colon && !is_digit then st
    else
      let colon_count := if is_colon then st.colon_count + 1 else 0
      if is_colon && decide (colon_count > 1) then { st with colon_count := colon_count }
      else
        let have_number := st.have_number || is_digit
        let st2 : LineColumn :=
          if is_colon && have_number then
            { filename := st.filename.take (i + 1), colon_count := colon_count,
              have_number := false, line := atoi (st.filename.drop (i + 2)), column := st.line }
          else { st with colon_count := colon_count, have_number := have_number }
        if st2.column ≥ 0 then st2 else get_line_and_column_loop i st2

/-- `get_line_and_column_from_filename`: get a :line:column specifier from the
end of a filename (if present), return the line/column values, and remove the
specifier from the string. -/
def get_line_and_column_from_filename (fs : FS) (filename : String) : LineColumn :=
  let st : LineColumn :=
    { filename := filename.data, colon_count := 0, have_number := false, line := -1, column := -1 }
  if EMPTY filename then st
  -- allow to open files like "test:0"
  else if fs.file_exists filename then st
  else get_line_and_column_loop (filename.data.length - 1) st

/-- Modelled from the spec: `document_find_by_filename` and `document_show_tab`,
or else `document_new_file (utf8_filename, NULL, NULL)`, of document.c: show the
document of that name, or create a new document with the name. -/
def document_show_or_new_file (utf8_filename : String) (s : State) : State :=
  match s.docs.findIdx? (fun d => decide (d.file_name = some utf8_filename)) with
  | some i => { s with cur_page := i }
  | none =>
    ({ s with
        docs := s.docs ++ [GeanyDocument.fresh (some utf8_filename) (editor_get_prefs s)],
        cur_page := s.docs.length }).emit Event.new_file

/-- The two assignments of `main_handle_filename` that store a line and a column
that were found into `cl_options`. -/
def main_handle_goto (lc : LineColumn) (s : State) : State :=
  let s1 :=
    if lc.line ≥ 0 then { s with cl_options := { s.cl_options with goto_line := lc.line } }
    else s
  if lc.column ≥ 0 then { s1 with cl_options := { s1.cl_options with goto_column := lc.column } }
  else s1

/-- `main_handle_filename`: used for command-line arguments at startup; this
strips any :line:col filename suffix (`ui_add_recent_document` only touches the
recent files menu, which is not part of the state). -/
def main_handle_filename (locale_filename : String) (s : State) : Bool × State :=
  -- check whether the passed filename is an URI
  match utils_get_path_from_uri locale_filename with
  | none => (false, s)
  | some filename0 =>
    let lc := get_line_and_column_from_filename s.fs filename0
    let filename := String.mk lc.filename
    let s2 := main_handle_goto lc s
    if (s2.fs.read filename).isSome then (true, document_open_file filename s2)
    else if s2.file_prefs.cmdline_new_files then
      -- create new file with the given filename
      (true, document_show_or_new_file filename s2)
    else (false, s2)

/-- One round of the loop of `open_cl_files`: directories are skipped; a file
that cannot be handled is reported in the status bar (and on the terminal). -/
def open_cl_file (cwd : String) (arg : String) (s : State) : State :=
  let filename := main_get_argv_filename cwd arg
  if s.fs.is_dir filename then s
  else
    let r := main_handle_filename filename s
    if !r.1 then ui_set_statusbar ("Could not find file '" ++ filename ++ "'.") r.2
    else r.2

/-- `open_cl_files`: open files from command line (`argv[0]` is skipped). -/
def open_cl_files (cwd : String) (argv : List String) (s : State) : State :=
  (argv.drop 1).foldl (fun st arg => open_cl_file cwd arg st) s

/-- `load_session_project_file`; it returns at once when
`project_prefs.session_file` is NULL. -/
def load_session_project_file (s : State) : State :=
  match s.session_file with
  | none => s
  | some locale_filename =>
    if !EMPTY locale_filename then (project_load_file locale_filename s).2 else s

/-- `main_load_project_from_command_line`. -/
def main_load_project_from_command_line (locale_filename : String) (use_session : Bool)
    (s : State) : State :=
  match utils_get_path_from_uri locale_filename with
  | some pfile =>
    if use_session then (project_load_file_with_session pfile s).2
    else (project_load_file pfile s).2
  | none => s

/-- First part of `load_startup_files`: a project file specified on the command
line is loaded (the session is decided later) and taken off the arguments; the
result holds `load_session` and the remaining arguments. -/
def load_startup_files_project (cwd : String) (argv : List String) (s : State) :
    Bool × List String × State :=
  match argv with
  | a0 :: a1 :: rest =>
    if g_str_has_suffix a1 ".geany" then
      -- force session load if using project-based session files
      (true, a1 :: rest, main_load_project_from_command_line (main_get_argv_filename cwd a1) false s)
    else (false, a0 :: a1 :: rest, s)
  | _ => (false, argv, s)

/-- Second part of `load_startup_files`: load the default session if "Load
files from the last session" is active, --no-session is not specified and this
is a primary instance; the session project file comes first. -/
def load_startup_files_session (load_session : Bool) (s : State) : Bool × State :=
  if s.prefs_load_session && s.cl_options.load_session && !s.cl_options.new_instance then
    let s1 := if s.project.isNone then load_session_project_file s else s
    let s2 := if s1.project.isNone then configuration_load_default_session s1 else s1
    (true, s2)
  else (load_session, s)

/-- Third part of `load_startup_files`: load session files into tabs, as they
are found in the session_files variable. -/
def load_startup_files_open (load_session : Bool) (s : State) : State :=
  if load_session then
    if s.project.isSome then
      let s1 := configuration_open_files s.priv.session_files s
      { s1 with priv := { s1.priv with session_files := none } }
    else configuration_open_default_session s
  else s

/-- `load_startup_files`. -/
def load_startup_files (cwd : String) (argv : List String) (s : State) : State :=
  let a := load_startup_files_project cwd argv s
  let b := load_startup_files_session a.1 a.2.2
  open_cl_files cwd a.2.1 (load_startup_files_open b.1 b.2)

/-- The part of `main_lib` that loads any command line files or session files:
the counter of session files being opened is raised around
`load_startup_files`, then a new file is opened if no other file was. -/
def main_lib_startup_files (cwd : String) (argv : List String) (s : State) : State :=
  let s1 := { s with opening_session_files := s.opening_session_files + 1 }
  let s2 := load_startup_files cwd argv s1
  let s3 := { s2 with opening_session_files := s2.opening_session_files - 1 }
  document_new_file_if_non_open s3

/-- A state in which `main_lib` calls `load_startup_files`: the counter of
session files being opened is raised, and the two session files the project
file names exist, as does a third file. -/
def startup_state : State :=
  { demo_state with
      opening_session_files := 1,
      fs := { demo_state.fs with
                files := demo_state.fs.files ++
                  [("/src/a.c", FileData.garbage), ("/src/b.c", FileData.garbage),
                   ("/home/u/c.txt", FileData.garbage)] } }

/-! ## The Properties dialog and failed writes -/

/-- The loaded demo project in an instance started with --no-session, with a
default session of one file on record. -/
def no_session_state : State :=
  { loaded_state with
      cl_options := { loaded_state.cl_options with load_session := false },
      default_session := ["/src/a.c"] }

/-- The loaded demo project with a user who will refuse the next close of the
documents. -/
def refusing_project_state : State :=
  { loaded_state with close_all_script := [false] }

/-- The loop `while (gtk_dialog_run (...) == GTK_RESPONSE_OK)` of
`show_project_properties`; `runs` are the coming dialog responses with the
dialog contents at each (none left counts as a cancellation). -/
def show_project_properties_loop (runs : List DialogRun) (s : State) : State :=
  match runs with
  | [] => s
  | r :: rest =>
    if !r.ok then s
    else
      let u := update_config r.e false s
      if u.1 then
        let s1 := g_signal_emit_by_name "project-dialog-confirmed" u.2
        let w := write_config s1
        if !w.1 then
          show_project_properties_loop rest (SHOW_ERR "Project file could not be written" w.2)
        else
          let name := ((w.2.project.map (fun p => p.name)).getD none).getD ""
          ui_set_statusbar ("Project \"" ++ name ++ "\" saved.") w.2
      else show_project_properties_loop rest u.2

/-- `show_project_properties`: it returns at once without a project; filling
and showing the dialog is not modelled, the notifications around the loop
are. -/
def show_project_properties (runs : List DialogRun) (s : State) : State :=
  match s.project with
  | none => s
  | some _ =>
    g_signal_emit_by_name "project-dialog-close"
      (show_project_properties_loop runs (g_signal_emit_by_name "project-dialog-open" s))

/-- The loaded demo project on a disk that is full: the project file passes
the access check and cannot be written. -/
def full_disk_state : State :=
  { loaded_state with fs := { loaded_state.fs with no_space := ["/p.geany"] } }

/-- The startup state on a disk where a new project file "/n.geany" cannot be
written although the access check passes. -/
def full_disk_startup_state : State :=
  { demo_state with fs := { demo_state.fs with no_space := ["/n.geany"] } }

/-! ## The New Project dialog entries -/

/-- GLib `g_path_get_basename` on a POSIX system: the last element of the path
without trailing slashes; "." for the empty string and "/" for a string of
slashes. -/
def g_path_get_basename (p : String) : String :=
  match p.data with
  | [] => "."
  | c :: cs =>
    match (c :: cs).reverse.dropWhile (fun x => decide (x = '/')) with
    | [] => "/"
    | d :: ds => String.mk (((d :: ds).takeWhile (fun x => decide (x ≠ '/'))).reverse)

/-- The constant `GEANY_PROJECT_EXT`. -/
def GEANY_PROJECT_EXT : String := "geany"

/-- `on_entries_changed`: the handler of the "changed" signal of the file name
and base path entries of the New Project dialog. -/
def on_entries_changed (e : PropertyDialogElements) : PropertyDialogElements :=
  { e with entries_modified := true }

/-- The "changed" signal of an entry after `gtk_entry_set_text`: GTK emits it
when the text is different from the old one, and the handler runs when it is
connected. -/
def entry_text_changed (connected : Bool) (old new : String) (e : PropertyDialogElements) :
    PropertyDialogElements :=
  if connected && decide (old ≠ new) then on_entries_changed e else e

/-- The project directory `update_new_project_dlg` derives the entries from:
the project files directory of the preferences, else the directory of the
current document, else the home directory. -/
def new_project_dir (home : String) (s : State) : String :=
  if !EMPTY (s.project_file_path.getD "") then s.project_file_path.getD ""
  else
    match document_get_current s with
    | some doc =>
      match doc.file_name with
      | some f => g_path_get_dirname f
      | none => home
    | none => home

/-- The name, base path and file name `update_new_project_dlg` computes: from
the base path when one is given, else from the text of the name entry. -/
def new_project_entries (home : String) (base_p : Option String) (name_text : String)
    (s : State) : String × String × String :=
  let project_dir := new_project_dir home s
  if !EMPTY (base_p.getD "") then
    let name := g_path_get_basename (base_p.getD "")
    let base_path := base_p.getD ""
    (name, base_path,
      if s.project_file_in_basedir then base_path ++ "/" ++ name ++ "." ++ GEANY_PROJECT_EXT
      else project_dir ++ "/" ++ name ++ "." ++ GEANY_PROJECT_EXT)
  else
    let name := name_text
    if !EMPTY name then
      (name, project_dir ++ "/" ++ name ++ "/",
        if s.project_file_in_basedir then
          project_dir ++ "/" ++ name ++ "/" ++ name ++ "." ++ GEANY_PROJECT_EXT
        else project_dir ++ "/" ++ name ++ "." ++ GEANY_PROJECT_EXT)
    else (name, project_dir ++ "/", project_dir ++ "/")

/-- `update_new_project_dlg`: sets the New Project dialog entries according to
the base path or project name.  `connected` tells whether the "changed"
handlers of the entries are connected, which `project_new` does only when it
passes no base path (so the name entry is set while no handler is connected). -/
def update_new_project_dlg (home : String) (connected : Bool) (base_p : Option String)
    (e : PropertyDialogElements) (s : State) : PropertyDialogElements :=
  if e.entries_modified then e
  else
    let r := new_project_entries home base_p e.name s
    let e1 := { e with name := r.1 }
    let e2 := entry_text_changed connected e1.base_path r.2.1 { e1 with base_path := r.2.1 }
    let e3 := entry_text_changed connected e2.file_name r.2.2 { e2 with file_name := r.2.2 }
    { e3 with entries_modified := false }

/-- `on_name_entry_changed`: the handler of the "changed" signal of the name
entry, connected together with the handlers of the other two entries. -/
def on_name_entry_changed (home : String) (e : PropertyDialogElements) (s : State) :
    PropertyDialogElements :=
  update_new_project_dlg home true none e s

/-! ## The default session at startup -/

/-- What decides whether `load_startup_files` loads and opens the default
session, and what records it: the preference "Load files from the last
session", the command-line options, the loaded default session files, and
the number of times `configuration_load_default_session` ran. -/
def State.startup_part (s : State) : Bool × CommandLineOptions × List String × Nat :=
  (s.prefs_load_session, s.cl_options, s.default_session_files,
    s.log.count Event.load_default_session)

/-- The startup state with "Load files from the last session" switched off and a
default session persisted. -/
def no_load_session_state : State :=
  { startup_state with prefs_load_session := false, default_session := ["/home/u/c.txt"] }

/-- The startup state with a default session persisted and the demo project
recorded as the session project. -/
def session_project_state : State :=
  { startup_state with session_file := some "/p.geany", default_session := ["/home/u/c.txt"] }

/-- The startup state with a default session persisted and no session project. -/
def default_session_state : State :=
  { startup_state with default_session := ["/home/u/c.txt"] }

/-! ## The line and column specifier -/

/-- The value of a string of decimal digits. -/
def decimal_value (digits : List Char) : Nat :=
  digits.foldl (fun acc c => acc * 10 + (c.toNat - 48)) 0

/-- Whether characters read backwards from the end are decimal digits (possibly
none) and then a colon. -/
def colon_after_digits : List Char → Bool
  | [] => false
  | c :: rest =>
    if c = ':' then true else if g_ascii_isdigit c then colon_after_digits rest else false

/-- Whether characters read backwards from the end are one or more decimal
digits and then a colon. -/
def colon_digits_reversed : List Char → Bool
  | [] => false
  | c :: rest => g_ascii_isdigit c && colon_after_digits rest

/-- Whether the characters end in ":digits": a colon and one or more decimal
digits up to the end. -/
def ends_in_colon_digits (w : List Char) : Bool := colon_digits_reversed w.reverse

/-- Characters read backwards from the end without a colon at their start. -/
def strip_colon_reversed : List Char → List Char
  | [] => []
  | c :: rest => if c = ':' then rest else c :: rest

/-- The characters without one trailing colon. -/
def strip_colon (w : List Char) : List Char := (strip_colon_reversed w.reverse).reverse

/-! # Theorems -/

/-! ## Strings -/

theorem strlen_eq_zero_iff (s : String) : strlen s = 0 ↔ s = "" := by
  constructor
  · intro h
    cases s with
    | mk cs =>
      cases cs with
      | nil => rfl
      | cons c cs =>
        exfalso
        simp only [strlen, String.utf8ByteSize, String.utf8ByteSize.go] at h
        have := Char.utf8Size_pos c
        omega
  · intro h
    subst h
    rfl

/-! ## The file patterns normalisation -/

theorem splitOnChar_ne_nil (d : Char) (cs : List Char) : splitOnChar d cs ≠ [] := by
  induction cs with
  | nil => simp [splitOnChar]
  | cons c cs ih =>
    unfold splitOnChar
    split
    · simp
    · split
      · contradiction
      · simp

theorem splitOnChar_cons_ne (d c : Char) (cs : List Char) (h : c ≠ d) :
    splitOnChar d (c :: cs) = (c :: (splitOnChar d cs).headD []) :: (splitOnChar d cs).tail := by
  have hne := splitOnChar_ne_nil d cs
  rw [splitOnChar]
  simp only [h, if_false]
  cases hs : splitOnChar d cs with
  | nil => exact absurd hs hne
  | cons t ts => simp

theorem splitOnChar_cons_eq (d : Char) (cs : List Char) :
    splitOnChar d (d :: cs) = [] :: splitOnChar d cs := by
  rw [splitOnChar]; simp

theorem splitOnChar_eq_head_tail (d : Char) (cs : List Char) :
    splitOnChar d cs = (splitOnChar d cs).headD [] :: (splitOnChar d cs).tail := by
  have hne := splitOnChar_ne_nil d cs
  cases hs : splitOnChar d cs with
  | nil => exact absurd hs hne
  | cons t ts => simp

theorem tokens_eq (cs : List Char) :
    nonempty_space_tokens cs =
      [(splitOnChar ' ' cs).headD []].filter (fun t => !t.isEmpty) ++
        (splitOnChar ' ' cs).tail.filter (fun t => !t.isEmpty) := by
  unfold nonempty_space_tokens
  conv => lhs; rw [splitOnChar_eq_head_tail]
  rw [← List.filter_append]
  rfl

theorem replace_all_split (cs : List Char) :
    (splitOnChar ' ' (utils_string_replace_all_spaces cs).2).headD [] =
        (splitOnChar ' ' cs).headD [] ∧
      (splitOnChar ' ' (utils_string_replace_all_spaces cs).2).tail.filter (fun t => !t.isEmpty) =
        (splitOnChar ' ' cs).tail.filter (fun t => !t.isEmpty) := by
  induction cs using utils_string_replace_all_spaces.induct with
  | case1 => simp [utils_string_replace_all_spaces]
  | case2 c => simp [utils_string_replace_all_spaces]
  | case3 c d rest h ih =>
    obtain ⟨hc, hd⟩ := h
    subst hc; subst hd
    have e1 := tokens_eq rest
    have e2 := tokens_eq (utils_string_replace_all_spaces rest).2
    rw [ih.1, ih.2, ← e1] at e2
    simp only [utils_string_replace_all_spaces, and_self, if_true, splitOnChar_cons_eq,
      List.headD_cons, List.tail_cons]
    refine ⟨trivial, ?_⟩
    simpa [nonempty_space_tokens] using e2
  | case4 c d rest h ih =>
    have e1 := tokens_eq (d :: rest)
    have e2 := tokens_eq (utils_string_replace_all_spaces (d :: rest)).2
    rw [ih.1, ih.2, ← e1] at e2
    simp only [utils_string_replace_all_spaces, h, if_false]
    by_cases hc : c = ' '
    · subst hc
      simp only [splitOnChar_cons_eq, List.headD_cons, List.tail_cons]
      refine ⟨trivial, ?_⟩
      simpa [nonempty_space_tokens] using e2
    · rw [splitOnChar_cons_ne _ _ _ hc, splitOnChar_cons_ne _ _ _ hc]
      simp only [List.headD_cons, List.tail_cons]
      exact ⟨by rw [ih.1], ih.2⟩

theorem replace_all_tokens (cs : List Char) :
    nonempty_space_tokens (utils_string_replace_all_spaces cs).2 = nonempty_space_tokens cs := by
  rw [tokens_eq, tokens_eq cs, (replace_all_split cs).1, (replace_all_split cs).2]

theorem replace_all_length (cs : List Char) :
    (utils_string_replace_all_spaces cs).2.length + (utils_string_replace_all_spaces cs).1 =
      cs.length := by
  induction cs using utils_string_replace_all_spaces.induct with
  | case1 => simp [utils_string_replace_all_spaces]
  | case2 c => simp [utils_string_replace_all_spaces]
  | case3 c d rest h ih =>
    simp only [utils_string_replace_all_spaces, h, and_self, if_true, List.length_cons]
    omega
  | case4 c d rest h ih =>
    simp only [utils_string_replace_all_spaces, h, if_false, List.length_cons] at ih ⊢
    omega

theorem replace_all_count_zero (cs : List Char) :
    (utils_string_replace_all_spaces cs).1 = 0 ↔ has_double_space cs = false := by
  induction cs using utils_string_replace_all_spaces.induct with
  | case1 => simp [utils_string_replace_all_spaces, has_double_space]
  | case2 c => simp [utils_string_replace_all_spaces, has_double_space]
  | case3 c d rest h ih =>
    simp [utils_string_replace_all_spaces, h, has_double_space]
  | case4 c d rest h ih =>
    simp only [utils_string_replace_all_spaces, h, if_false, has_double_space]
    rw [ih]
    have : (decide (c = ' ') && decide (d = ' ')) = false := by
      simpa using h
    simp [this]

theorem replace_all_fixed (cs : List Char) (h : (utils_string_replace_all_spaces cs).1 = 0) :
    (utils_string_replace_all_spaces cs).2 = cs := by
  induction cs using utils_string_replace_all_spaces.induct with
  | case1 => simp [utils_string_replace_all_spaces]
  | case2 c => simp [utils_string_replace_all_spaces]
  | case3 c d rest hh ih =>
    simp [utils_string_replace_all_spaces, hh] at h
  | case4 c d rest hh ih =>
    simp only [utils_string_replace_all_spaces, hh, if_false] at h ⊢
    rw [ih h]

theorem replace_all_head (cs : List Char) :
    (utils_string_replace_all_spaces cs).2.head? = cs.head? := by
  induction cs using utils_string_replace_all_spaces.induct with
  | case1 => simp [utils_string_replace_all_spaces]
  | case2 c => simp [utils_string_replace_all_spaces]
  | case3 c d rest hh ih =>
    simp [utils_string_replace_all_spaces, hh]
  | case4 c d rest hh ih =>
    simp [utils_string_replace_all_spaces, hh]

theorem replace_all_eq_nil (cs : List Char) :
    (utils_string_replace_all_spaces cs).2 = [] ↔ cs = [] := by
  constructor
  · intro h
    have := replace_all_head cs
    rw [h] at this
    cases cs with
    | nil => rfl
    | cons c cs => simp at this
  · intro h; subst h; simp [utils_string_replace_all_spaces]

theorem replace_all_getLast (cs : List Char) :
    (utils_string_replace_all_spaces cs).2.getLast? = cs.getLast? := by
  induction cs using utils_string_replace_all_spaces.induct with
  | case1 => simp [utils_string_replace_all_spaces]
  | case2 c => simp [utils_string_replace_all_spaces]
  | case3 c d rest hh ih =>
    obtain ⟨hc, hd⟩ := hh
    subst hc; subst hd
    simp only [utils_string_replace_all_spaces, and_self, if_true]
    cases rest with
    | nil => simp [utils_string_replace_all_spaces]
    | cons x xs =>
      have hne : (utils_string_replace_all_spaces (x :: xs)).2 ≠ [] := by
        intro h0
        have := (replace_all_eq_nil (x :: xs)).1 h0
        simp at this
      rw [List.getLast?_cons_cons, List.getLast?_cons_cons, ← ih]
      cases hr : (utils_string_replace_all_spaces (x :: xs)).2 with
      | nil => exact absurd hr hne
      | cons y ys => rw [List.getLast?_cons_cons]
  | case4 c d rest hh ih =>
    simp only [utils_string_replace_all_spaces, hh, if_false]
    have hne : (utils_string_replace_all_spaces (d :: rest)).2 ≠ [] := by
      intro h0
      have := (replace_all_eq_nil (d :: rest)).1 h0
      simp at this
    rw [List.getLast?_cons_cons, ← ih]
    cases hr : (utils_string_replace_all_spaces (d :: rest)).2 with
    | nil => exact absurd hr hne
    | cons y ys => rw [List.getLast?_cons_cons]

theorem collapse_loop_spec (fuel : Nat) (cs : List Char) (h : cs.length < fuel) :
    ∃ str, collapse_spaces_loop fuel cs = some str ∧ has_double_space str = false ∧
      str.head? = cs.head? ∧ str.getLast? = cs.getLast? ∧
      nonempty_space_tokens str = nonempty_space_tokens cs := by
  induction fuel generalizing cs with
  | zero => omega
  | succ n ih =>
    unfold collapse_spaces_loop
    by_cases h0 : (utils_string_replace_all_spaces cs).1 = 0
    · simp only [h0, if_true]
      have hfix := replace_all_fixed cs h0
      refine ⟨_, rfl, ?_, ?_, ?_, ?_⟩
      · rw [hfix]; exact (replace_all_count_zero cs).1 h0
      · rw [hfix]
      · rw [hfix]
      · rw [hfix]
    · simp only [h0, if_false]
      have hlen := replace_all_length cs
      have hlt : (utils_string_replace_all_spaces cs).2.length < n := by omega
      obtain ⟨str, h1, h2, h3, h4, h5⟩ := ih _ hlt
      refine ⟨str, h1, h2, ?_, ?_, ?_⟩
      · rw [h3, replace_all_head]
      · rw [h4, replace_all_getLast]
      · rw [h5, replace_all_tokens]

theorem has_double_space_tail (c : Char) (cs : List Char) (h : has_double_space (c :: cs) = false) :
    has_double_space cs = false := by
  cases cs with
  | nil => rfl
  | cons d rest =>
    simp only [has_double_space, Bool.or_eq_false_iff] at h
    exact h.2

theorem splitOnChar_clean (cs : List Char) (h1 : has_double_space cs = false)
    (h2 : cs.getLast? ≠ some ' ') :
    (∀ t ∈ (splitOnChar ' ' cs).tail, t ≠ []) ∧
      ((splitOnChar ' ' cs).headD [] = [] → cs = [] ∨ cs.head? = some ' ') := by
  induction cs with
  | nil => simp [splitOnChar]
  | cons c cs ih =>
    have hd := has_double_space_tail c cs h1
    by_cases hc : c = ' '
    · subst hc
      rw [splitOnChar_cons_eq]
      simp only [List.tail_cons, List.headD_cons, List.head?_cons, or_true, implies_true, and_true]
      cases cs with
      | nil => simp at h2
      | cons d rest =>
        have hl : (d :: rest).getLast? ≠ some ' ' := by
          rw [List.getLast?_cons_cons] at h2; exact h2
        have hdne : d ≠ ' ' := by
          intro hd2
          subst hd2
          simp [has_double_space] at h1
        obtain ⟨i1, i2⟩ := ih hd hl
        intro t ht
        rw [splitOnChar_eq_head_tail] at ht
        rcases List.mem_cons.1 ht with h | h
        · intro h0
          rw [h0] at h
          rcases i2 h.symm with h3 | h3
          · simp at h3
          · simp at h3; exact hdne h3
        · exact i1 t h
    · rw [splitOnChar_cons_ne _ _ _ hc]
      simp only [List.tail_cons, List.headD_cons]
      refine ⟨?_, fun h => by simp at h⟩
      cases cs with
      | nil => simp [splitOnChar]
      | cons d rest =>
        have hl : (d :: rest).getLast? ≠ some ' ' := by
          rw [List.getLast?_cons_cons] at h2; exact h2
        exact (ih hd hl).1

theorem g_strsplit_clean (cs : List Char) (h1 : has_double_space cs = false)
    (h2 : cs.getLast? ≠ some ' ') (h3 : cs.head? ≠ some ' ') :
    g_strsplit cs ' ' = nonempty_space_tokens cs := by
  cases cs with
  | nil => simp [g_strsplit, nonempty_space_tokens, splitOnChar]
  | cons c rest =>
    obtain ⟨i1, i2⟩ := splitOnChar_clean (c :: rest) h1 h2
    simp only [g_strsplit, nonempty_space_tokens]
    symm
    rw [List.filter_eq_self]
    intro t ht
    rw [splitOnChar_eq_head_tail] at ht
    rcases List.mem_cons.1 ht with h | h
    · cases t with
      | nil =>
        rcases i2 h.symm with h4 | h4
        · simp at h4
        · exact absurd h4 h3
      | cons x xs => rfl
    · have := i1 t h
      cases t with
      | nil => exact absurd rfl this
      | cons x xs => rfl

theorem g_strchug_head (cs : List Char) : (g_strchug cs).head? ≠ some ' ' := by
  intro h
  have := List.head?_dropWhile_not g_ascii_isspace cs
  unfold g_strchug at h
  rw [h] at this
  simp [g_ascii_isspace] at this

theorem dropWhile_append_singleton {p : Char → Bool} (xs : List Char) (c : Char) (hc : p c = false) :
    ∃ ys, (xs ++ [c]).dropWhile p = ys ++ [c] := by
  induction xs with
  | nil => exact ⟨[], by simp [List.dropWhile, hc]⟩
  | cons x xs ih =>
    by_cases hx : p x = true
    · obtain ⟨ys, hy⟩ := ih
      exact ⟨ys, by simp [List.dropWhile, hx, hy]⟩
    · exact ⟨x :: xs, by simp [List.dropWhile, hx]⟩

theorem g_strchomp_head (cs : List Char) (h : cs.head? ≠ some ' ')
    (hw : ∀ c, cs.head? = some c → g_ascii_isspace c = false) :
    (g_strchomp cs).head? ≠ some ' ' := by
  cases cs with
  | nil => simp [g_strchomp]
  | cons c rest =>
    have hc := hw c rfl
    obtain ⟨ys, hy⟩ := dropWhile_append_singleton (p := g_ascii_isspace) rest.reverse c hc
    unfold g_strchomp
    rw [List.reverse_cons, hy]
    simpa using h

theorem g_strchomp_getLast (cs : List Char) : (g_strchomp cs).getLast? ≠ some ' ' := by
  intro h
  unfold g_strchomp at h
  rw [List.getLast?_reverse] at h
  have := List.head?_dropWhile_not g_ascii_isspace cs.reverse
  rw [h] at this
  simp [g_ascii_isspace] at this

theorem g_strstrip_clean (cs : List Char) :
    (g_strstrip cs).head? ≠ some ' ' ∧ (g_strstrip cs).getLast? ≠ some ' ' := by
  refine ⟨?_, g_strchomp_getLast _⟩
  unfold g_strstrip
  apply g_strchomp_head _ (g_strchug_head cs)
  intro c hc
  have := List.head?_dropWhile_not g_ascii_isspace cs
  unfold g_strchug at hc
  rw [hc] at this
  exact this

theorem split_file_patterns_eq (patterns : String) :
    split_file_patterns patterns =
      (nonempty_space_tokens (g_strstrip patterns.data)).map String.mk := by
  obtain ⟨str, h1, h2, h3, h4, h5⟩ :=
    collapse_loop_spec ((g_strstrip patterns.data).length + 1) (g_strstrip patterns.data)
      (Nat.lt_succ_self _)
  obtain ⟨c1, c2⟩ := g_strstrip_clean patterns.data
  unfold split_file_patterns
  simp only [h1, Option.getD_some]
  rw [g_strsplit_clean str h2 (by rw [h4]; exact c2) (by rw [h3]; exact c1), h5]

/-! ## Key files and the file system -/

theorem g_key_file_lookup_set (kf : GKeyFile) (g k : String) (v : KVal) (g' k' : String) :
    g_key_file_lookup (g_key_file_set kf g k v) g' k' =
      if g = g' ∧ k = k' then some v else g_key_file_lookup kf g' k' := by
  induction kf with
  | nil => simp [g_key_file_set, g_key_file_lookup]
  | cons e rest ih =>
    obtain ⟨a, b, w⟩ := e
    by_cases h : a = g ∧ b = k
    · obtain ⟨ha, hb⟩ := h
      subst ha; subst hb
      simp only [g_key_file_set, g_key_file_lookup, and_self, if_true]
      by_cases h3 : a = g' ∧ b = k' <;> simp [h3]
    · by_cases h2 : a = g' ∧ b = k'
      · obtain ⟨ha, hb⟩ := h2
        subst ha; subst hb
        have h3 : ¬ (g = a ∧ k = b) := fun hh => h ⟨hh.1.symm, hh.2.symm⟩
        simp [g_key_file_set, g_key_file_lookup, h, h3]
      · simp [g_key_file_set, g_key_file_lookup, h, h2, ih]

theorem FS.read_store (fs : FS) (path : String) (d : FileData) :
    (fs.store path d).read path = some d := by
  simp [FS.store, FS.read]

theorem utils_write_file_ok (fs : FS) (path : String) (kf : GKeyFile)
    (h : (utils_write_file fs path kf).1 = 0) :
    (utils_write_file fs path kf).2 = fs.store path (FileData.keyfile kf) := by
  unfold utils_write_file at h ⊢
  by_cases h1 : fs.readonly.contains path = true
  · rw [if_pos h1] at h
    simp [EACCES] at h
  · rw [if_neg h1] at h ⊢
    by_cases h2 : fs.is_dir path = true
    · rw [if_pos h2] at h
      simp [EISDIR] at h
    · rw [if_neg h2] at h ⊢
      by_cases h3 : fs.no_space.contains path = true
      · rw [if_pos h3] at h
        simp [ENOSPC] at h
      · rw [if_neg h3]

theorem write_config_file (s : State) (p : GeanyProject) (hp : s.project = some p)
    (hw : (write_config s).1 = true) :
    g_key_file_load_from_file (write_config s).2.fs (p.file_name.getD "") =
      some (write_config_key_file p s) := by
  simp only [write_config, hp, g_signal_emit_by_name, State.emit, decide_eq_true_eq] at hw ⊢
  rw [utils_write_file_ok _ _ _ hw]
  simp [g_key_file_load_from_file, FS.read_store]

/-! ## Frame lemmas: what the collaborators leave alone -/

@[simp] theorem emit_project_part (s : State) (ev : Event) :
    (s.emit ev).project_part = s.project_part := rfl

@[simp] theorem SHOW_ERR_project_part (m : String) (s : State) :
    (SHOW_ERR m s).project_part = s.project_part := rfl

@[simp] theorem grab_focus_project_part (m : String) (s : State) :
    (gtk_widget_grab_focus m s).project_part = s.project_part := rfl

@[simp] theorem statusbar_project_part (m : String) (s : State) :
    (ui_set_statusbar m s).project_part = s.project_part := rfl

@[simp] theorem g_warning_project_part (m : String) (s : State) :
    (g_warning m s).project_part = s.project_part := rfl

@[simp] theorem signal_project_part (m : String) (s : State) :
    (g_signal_emit_by_name m s).project_part = s.project_part := rfl

@[simp] theorem question_project_part (m : String) (s : State) :
    (dialogs_show_question m s).2.project_part = s.project_part := rfl

@[simp] theorem close_all_project_part (s : State) :
    (document_close_all s).2.project_part = s.project_part := rfl

@[simp] theorem apply_editor_prefs_project_part (s : State) :
    (apply_editor_prefs s).project_part = s.project_part := rfl

@[simp] theorem open_file_project_part (f : String) (s : State) :
    (document_open_file f s).project_part = s.project_part := rfl

@[simp] theorem open_files_project_part (files : Option (List String)) (s : State) :
    (configuration_open_files files s).project_part = s.project_part := by
  unfold configuration_open_files
  generalize files.getD [] = l
  induction l generalizing s with
  | nil => rfl
  | cons f rest ih => simp [List.foldl, ih]

@[simp] theorem new_file_project_part (s : State) :
    (document_new_file_if_non_open s).project_part = s.project_part := by
  unfold document_new_file_if_non_open
  split <;> rfl

@[simp] theorem focus_project_part (s : State) :
    (ui_focus_current_document s).project_part = s.project_part := rfl

@[simp] theorem save_default_project_part (s : State) :
    (configuration_save_default_session s).project_part = s.project_part := rfl

@[simp] theorem clear_default_project_part (s : State) :
    (configuration_clear_default_session s).project_part = s.project_part := rfl

@[simp] theorem load_default_project_part (s : State) :
    (configuration_load_default_session s).project_part = s.project_part := rfl

@[simp] theorem open_default_project_part (s : State) :
    (configuration_open_default_session s).project_part = s.project_part := by
  show (configuration_open_files (some s.default_session_files) s).project_part = _
  simp

@[simp] theorem recent_project_part (f : String) (s : State) :
    (ui_add_recent_project_file f s).project_part = s.project_part := rfl

@[simp] theorem update_ui_project_part (s : State) :
    (update_ui s).project_part = s.project_part := by
  unfold update_ui
  split <;> rfl

@[simp] theorem write_config_project_part (s : State) :
    (write_config s).2.project_part = s.project_part := by
  unfold write_config
  split <;> rfl

theorem alloc_of_project_part {s t : State} (h : s.project_part = t.project_part) :
    s.alloc_part = t.alloc_part := by
  simp only [State.project_part, Prod.mk.injEq] at h
  obtain ⟨h1, _, _, h4, h5, h6⟩ := h
  simp [State.alloc_part, h1, h4, h5, h6]

theorem project_part_project {s t : State} (h : s.project_part = t.project_part) :
    s.project = t.project := congrArg (fun x => x.1) h

theorem singleton_inv_of_alloc {s t : State} (h : s.alloc_part = t.alloc_part)
    (ht : singleton_inv t) : singleton_inv s := by
  simp only [State.alloc_part, Prod.mk.injEq] at h
  obtain ⟨h1, h4, h5, h6⟩ := h
  unfold singleton_inv at *
  rw [h1, h4, h5, h6]
  exact ht

theorem singleton_inv_of_project_part {s t : State} (h : s.project_part = t.project_part)
    (ht : singleton_inv t) : singleton_inv s :=
  singleton_inv_of_alloc (alloc_of_project_part h) ht

/-! ## The operations of project.c keep the singleton invariant -/

theorem destroy_project_release_project_part (s : State) :
    (destroy_project_release s).project_part =
      (none, s.priv, s.indentation, [], s.live_projects - 1, s.peak_projects) := by
  unfold destroy_project_release
  simp only
  split <;> rfl

@[simp] theorem destroy_project_reopen_project_part (od : Bool) (s : State) :
    (destroy_project_reopen od s).project_part = s.project_part := by
  unfold destroy_project_reopen
  split <;> simp

theorem destroy_project_project_part (od : Bool) (s : State) (h : s.project.isSome = true) :
    (destroy_project od s).project_part =
      (none, s.priv, s.indentation, [], s.live_projects - 1, s.peak_projects) := by
  cases hp : s.project with
  | none => simp [hp] at h
  | some p =>
    simp only [destroy_project, hp]
    simp [destroy_project_release_project_part]

theorem destroy_project_none (od : Bool) (s : State) (h : s.project = none) :
    destroy_project od s = s := by
  simp [destroy_project, h]

theorem destroy_project_inv (od : Bool) (s : State) (h : singleton_inv s) :
    singleton_inv (destroy_project od s) := by
  cases hp : s.project with
  | none => rw [destroy_project_none od s hp]; exact h
  | some p =>
    have hs : s.project.isSome = true := by simp [hp]
    have hd := destroy_project_project_part od s hs
    simp only [State.project_part, Prod.mk.injEq] at hd
    obtain ⟨e1, _, _, e4, e5, e6⟩ := hd
    unfold singleton_inv at *
    rw [e1, e4, e5, e6]
    simp only [hs, if_true] at h
    simp [h.1, h.2.1]

theorem create_project_alloc (s : State) :
    (create_project s).alloc_part =
      (true, project_stash_groups s.file_prefs s.editor_prefs ++ s.stash_groups,
        s.live_projects + 1, max s.peak_projects (s.live_projects + 1)) := by
  simp [create_project, init_stash_prefs, add_stash_group, State.set_overlay, State.alloc_part,
    project_stash_groups]

theorem create_project_inv (s : State) (h : singleton_inv s) (hp : s.project = none) :
    singleton_inv (create_project s) := by
  have ha := create_project_alloc s
  simp only [State.alloc_part, Prod.mk.injEq] at ha
  obtain ⟨e1, e4, e5, e6⟩ := ha
  unfold singleton_inv at *
  rw [e1, e4, e5, e6]
  simp only [hp, Option.isSome_none, if_false, Bool.false_eq_true] at h
  refine ⟨by simp [h.1], by simp [h.1, h.2.1], by simp,
    fun _ => ⟨s.file_prefs, s.editor_prefs, ?_⟩⟩
  rw [h.2.2.1 trivial, List.append_nil]

theorem update_config_properties_alloc (e : PropertyDialogElements) (s : State) :
    (update_config_properties e s).alloc_part = s.alloc_part := by
  simp only [update_config_properties, State.alloc_part, stash_groups_update, State.set_overlay,
    build_read_project, apply_editor_prefs, State.emit]
  split <;> split <;> (try split) <;> simp

theorem alloc_part_map_project (s : State) (f : GeanyProject → GeanyProject) :
    ({ s with project := s.project.map f } : State).alloc_part = s.alloc_part := by
  simp [State.alloc_part]

theorem update_ui_alloc (s : State) : (update_ui s).alloc_part = s.alloc_part :=
  alloc_of_project_part (update_ui_project_part s)

theorem update_config_commit_alloc (e : PropertyDialogElements) (np : Bool) (s : State) :
    (update_config_commit e np s).2.alloc_part =
      (if s.project.isNone then create_project s else s).alloc_part := by
  simp only [update_config_commit]
  rw [update_ui_alloc]
  split
  · rw [update_config_properties_alloc, alloc_part_map_project]
  · rw [alloc_part_map_project]

theorem update_config_commit_inv (e : PropertyDialogElements) (np : Bool) (s : State)
    (h : singleton_inv s) :
    singleton_inv (update_config_commit e np s).2 ∧
      (update_config_commit e np s).2.project.isSome = true := by
  have ha := update_config_commit_alloc e np s
  cases hp : s.project with
  | none =>
    simp only [hp, Option.isNone_none, if_true] at ha
    refine ⟨singleton_inv_of_alloc ha (create_project_inv s h hp), ?_⟩
    have h1 := congrArg (fun x => x.1) ha
    rw [create_project_alloc] at h1
    exact h1
  | some p =>
    simp only [hp, Option.isNone_some, Bool.false_eq_true, if_false] at ha
    refine ⟨singleton_inv_of_alloc ha h, ?_⟩
    have h1 := congrArg (fun x => x.1) ha
    simp only [State.alloc_part, hp, Option.isSome_some] at h1
    exact h1

theorem update_config_commit_ok (e : PropertyDialogElements) (np : Bool) (s : State) :
    (update_config_commit e np s).1 = true := rfl

theorem update_config_check_file_fail (e : PropertyDialogElements) (np : Bool) (s : State)
    (h : (update_config_check_file e np s).1 = false) :
    (update_config_check_file e np s).2.project_part = s.project_part := by
  generalize hr : update_config_check_file e np s = r at h ⊢
  simp only [update_config_check_file] at hr
  split_ifs at hr <;> subst hr
  all_goals first
    | rfl
    | exact absurd h (by simp [update_config_commit_ok])

theorem update_config_create_dir_fail (e : PropertyDialogElements) (np : Bool) (s : State)
    (h : (update_config_create_dir e np s).1 = false) :
    (update_config_create_dir e np s).2.project_part = s.project_part := by
  generalize hr : update_config_create_dir e np s = r at h ⊢
  simp only [update_config_create_dir] at hr
  split_ifs at hr <;> subst hr
  all_goals first
    | rfl
    | exact (update_config_check_file_fail e np _ h).trans rfl

theorem update_config_fail (e : PropertyDialogElements) (np : Bool) (s : State)
    (h : (update_config e np s).1 = false) :
    (update_config e np s).2.project_part = s.project_part := by
  generalize hr : update_config e np s = r at h ⊢
  unfold update_config at hr
  split_ifs at hr <;> subst hr
  all_goals first
    | rfl
    | exact update_config_check_file_fail e np s h
    | exact update_config_create_dir_fail e np s h

/-- What the last checks return is either a failure that left the project part
alone, or the commit of a state with the same project part. -/
theorem update_config_check_file_cases (e : PropertyDialogElements) (np : Bool) (s : State) :
    ((update_config_check_file e np s).1 = false ∧
        (update_config_check_file e np s).2.project_part = s.project_part) ∨
      (∃ t, t.project_part = s.project_part ∧
        update_config_check_file e np s = update_config_commit e np t) := by
  generalize hr : update_config_check_file e np s = r
  simp only [update_config_check_file] at hr
  split_ifs at hr <;> subst hr
  all_goals first
    | exact Or.inl ⟨rfl, rfl⟩
    | (refine Or.inr ⟨_, ?_, rfl⟩; rfl)

theorem update_config_create_dir_cases (e : PropertyDialogElements) (np : Bool) (s : State) :
    ((update_config_create_dir e np s).1 = false ∧
        (update_config_create_dir e np s).2.project_part = s.project_part) ∨
      (∃ t, t.project_part = s.project_part ∧
        update_config_create_dir e np s = update_config_commit e np t) := by
  generalize hr : update_config_create_dir e np s = r
  simp only [update_config_create_dir] at hr
  split_ifs at hr <;> subst hr
  all_goals first
    | exact Or.inl ⟨rfl, rfl⟩
    | (rcases update_config_check_file_cases e np _ with h | ⟨t, h1, h2⟩
       · exact Or.inl ⟨h.1, h.2.trans rfl⟩
       · exact Or.inr ⟨t, h1.trans rfl, h2⟩)

/-- What `update_config` returns is either a failure that left the project
part alone, or the commit of some state with the same project part. -/
theorem update_config_cases (e : PropertyDialogElements) (np : Bool) (s : State) :
    ((update_config e np s).1 = false ∧ (update_config e np s).2.project_part = s.project_part) ∨
      (∃ t, t.project_part = s.project_part ∧ update_config e np s = update_config_commit e np t) := by
  generalize hr : update_config e np s = r
  unfold update_config at hr
  split_ifs at hr <;> subst hr
  · exact Or.inl ⟨rfl, rfl⟩
  · exact Or.inl ⟨rfl, rfl⟩
  · exact Or.inl ⟨rfl, rfl⟩
  · exact update_config_create_dir_cases e np s
  · exact update_config_check_file_cases e np s
  · exact update_config_check_file_cases e np s

theorem update_config_inv (e : PropertyDialogElements) (np : Bool) (s : State)
    (h : singleton_inv s) :
    singleton_inv (update_config e np s).2 ∧
      ((update_config e np s).1 = true → (update_config e np s).2.project.isSome = true) := by
  rcases update_config_cases e np s with ⟨h1, h2⟩ | ⟨t, h1, h2⟩
  · exact ⟨singleton_inv_of_project_part h2 h, fun h3 => by rw [h1] at h3; cases h3⟩
  · rw [h2]
    have ht : singleton_inv t := singleton_inv_of_project_part h1 h
    exact ⟨(update_config_commit_inv e np t ht).1, fun _ => (update_config_commit_inv e np t ht).2⟩

theorem load_config_active (f : String) (s : State) (h : s.project.isSome = true) :
    load_config f s = (false, s) := by
  simp [load_config, h]

theorem stash_groups_load_alloc (config : GKeyFile) (s : State) :
    (stash_groups_load config s).alloc_part = s.alloc_part := rfl

theorem load_config_fields_alloc (f : String) (config : GKeyFile) (s : State) :
    (load_config_fields f config s).alloc_part = (create_project s).alloc_part := by
  have h := create_project_alloc s
  simp only [State.alloc_part, Prod.mk.injEq] at h
  obtain ⟨e1, _, _, _⟩ := h
  simp only [State.alloc_part, Prod.mk.injEq]
  exact ⟨by simp [load_config_fields, build_load_menu, apply_editor_prefs, State.emit, e1],
    rfl, rfl, rfl⟩

theorem load_config_session_project_part (s : State) :
    (load_config_session s).project_part = s.project_part := by
  unfold load_config_session
  split_ifs <;> rfl

theorem load_config_finish_alloc (config : GKeyFile) (s : State) :
    (load_config_finish config s).alloc_part = s.alloc_part := by
  unfold load_config_finish
  rw [update_ui_alloc]
  rfl

theorem load_config_alloc (f : String) (s : State) :
    (load_config f s).2.alloc_part =
      (if (load_config f s).1 then create_project s else s).alloc_part := by
  generalize hr : load_config f s = r
  simp only [load_config] at hr
  split at hr
  · subst hr; rfl
  · split at hr
    · subst hr; rfl
    · subst hr
      simp only [if_true]
      rw [load_config_finish_alloc, alloc_of_project_part (load_config_session_project_part _),
        load_config_fields_alloc]

theorem load_config_true (f : String) (s : State) (h : (load_config f s).1 = true) :
    s.project = none := by
  cases hp : s.project with
  | none => rfl
  | some p =>
    rw [load_config_active f s (by simp [hp])] at h
    cases h

theorem load_config_inv (f : String) (s : State) (h : singleton_inv s) :
    singleton_inv (load_config f s).2 ∧
      ((load_config f s).1 = true → (load_config f s).2.project.isSome = true) := by
  have ha := load_config_alloc f s
  cases hb : (load_config f s).1 with
  | false =>
    rw [hb] at ha
    exact ⟨singleton_inv_of_alloc ha h, fun h3 => by cases h3⟩
  | true =>
    rw [hb] at ha
    simp only [if_true] at ha
    refine ⟨singleton_inv_of_alloc ha (create_project_inv s h (load_config_true f s hb)), fun _ => ?_⟩
    have h1 := congrArg (fun x => x.1) ha
    rw [create_project_alloc] at h1
    exact h1

theorem project_load_file_inv (f : String) (s : State) (h : singleton_inv s) :
    singleton_inv (project_load_file f s).2 ∧
      ((project_load_file f s).1 = true → (project_load_file f s).2.project.isSome = true) := by
  obtain ⟨h1, h2⟩ := load_config_inv f s h
  unfold project_load_file
  simp only
  split
  · rename_i hl
    refine ⟨singleton_inv_of_project_part (by simp) h1, fun _ => ?_⟩
    have := h2 hl
    rw [← this]
    exact congrArg Option.isSome (project_part_project (by simp))
  · exact ⟨singleton_inv_of_project_part (by simp) h1, fun h3 => by cases h3⟩

theorem project_load_file_with_session_alloc (f : String) (s : State) :
    (project_load_file_with_session f s).2.alloc_part = (project_load_file f s).2.alloc_part := by
  unfold project_load_file_with_session
  simp only
  split
  · rw [alloc_of_project_part (focus_project_part _),
      alloc_of_project_part (new_file_project_part _)]
    show (configuration_open_files _ _).alloc_part = _
    rw [alloc_of_project_part (open_files_project_part _ _)]
  · rfl

theorem project_load_file_with_session_inv (f : String) (s : State) (h : singleton_inv s) :
    singleton_inv (project_load_file_with_session f s).2 :=
  singleton_inv_of_alloc (project_load_file_with_session_alloc f s) (project_load_file_inv f s h).1

theorem project_close_none (od : Bool) (s : State) (h : s.project = none) :
    project_close od s = (false, s) := by
  simp [project_close, h]

@[simp] theorem project_close_write_project_part (s : State) :
    (project_close_write s).project_part = s.project_part := by
  unfold project_close_write
  split <;> simp

/-- The two outcomes of `project_close` on an active project. -/
theorem project_close_cases (od : Bool) (s : State) (h : s.project.isSome = true) :
    ((project_close od s).1 = false ∧
        (document_close_all (project_close_write s)).1 = false ∧
        (project_close od s).2 = (document_close_all (project_close_write s)).2) ∨
      ((project_close od s).1 = true ∧
        (document_close_all (project_close_write s)).1 = true ∧
        ∃ u, u.project_part = s.project_part ∧ (project_close od s).2 = destroy_project od u) := by
  cases hp : s.project with
  | none => simp [hp] at h
  | some p =>
    simp only [project_close, hp]
    cases hc : (document_close_all (project_close_write s)).1 with
    | false => exact Or.inl ⟨rfl, rfl, rfl⟩
    | true => exact Or.inr ⟨rfl, rfl, _, by simp, rfl⟩

theorem project_close_fail (od : Bool) (s : State) (h : (project_close od s).1 = false) :
    (project_close od s).2.project_part = s.project_part := by
  cases hp : s.project with
  | none => rw [project_close_none od s hp]
  | some p =>
    obtain h1 | h1 := project_close_cases od s (by simp [hp])
    · rw [h1.2.2, close_all_project_part, project_close_write_project_part]
    · rw [h1.1] at h; cases h

theorem project_close_ok (od : Bool) (s : State) (h : (project_close od s).1 = true) :
    (project_close od s).2.project = none ∧ (project_close od s).2.stash_groups = [] := by
  cases hp : s.project with
  | none => rw [project_close_none od s hp] at h; cases h
  | some p =>
    obtain h1 | ⟨_, _, u, hu, h2⟩ := project_close_cases od s (by simp [hp])
    · rw [h1.1] at h; cases h
    · rw [h2]
      have hs : u.project.isSome = true := by rw [project_part_project hu, hp]; rfl
      have := destroy_project_project_part od u hs
      simp only [State.project_part, Prod.mk.injEq] at this
      exact ⟨this.1, this.2.2.2.1⟩

theorem project_close_inv (od : Bool) (s : State) (h : singleton_inv s) :
    singleton_inv (project_close od s).2 := by
  cases hp : s.project with
  | none => rw [project_close_none od s hp]; exact h
  | some p =>
    obtain h1 | ⟨_, _, u, hu, h2⟩ := project_close_cases od s (by simp [hp])
    · rw [h1.2.2]
      exact singleton_inv_of_project_part (by simp) h
    · rw [h2]
      exact destroy_project_inv od u (singleton_inv_of_project_part hu h)

theorem handle_current_session_tail_inv (s : State) (h : singleton_inv s) :
    singleton_inv (handle_current_session_tail s).2 ∧
      ((handle_current_session_tail s).1 = true → (handle_current_session_tail s).2.project = none) := by
  unfold handle_current_session_tail
  split
  · exact ⟨project_close_inv false s h, fun h1 => (project_close_ok false s h1).1⟩
  · rename_i hn
    exact ⟨h, fun _ => by simpa using hn⟩

theorem handle_current_session_inv (s : State) (h : singleton_inv s) :
    singleton_inv (handle_current_session s).2 ∧
      ((handle_current_session s).1 = true → (handle_current_session s).2.project = none) := by
  generalize hr : handle_current_session s = r
  simp only [handle_current_session] at hr
  split_ifs at hr <;> subst hr
  all_goals first
    | exact handle_current_session_tail_inv _ h
    | exact handle_current_session_tail_inv _ (singleton_inv_of_project_part (by simp) h)
    | exact ⟨singleton_inv_of_project_part (by simp) h, fun h1 => by cases h1⟩

theorem run_new_dialog_body_inv (e : PropertyDialogElements) (s : State) (h : singleton_inv s) :
    singleton_inv (run_new_dialog_body e s).2 := by
  obtain ⟨h1, h2⟩ := update_config_inv e true s h
  generalize hr : run_new_dialog_body e s = r
  simp only [run_new_dialog_body] at hr
  split_ifs at hr <;> subst hr
  · exact destroy_project_inv false _ (singleton_inv_of_project_part (by simp) h1)
  · exact singleton_inv_of_project_part (by simp) h1
  · exact h1

theorem run_new_dialog_loop_inv (runs : List DialogRun) (e : PropertyDialogElements) (s : State)
    (h : singleton_inv s) : singleton_inv (run_new_dialog_loop e runs s).2 := by
  induction runs generalizing e s with
  | nil =>
    unfold run_new_dialog_loop
    simp only
    split <;> exact run_new_dialog_body_inv e s h
  | cons r rest ih =>
    unfold run_new_dialog_loop
    simp only
    split
    · exact run_new_dialog_body_inv e s h
    · split
      · exact ih r.e _ (run_new_dialog_body_inv e s h)
      · exact run_new_dialog_body_inv e s h

theorem run_new_dialog_inv (runs : List DialogRun) (s : State) (h : singleton_inv s) :
    singleton_inv (run_new_dialog runs s) := by
  cases runs with
  | nil => exact h
  | cons r rest =>
    have hh := (handle_current_session_inv s h).1
    have hl := run_new_dialog_loop_inv rest r.e _ hh
    simp only [run_new_dialog]
    split_ifs
    · exact h
    · exact hh
    · exact hl
    · exact singleton_inv_of_project_part (by simp) hl
    · exact singleton_inv_of_project_part (by simp) hl

theorem project_new_inv (ff : Bool) (chosen : Option String) (runs : List DialogRun) (s : State)
    (h : singleton_inv s) : singleton_inv (project_new ff chosen runs s) := by
  unfold project_new
  split
  · exact h
  · exact singleton_inv_of_project_part (by simp) (run_new_dialog_inv runs s h)

theorem run_open_dialog_closed_inv (s : State) (h : singleton_inv s) :
    singleton_inv (run_open_dialog_closed s) := by
  unfold run_open_dialog_closed
  split
  · exact project_close_inv false s h
  · exact h

theorem run_open_dialog_inv (choices : List (Option String)) (s : State) (h : singleton_inv s) :
    singleton_inv (run_open_dialog choices s) := by
  induction choices generalizing s with
  | nil => exact h
  | cons c rest ih =>
    cases c with
    | none => exact h
    | some filename =>
      have hc := run_open_dialog_closed_inv s h
      have hl := project_load_file_with_session_inv filename _ hc
      simp only [run_open_dialog]
      split_ifs
      · exact hc
      · exact ih _ (singleton_inv_of_project_part (by simp) hl)
      · exact hl

theorem project_ask_close_inv (s : State) (h : singleton_inv s) :
    singleton_inv (project_ask_close s).2 := by
  unfold project_ask_close
  split
  · simp only
    split_ifs
    all_goals first
      | exact project_close_inv false s h
      | exact project_close_inv false _ (singleton_inv_of_project_part (by rfl) h)
      | exact singleton_inv_of_project_part (by rfl) h
  · exact h

theorem Op.run_inv (op : Op) (s : State) (h : singleton_inv s) : singleton_inv (op.run s) := by
  cases op with
  | new_project ff chosen runs => exact project_new_inv ff chosen runs s h
  | open_project choices => exact run_open_dialog_inv choices s h
  | load path => exact project_load_file_with_session_inv path s h
  | load_file path => exact (project_load_file_inv path s h).1
  | close od => exact project_close_inv od s h
  | ask_close => exact project_ask_close_inv s h

theorem run_ops_inv (ops : List Op) (s : State) (h : singleton_inv s) :
    singleton_inv (run_ops ops s) := by
  induction ops generalizing s with
  | nil => exact h
  | cons op rest ih => exact ih _ (Op.run_inv op s h)


/-! ## Documents and global preferences across a close -/

/-- The part of the state that decides the effective editor preferences. -/
theorem editor_get_prefs_congr {s t : State} (h : s.project_part = t.project_part)
    (he : s.editor_prefs = t.editor_prefs) : editor_get_prefs s = editor_get_prefs t := by
  simp only [State.project_part, Prod.mk.injEq] at h
  obtain ⟨h1, h2, h3, _⟩ := h
  simp [editor_get_prefs, editor_get_long_line_column, h1, h2, h3, he]

/-- `configuration_open_files` in closed form. -/
theorem configuration_open_files_eq (files : Option (List String)) (s : State) :
    configuration_open_files files s =
      { s with
          docs := s.docs ++ (files.getD []).map (fun f => GeanyDocument.fresh (some f) (editor_get_prefs s)),
          cur_page := if files.getD [] = [] then s.cur_page
                      else s.docs.length + (files.getD []).length - 1,
          log := s.log ++ (files.getD []).map Event.open_file } := by
  unfold configuration_open_files
  generalize files.getD [] = l
  induction l generalizing s with
  | nil => simp
  | cons f rest ih =>
    rw [List.foldl_cons, ih]
    have he : editor_get_prefs (document_open_file f s) = editor_get_prefs s :=
      editor_get_prefs_congr rfl rfl
    rw [he]
    simp only [document_open_file, State.emit, List.append_assoc, List.singleton_append,
      List.map_cons, List.length_append, List.length_cons, List.length_nil, reduceCtorEq,
      if_false]
    congr 1
    split
    · rename_i h; subst h; simp
    · omega

theorem open_default_eq (s : State) :
    configuration_open_default_session s =
      { s with
          docs := s.docs ++ s.default_session_files.map
            (fun f => GeanyDocument.fresh (some f) (editor_get_prefs s)),
          cur_page := if s.default_session_files = [] then s.cur_page
                      else s.docs.length + s.default_session_files.length - 1,
          log := s.log ++ s.default_session_files.map Event.open_file,
          default_session_files := [] } := by
  unfold configuration_open_default_session
  rw [configuration_open_files_eq]
  rfl

theorem write_config_global_prefs (s : State) :
    (write_config s).2.global_prefs = s.global_prefs := by
  unfold write_config
  split <;> rfl

theorem project_close_write_global_prefs (s : State) :
    (project_close_write s).global_prefs = s.global_prefs := by
  unfold project_close_write
  split
  · exact write_config_global_prefs s
  · exact write_config_global_prefs s

theorem destroy_project_release_docs (s : State) :
    (destroy_project_release s).docs = s.docs ∧
      (destroy_project_release s).global_prefs = s.global_prefs ∧
      (destroy_project_release s).cl_options = s.cl_options := by
  unfold destroy_project_release
  simp only
  split <;> exact ⟨rfl, rfl, rfl⟩

theorem editor_get_prefs_none (s : State) (h : s.project = none) :
    editor_get_prefs s = s.editor_prefs := by
  simp [editor_get_prefs, h]

/-- Reopening the default session without an active project on a state whose
documents have the global editor preferences applied gives such a state. -/
theorem destroy_project_reopen_docs (od : Bool) (s : State) (h : s.project = none)
    (hd : ∀ d ∈ s.docs, d.applied = s.editor_prefs) :
    (destroy_project_reopen od s).global_prefs = s.global_prefs ∧
      ∀ d ∈ (destroy_project_reopen od s).docs, d.applied = s.editor_prefs := by
  unfold destroy_project_reopen
  split
  · rw [open_default_eq]
    have he : editor_get_prefs (configuration_load_default_session s) = s.editor_prefs :=
      (editor_get_prefs_congr (s := configuration_load_default_session s) (t := s) rfl rfl).trans
        (editor_get_prefs_none s h)
    rw [he]
    simp only [document_new_file_if_non_open, ui_focus_current_document]
    split
    · rename_i hdocs
      refine ⟨rfl, ?_⟩
      intro d hdm
      simp only [State.emit, List.mem_singleton] at hdm
      subst hdm
      simp only [GeanyDocument.fresh]
      exact (editor_get_prefs_congr (t := s) rfl rfl).trans (editor_get_prefs_none s h)
    · rename_i x y hdocs
      refine ⟨rfl, ?_⟩
      intro d hdm
      simp only [State.emit, configuration_load_default_session, List.mem_append,
        List.mem_map] at hdm
      rcases hdm with hdm | ⟨f, _, hf⟩
      · exact hd d hdm
      · subst hf; rfl
  · exact ⟨rfl, hd⟩

/-- After `destroy_project` of an active project on a state without open
documents, every document has the global editor preferences applied and the
global preferences are the same. -/
theorem destroy_project_docs (od : Bool) (s : State) (h : s.project.isSome = true)
    (hd : s.docs = []) :
    (destroy_project od s).global_prefs = s.global_prefs ∧
      ∀ d ∈ (destroy_project od s).docs, d.applied = s.editor_prefs := by
  cases hp : s.project with
  | none => simp [hp] at h
  | some p =>
    obtain ⟨r1, r2, r3⟩ := destroy_project_release_docs s
    have rp := destroy_project_release_project_part s
    have hnone : (apply_editor_prefs (destroy_project_release s)).project = none :=
      congrArg (fun x => x.1) rp
    have hdocs : (apply_editor_prefs (destroy_project_release s)).docs = [] := by
      simp [apply_editor_prefs, State.emit, r1, hd]
    have hg : (apply_editor_prefs (destroy_project_release s)).global_prefs = s.global_prefs := r2
    have hep : (apply_editor_prefs (destroy_project_release s)).editor_prefs = s.editor_prefs :=
      congrArg (fun x => x.2) hg
    obtain ⟨q1, q2⟩ := destroy_project_reopen_docs od _ hnone (by rw [hdocs]; simp)
    simp only [destroy_project, hp]
    constructor
    · have : ∀ t : State, (update_ui (g_signal_emit_by_name "project-close" t)).global_prefs =
          t.global_prefs := by
        intro t; unfold update_ui; split <;> rfl
      rw [this, q1, hg]
    · have : ∀ t : State, (update_ui (g_signal_emit_by_name "project-close" t)).docs = t.docs := by
        intro t; unfold update_ui; split <;> rfl
      rw [this]
      intro d hdm
      rw [← hep]
      exact q2 d hdm

/-! ## Documents and the default session across the New Project dialog -/

theorem update_ui_session_part (s : State) : (update_ui s).session_part = s.session_part := by
  unfold update_ui
  split <;> rfl

theorem create_project_session_part (s : State) :
    (create_project s).session_part = s.session_part := rfl

theorem update_config_commit_new_session_part (e : PropertyDialogElements) (s : State) :
    (update_config_commit e true s).2.session_part = s.session_part := by
  simp only [update_config_commit, Bool.true_or, Bool.not_true, Bool.false_eq_true, if_false]
  rw [update_ui_session_part]
  cases hn : s.project.isNone
  · simp only [Bool.false_eq_true, if_false]; rfl
  · simp only [if_true]; rfl

theorem update_config_check_file_new_session_part (e : PropertyDialogElements) (s : State) :
    (update_config_check_file e true s).2.session_part = s.session_part := by
  generalize hr : update_config_check_file e true s = r
  simp only [update_config_check_file] at hr
  split_ifs at hr <;> subst hr
  all_goals first
    | rfl
    | exact update_config_commit_new_session_part e _

theorem update_config_create_dir_new_session_part (e : PropertyDialogElements) (s : State) :
    (update_config_create_dir e true s).2.session_part = s.session_part := by
  generalize hr : update_config_create_dir e true s = r
  simp only [update_config_create_dir] at hr
  split_ifs at hr <;> subst hr
  all_goals first
    | rfl
    | exact update_config_check_file_new_session_part e _

theorem update_config_new_session_part (e : PropertyDialogElements) (s : State) :
    (update_config e true s).2.session_part = s.session_part := by
  generalize hr : update_config e true s = r
  unfold update_config at hr
  split_ifs at hr <;> subst hr
  all_goals first
    | rfl
    | exact update_config_check_file_new_session_part e _
    | exact update_config_create_dir_new_session_part e _

theorem write_config_session_part (s : State) :
    (write_config s).2.session_part = s.session_part := by
  unfold write_config
  split <;> rfl

theorem destroy_project_release_session_part (s : State) :
    (destroy_project_release s).session_part = s.session_part := by
  unfold destroy_project_release
  simp only
  split <;> rfl

theorem apply_editor_prefs_session_part (s : State) :
    (apply_editor_prefs s).session_part = s.session_part := by
  simp [apply_editor_prefs, State.session_part, State.doc_shape, State.emit, Function.comp_def]

theorem destroy_project_false_session_part (s : State) :
    (destroy_project false s).session_part = s.session_part := by
  unfold destroy_project
  split
  · rfl
  · rw [update_ui_session_part]
    show (apply_editor_prefs (destroy_project_release s)).session_part = _
    rw [apply_editor_prefs_session_part, destroy_project_release_session_part]

/-- One pass of the New Project loop leaves the documents and the default
session alone; it ends with a project exactly when it returns. -/
theorem run_new_dialog_body_spec (e : PropertyDialogElements) (s : State) (hp : s.project = none) :
    (run_new_dialog_body e s).2.session_part = s.session_part ∧
      ((run_new_dialog_body e s).1 = true → (run_new_dialog_body e s).2.project.isSome = true) ∧
      ((run_new_dialog_body e s).1 = false → (run_new_dialog_body e s).2.project = none) := by
  have hu := update_config_new_session_part e s
  have hc := update_config_cases e true s
  generalize hr : run_new_dialog_body e s = r
  simp only [run_new_dialog_body] at hr
  split_ifs at hr with h1 h2 <;> subst hr
  · refine ⟨?_, (fun h => by cases h), fun _ => ?_⟩
    · show (destroy_project false (SHOW_ERR _ (write_config _).2)).session_part = _
      rw [destroy_project_false_session_part]
      exact (write_config_session_part _).trans hu
    · cases hs : (SHOW_ERR "Project file could not be written" (write_config (update_config e true s).2).2).project with
      | none => rw [destroy_project_none _ _ hs]; exact hs
      | some p =>
        exact congrArg (fun x => x.1)
          (destroy_project_project_part false _ (by rw [hs]; rfl))
  · refine ⟨?_, fun _ => ?_, fun h => by cases h⟩
    · exact (write_config_session_part _).trans hu
    · have : (ui_add_recent_project_file
          (((write_config (update_config e true s).2).2.project.map (fun p => p.file_name)).getD none |>.getD "")
          (ui_set_statusbar
            ("Project \"" ++ (((write_config (update_config e true s).2).2.project.map
              (fun p => p.name)).getD none).getD "" ++ "\" created.")
            (write_config (update_config e true s).2).2)).project_part =
          (update_config e true s).2.project_part := by simp
      rw [project_part_project this]
      rcases hc with ⟨h3, _⟩ | ⟨t, ht, h3⟩
      · rw [h3] at h1; cases h1
      · rw [h3]
        have hi : ∀ u : State, (update_config_commit e true u).2.project.isSome = true := by
          intro u
          have := update_config_commit_alloc e true u
          have h5 := congrArg (fun x => x.1) this
          simp only [State.alloc_part] at h5
          rw [h5]
          split
          · have := create_project_alloc u
            exact congrArg (fun x => x.1) this
          · rename_i hn
            cases hu : u.project with
            | none => simp [hu] at hn
            | some q => rfl
        exact hi t
  · refine ⟨hu, (fun h => by cases h), fun _ => ?_⟩
    rcases hc with ⟨_, h4⟩ | ⟨t, ht, h3⟩
    · rw [project_part_project h4]; exact hp
    · rw [h3] at h1
      exact absurd rfl h1

theorem run_new_dialog_loop_spec (runs : List DialogRun) (e : PropertyDialogElements) (s : State)
    (hp : s.project = none) :
    (run_new_dialog_loop e runs s).2.session_part = s.session_part ∧
      ((run_new_dialog_loop e runs s).1 = true →
        (run_new_dialog_loop e runs s).2.project.isSome = true) ∧
      ((run_new_dialog_loop e runs s).1 = false →
        (run_new_dialog_loop e runs s).2.project = none) := by
  induction runs generalizing e s with
  | nil =>
    obtain ⟨b1, b2, b3⟩ := run_new_dialog_body_spec e s hp
    unfold run_new_dialog_loop
    simp only
    split
    · rename_i hb
      exact ⟨b1, fun _ => b2 hb, fun h => by cases h⟩
    · rename_i hb
      exact ⟨b1, (fun h => by cases h), fun _ => b3 (by simpa using hb)⟩
  | cons r rest ih =>
    obtain ⟨b1, b2, b3⟩ := run_new_dialog_body_spec e s hp
    unfold run_new_dialog_loop
    simp only
    split
    · rename_i hb
      exact ⟨b1, fun _ => b2 hb, fun h => by cases h⟩
    · rename_i hb
      have hn := b3 (by simpa using hb)
      split
      · obtain ⟨i1, i2, i3⟩ := ih r.e _ hn
        exact ⟨i1.trans b1, i2, i3⟩
      · exact ⟨b1, (fun h => by cases h), fun _ => hn⟩

theorem session_file_names_congr {s t : State} (h : s.doc_shape = t.doc_shape) :
    session_file_names s = session_file_names t := by
  have h1 : s.docs.map (fun d => (d.file_name, d.changed)) =
      t.docs.map (fun d => (d.file_name, d.changed)) := congrArg (fun x => x.1) h
  have h2 := congrArg (fun l => l.filterMap (fun (x : Option String × Bool) => x.1)) h1
  simpa [session_file_names, List.filterMap_map, Function.comp_def] using h2

theorem doc_names_congr {s t : State} (h : s.doc_shape = t.doc_shape) :
    s.docs.map (fun d => d.file_name) = t.docs.map (fun d => d.file_name) := by
  have h1 : s.docs.map (fun d => (d.file_name, d.changed)) =
      t.docs.map (fun d => (d.file_name, d.changed)) := congrArg (fun x => x.1) h
  have h2 := congrArg (fun l => l.map (fun (x : Option String × Bool) => x.1)) h1
  simpa [List.map_map, Function.comp_def] using h2

theorem have_session_docs_congr {s t : State} (h : s.doc_shape = t.doc_shape) :
    have_session_docs s = have_session_docs t := by
  have h1 : s.docs.map (fun d => (d.file_name, d.changed)) =
      t.docs.map (fun d => (d.file_name, d.changed)) := congrArg (fun x => x.1) h
  have h2 : s.cur_page = t.cur_page := congrArg (fun x => x.2) h
  have hlen : s.docs.length = t.docs.length := by
    have := congrArg List.length h1
    simpa using this
  have hcur : (document_get_current s).map (fun d => (d.file_name, d.changed)) =
      (document_get_current t).map (fun d => (d.file_name, d.changed)) := by
    unfold document_get_current
    simp only [List.get?_eq_getElem?]
    rw [← List.getElem?_map, ← List.getElem?_map, h1, h2, hlen]
  unfold have_session_docs
  simp only [hlen]
  congr 2
  cases hs : document_get_current s with
  | none =>
    rw [hs] at hcur
    cases ht : document_get_current t with
    | none => rfl
    | some d => rw [ht] at hcur; simp at hcur
  | some d =>
    rw [hs] at hcur
    cases ht : document_get_current t with
    | none => rw [ht] at hcur; simp at hcur
    | some d2 =>
      rw [ht] at hcur
      simp only [Option.map_some', Option.some.injEq, Prod.mk.injEq] at hcur
      simp [hcur.1, hcur.2]

/-- With at least one document open and every open document backed by a file,
there are session documents. -/
theorem have_session_docs_real (s : State) (hne : s.docs ≠ [])
    (hreal : ∀ d ∈ s.docs, d.file_name.isSome = true) : have_session_docs s = true := by
  unfold have_session_docs
  cases hd : s.docs with
  | nil => exact absurd hd hne
  | cons d rest =>
    cases rest with
    | nil =>
      have : d.file_name.isSome = true := hreal d (by simp [hd])
      simp [document_get_current, hd, this]
    | cons d2 rest2 => simp

theorem have_session_docs_nil (s : State) (h : s.docs = []) : have_session_docs s = false := by
  simp [have_session_docs, document_get_current, h]

theorem session_file_names_real (s : State) (hreal : ∀ d ∈ s.docs, d.file_name.isSome = true) :
    (session_file_names s).map some = s.docs.map (fun d => d.file_name) := by
  unfold session_file_names
  generalize s.docs = l at hreal
  induction l with
  | nil => rfl
  | cons d rest ih =>
    have h1 : d.file_name.isSome = true := hreal d (by simp)
    have h2 := ih (fun x hx => hreal x (by simp [hx]))
    cases hf : d.file_name with
    | none => simp [hf] at h1
    | some f => simp [List.filterMap_cons, hf, h2]

theorem handle_current_session_tail_none (t : State) (h : t.project = none) :
    handle_current_session_tail t = (true, t) := by
  simp [handle_current_session_tail, h]

/-- `handle_current_session` without an active project and with session
documents: the question decides between clearing the default session and
closing all documents. -/
theorem handle_current_session_none (s : State) (hp : s.project = none)
    (hd : have_session_docs s = true) :
    handle_current_session s =
      if s.question_script.headD false = true then
        (true, configuration_clear_default_session
          (dialogs_show_question "Move the current documents into the new project's session?"
            (configuration_save_default_session s)).2)
      else
        ((document_close_all
          (dialogs_show_question "Move the current documents into the new project's session?"
            (configuration_save_default_session s)).2).1,
         (document_close_all
          (dialogs_show_question "Move the current documents into the new project's session?"
            (configuration_save_default_session s)).2).2) := by
  have hhave : have_session_docs (configuration_save_default_session s) = true :=
    (have_session_docs_congr (t := s) rfl).trans hd
  have hq : (dialogs_show_question "Move the current documents into the new project's session?"
      (configuration_save_default_session s)).1 = s.question_script.headD false := rfl
  simp only [handle_current_session, hp, Option.isNone_none, if_true, hhave, hq]
  split
  · rw [handle_current_session_tail_none]
    exact hp
  · split
    · rename_i hc
      simp only [Bool.not_eq_true', Bool.not_eq_true] at hc
      rw [hc]
    · rename_i hc
      simp only [Bool.not_eq_true', Bool.not_eq_true, Bool.not_eq_false] at hc
      rw [handle_current_session_tail_none, hc]
      exact hp

/-! ## What `write_config` stores and `load_config` reads back -/

theorem write_config_key_file_base_path (p : GeanyProject) (s : State) (b : String)
    (hb : p.base_path = some b) :
    g_key_file_lookup (write_config_key_file p s) "project" "base_path" = some (KVal.str b) := by
  simp only [write_config_key_file, configuration_save_session_files, build_save_menu,
    g_key_file_set_string, hb]
  cases p.description <;> cases p.file_patterns <;> simp [g_key_file_lookup_set]

theorem write_config_key_file_patterns (p : GeanyProject) (s : State) (l : List String)
    (hl : p.file_patterns = some l) :
    g_key_file_lookup (write_config_key_file p s) "project" "file_patterns" =
      some (KVal.strlist l) := by
  simp only [write_config_key_file, configuration_save_session_files, build_save_menu, hl]
  simp [g_key_file_lookup_set]

/-- The keys of the stash groups in the key file `write_config` builds hold the
overlay fields. -/
theorem write_config_key_file_stash (p : GeanyProject) (s : State) (fp : GeanyFilePrefs)
    (ep : GeanyEditorPrefs) (hs : s.stash_groups = project_stash_groups fp ep) :
    (g_key_file_lookup (write_config_key_file p s) "indentation" "indent_width" =
        some (KVal.int s.indentation.width) ∧
      g_key_file_lookup (write_config_key_file p s) "indentation" "indent_type" =
        some (KVal.int s.indentation.type) ∧
      g_key_file_lookup (write_config_key_file p s) "indentation" "indent_hard_tab_width" =
        some (KVal.int s.indentation.hard_tab_width) ∧
      g_key_file_lookup (write_config_key_file p s) "indentation" "detect_indent" =
        some (KVal.bool s.indentation.detect_type) ∧
      g_key_file_lookup (write_config_key_file p s) "indentation" "detect_indent_width" =
        some (KVal.bool s.indentation.detect_width) ∧
      g_key_file_lookup (write_config_key_file p s) "indentation" "indent_mode" =
        some (KVal.int s.indentation.auto_indent_mode)) ∧
    (g_key_file_lookup (write_config_key_file p s) "file_prefs" "final_new_line" =
        some (KVal.bool s.priv.final_new_line) ∧
      g_key_file_lookup (write_config_key_file p s) "file_prefs" "ensure_convert_new_lines" =
        some (KVal.bool s.priv.ensure_convert_new_lines) ∧
      g_key_file_lookup (write_config_key_file p s) "file_prefs" "strip_trailing_spaces" =
        some (KVal.bool s.priv.strip_trailing_spaces) ∧
      g_key_file_lookup (write_config_key_file p s) "file_prefs" "replace_tabs" =
        some (KVal.bool s.priv.replace_tabs)) ∧
    (g_key_file_lookup (write_config_key_file p s) "editor" "line_wrapping" =
        some (KVal.bool s.priv.line_wrapping) ∧
      g_key_file_lookup (write_config_key_file p s) "editor" "line_break_column" =
        some (KVal.int s.priv.line_break_column) ∧
      g_key_file_lookup (write_config_key_file p s) "editor" "auto_continue_multiline" =
        some (KVal.bool s.priv.auto_continue_multiline)) := by
  simp only [write_config_key_file, stash_groups_save, hs, project_stash_groups, List.foldl,
    stash_group_save_to_key_file, editor_group, file_prefs_group, indentation_group,
    configuration_save_session_files, build_save_menu, g_key_file_set_string]
  cases p.name <;> cases p.base_path <;> cases p.description <;> cases p.file_patterns <;>
    simp [g_key_file_lookup_set, stash_get, State.overlay]

/-- The project's own keys in the key file `write_config` builds. -/
theorem write_config_key_file_own (p : GeanyProject) (s : State) (fp : GeanyFilePrefs)
    (ep : GeanyEditorPrefs) (hs : s.stash_groups = project_stash_groups fp ep) (n b : String)
    (hn : p.name = some n) (hb : p.base_path = some b) :
    g_key_file_lookup (write_config_key_file p s) "project" "name" = some (KVal.str n) ∧
    g_key_file_lookup (write_config_key_file p s) "project" "base_path" = some (KVal.str b) ∧
    g_key_file_lookup (write_config_key_file p s) "project" "description" =
      (match p.description with
       | some d => some (KVal.str d)
       | none =>
         g_key_file_lookup ((g_key_file_load_from_file s.fs (p.file_name.getD "")).getD [])
           "project" "description") ∧
    g_key_file_lookup (write_config_key_file p s) "project" "file_patterns" =
      (match p.file_patterns with
       | some l => some (KVal.strlist l)
       | none =>
         g_key_file_lookup ((g_key_file_load_from_file s.fs (p.file_name.getD "")).getD [])
           "project" "file_patterns") ∧
    g_key_file_lookup (write_config_key_file p s) "long line marker" "long_line_behaviour" =
      some (KVal.int s.priv.long_line_behaviour) ∧
    g_key_file_lookup (write_config_key_file p s) "long line marker" "long_line_column" =
      some (KVal.int s.priv.long_line_column) := by
  simp only [write_config_key_file, stash_groups_save, hs, project_stash_groups, List.foldl,
    stash_group_save_to_key_file, editor_group, file_prefs_group, indentation_group,
    configuration_save_session_files, build_save_menu, g_key_file_set_string, hn, hb]
  cases p.description <;> cases p.file_patterns <;> simp [g_key_file_lookup_set]

theorem create_project_stash_groups (s : State) (h : s.stash_groups = []) :
    (create_project s).stash_groups = project_stash_groups s.file_prefs s.editor_prefs := by
  have := create_project_alloc s
  simp only [State.alloc_part, Prod.mk.injEq] at this
  rw [this.2.1, h, List.append_nil]

theorem load_config_session_overlay (s : State) :
    (load_config_session s).project_part = s.project_part :=
  load_config_session_project_part s

/-- What a successful `load_config` leaves in the project part. -/
theorem load_config_ok (f : String) (s1 : State) (config : GKeyFile) (h1 : s1.project = none)
    (hfs : g_key_file_load_from_file s1.fs f = some config) :
    (load_config f s1).1 = true ∧
    (load_config f s1).2.project =
      some { name := some (utils_get_setting_string config "project" "name" GEANY_STRING_UNTITLED),
             description := some (utils_get_setting_string config "project" "description" ""),
             file_name := some f,
             base_path := some (utils_get_setting_string config "project" "base_path" ""),
             file_patterns := g_key_file_get_string_list config "project" "file_patterns" } ∧
    (load_config f s1).2.priv.long_line_behaviour =
      utils_get_setting_integer config "long line marker" "long_line_behaviour" 1 ∧
    (load_config f s1).2.priv.long_line_column =
      utils_get_setting_integer config "long line marker" "long_line_column"
        s1.editor_prefs.long_line_column ∧
    overlay_fields (load_config f s1).2 =
      overlay_fields (stash_groups_load config (create_project s1)) := by
  have hl : load_config f s1 =
      (true, load_config_finish config (load_config_session (load_config_fields f config s1))) := by
    simp [load_config, h1, hfs]
  have hsess := load_config_session_project_part (load_config_fields f config s1)
  simp only [State.project_part, Prod.mk.injEq] at hsess
  obtain ⟨p1, p2, p3, _⟩ := hsess
  have hfin : ∀ t : State, (load_config_finish config t).project = t.project ∧
      (load_config_finish config t).indentation = t.indentation ∧
      (load_config_finish config t).priv =
        { t.priv with session_files := some (configuration_load_session_files config) } := by
    intro t
    unfold load_config_finish update_ui
    split <;> exact ⟨rfl, rfl, rfl⟩
  obtain ⟨f1, f2, f3⟩ := hfin (load_config_session (load_config_fields f config s1))
  rw [hl]
  refine ⟨rfl, ?_, ?_, ?_, ?_⟩
  · show (load_config_finish config _).project = _
    rw [f1, p1]
    rfl
  · show (load_config_finish config _).priv.long_line_behaviour = _
    rw [f3, p2]
    rfl
  · show (load_config_finish config _).priv.long_line_column = _
    rw [f3, p2]
    rfl
  · show overlay_fields (load_config_finish config _) = _
    simp only [overlay_fields, f2, f3, p2, p3]
    rfl

/-- Loading the stash groups of a fresh project from a key file that holds all
their keys yields the stored values. -/
theorem stash_groups_load_stored (config : GKeyFile) (s1 : State) (hg : s1.stash_groups = [])
    (ind : GeanyIndentPrefs) (a1 a2 a3 a4 b1 b3 : Bool) (b2 : Int)
    (h :
      (g_key_file_lookup config "indentation" "indent_width" = some (KVal.int ind.width) ∧
        g_key_file_lookup config "indentation" "indent_type" = some (KVal.int ind.type) ∧
        g_key_file_lookup config "indentation" "indent_hard_tab_width" =
          some (KVal.int ind.hard_tab_width) ∧
        g_key_file_lookup config "indentation" "detect_indent" = some (KVal.bool ind.detect_type) ∧
        g_key_file_lookup config "indentation" "detect_indent_width" =
          some (KVal.bool ind.detect_width) ∧
        g_key_file_lookup config "indentation" "indent_mode" =
          some (KVal.int ind.auto_indent_mode)) ∧
      (g_key_file_lookup config "file_prefs" "final_new_line" = some (KVal.bool a1) ∧
        g_key_file_lookup config "file_prefs" "ensure_convert_new_lines" = some (KVal.bool a2) ∧
        g_key_file_lookup config "file_prefs" "strip_trailing_spaces" = some (KVal.bool a3) ∧
        g_key_file_lookup config "file_prefs" "replace_tabs" = some (KVal.bool a4)) ∧
      (g_key_file_lookup config "editor" "line_wrapping" = some (KVal.bool b1) ∧
        g_key_file_lookup config "editor" "line_break_column" = some (KVal.int b2) ∧
        g_key_file_lookup config "editor" "auto_continue_multiline" = some (KVal.bool b3))) :
    overlay_fields (stash_groups_load config (create_project s1)) =
      (ind, (a1, a2, a3, a4), (b1, b2, b3)) := by
  obtain ⟨⟨i1, i2, i3, i4, i5, i6⟩, ⟨f1, f2, f3, f4⟩, ⟨e1, e2, e3⟩⟩ := h
  unfold stash_groups_load
  rw [create_project_stash_groups s1 hg]
  simp only [project_stash_groups, List.foldl, stash_group_load_from_key_file, editor_group,
    file_prefs_group, indentation_group, g_key_file_has_key, stash_read_value,
    utils_get_setting_boolean, utils_get_setting_integer, i1, i2, i3, i4, i5, i6, f1, f2, f3, f4,
    e1, e2, e3, Option.isSome_some, Bool.not_true, Bool.and_false, Bool.false_eq_true, if_false,
    stash_set, State.set_overlay, overlay_fields]


/-! ## The fields a successful `update_config` leaves -/

theorem update_ui_project (s : State) : (update_ui s).project = s.project :=
  project_part_project (update_ui_project_part s)

theorem update_config_properties_project (e : PropertyDialogElements) (s : State) :
    (update_config_properties e s).project =
      s.project.map (fun (p : GeanyProject) =>
        { p with description := some e.description,
                 file_patterns := some (split_file_patterns e.patterns) }) := by
  simp only [update_config_properties, stash_groups_update, State.set_overlay,
    build_read_project, apply_editor_prefs, State.emit]
  split <;> split <;> (try split) <;> cases s.project <;> rfl

/-- The project fields a successful `update_config` leaves. -/
theorem update_config_commit_project (e : PropertyDialogElements) (np : Bool) (t : State) :
    ∃ p : GeanyProject, (update_config_commit e np t).2.project = some p ∧
      p.name = some e.name ∧ p.file_name = some e.file_name ∧
      p.base_path = some (if !EMPTY e.base_path then e.base_path else "./") ∧
      (np = false → t.project.isSome = true →
        p.file_patterns = some (split_file_patterns e.patterns) ∧
        p.description = some e.description) := by
  cases ht : t.project with
  | none =>
    have hproj : (update_config_commit e np t).2.project =
        some { GeanyProject.zero with
                 name := some e.name, file_name := some e.file_name,
                 base_path := some (if !EMPTY e.base_path then e.base_path else "./") } := by
      simp only [update_config_commit, ht, Option.isNone_none, if_true, Bool.or_true,
        Bool.not_true, Bool.false_eq_true, if_false, update_ui_project]
      rfl
    exact ⟨_, hproj, rfl, rfl, rfl, fun _ h => by cases h⟩
  | some q =>
    cases np with
    | true =>
      have hproj : (update_config_commit e true t).2.project =
          some { q with
                   name := some e.name, file_name := some e.file_name,
                   base_path := some (if !EMPTY e.base_path then e.base_path else "./") } := by
        simp only [update_config_commit, ht, Option.isNone_some, Bool.false_eq_true, if_false,
          Bool.or_false, Bool.not_true, update_ui_project, Option.map_some']
      exact ⟨_, hproj, rfl, rfl, rfl, fun h _ => by cases h⟩
    | false =>
      have hproj : (update_config_commit e false t).2.project =
          some { name := some e.name, description := some e.description,
                 file_name := some e.file_name,
                 base_path := some (if !EMPTY e.base_path then e.base_path else "./"),
                 file_patterns := some (split_file_patterns e.patterns) } := by
        simp only [update_config_commit, ht, Option.isNone_some, Bool.false_eq_true, if_false,
          Bool.or_false, Bool.not_false, if_true, update_ui_project,
          update_config_properties_project, Option.map_some']
      exact ⟨_, hproj, rfl, rfl, rfl, fun _ _ => ⟨rfl, rfl⟩⟩

theorem update_config_ok_project (e : PropertyDialogElements) (np : Bool) (s : State)
    (h : (update_config e np s).1 = true) :
    ∃ p : GeanyProject, (update_config e np s).2.project = some p ∧
      p.name = some e.name ∧ p.file_name = some e.file_name ∧
      p.base_path = some (if !EMPTY e.base_path then e.base_path else "./") ∧
      (np = false → s.project.isSome = true →
        p.file_patterns = some (split_file_patterns e.patterns) ∧
        p.description = some e.description) := by
  rcases update_config_cases e np s with ⟨h1, _⟩ | ⟨t, ht, h2⟩
  · rw [h1] at h; cases h
  · rw [h2]
    obtain ⟨p, c1, c2, c3, c4, c5⟩ := update_config_commit_project e np t
    exact ⟨p, c1, c2, c3, c4, fun hn hs => c5 hn (by rw [project_part_project ht]; exact hs)⟩

/-! ## A refused close-all -/

theorem document_close_all_refused (s : State) (h : s.close_all_script.head? = some false) :
    (document_close_all s).1 = false := by
  cases hs : s.close_all_script with
  | nil => rw [hs] at h; simp at h
  | cons a l =>
    rw [hs] at h
    simp only [List.head?_cons, Option.some.injEq] at h
    simp [document_close_all, hs, h]

theorem write_config_close_all_script (s : State) :
    (write_config s).2.close_all_script = s.close_all_script := by
  unfold write_config
  split <;> rfl

theorem project_close_write_close_all_script (s : State) :
    (project_close_write s).close_all_script = s.close_all_script := by
  unfold project_close_write
  split <;> exact write_config_close_all_script s

theorem project_close_refused (od : Bool) (s : State) (hp : s.project.isSome = true)
    (h : s.close_all_script.head? = some false) :
    (project_close od s).1 = false ∧ (project_close od s).2.project_part = s.project_part := by
  have hc : (document_close_all (project_close_write s)).1 = false :=
    document_close_all_refused _ (by rw [project_close_write_close_all_script]; exact h)
  obtain h1 | h1 := project_close_cases od s hp
  · exact ⟨h1.1, project_close_fail od s h1.1⟩
  · rw [h1.2.1] at hc; cases hc

theorem load_config_session_refused (s : State) (h0 : s.opening_session_files = 0)
    (h : s.close_all_script.head? = some false) :
    (load_config_session s).docs = s.docs ∧
      Event.close_all false ∈ (load_config_session s).log := by
  have hs : ∀ t : State, t.close_all_script.head? = some false →
      (document_close_all t).2.docs = t.docs ∧
        Event.close_all false ∈ (document_close_all t).2.log := by
    intro t ht
    simp [document_close_all, List.headD_eq_head?_getD, ht]
  unfold load_config_session
  rw [if_pos h0]
  split
  · exact hs _ h
  · exact hs _ h


theorem destroy_project_release_project (s : State) :
    (destroy_project_release s).project = none :=
  congrArg (fun x => x.1) (destroy_project_release_project_part s)

theorem destroy_project_some (od : Bool) (s : State) (h : s.project.isSome = true) :
    destroy_project od s =
      update_ui (g_signal_emit_by_name "project-close"
        (destroy_project_reopen od (apply_editor_prefs (destroy_project_release s)))) := by
  cases hq : s.project with
  | none => rw [hq] at h; cases h
  | some q => simp only [destroy_project, hq]

/-! ## The claims -/

/-- Claim C1 (singleton invariant).  Along every sequence of new-project,
open-project, load, close and ask-close operations started without a project,
never more than one `GeanyProject` is allocated at a time (the peak of the
allocation counter stays at most 1) and exactly the active one is live; the
counter does detect a second creation: `create_project` on a state with a live
project pushes the peak to 2, so `create_project` is only ever reached with
`app->project` NULL; `load_config` with a project active returns FALSE and
changes nothing; a `project_close` that returns TRUE leaves `app->project`
NULL. -/
theorem singleton_invariant (ops : List Op) (s0 : State) (h0 : s0.project = none)
    (hg : s0.stash_groups = []) (hl : s0.live_projects = 0) (hk : s0.peak_projects = 0) :
    ((run_ops ops s0).peak_projects ≤ 1 ∧
      (run_ops ops s0).live_projects = (if (run_ops ops s0).project.isSome then 1 else 0)) ∧
    (∀ s : State, s.live_projects = 1 → 2 ≤ (create_project s).peak_projects) ∧
    (∀ (f : String) (s : State), s.project.isSome = true → load_config f s = (false, s)) ∧
    (∀ (od : Bool) (s : State), (project_close od s).1 = true →
      (project_close od s).2.project = none) := by
  have hinv : singleton_inv s0 := by
    unfold singleton_inv
    simp [h0, hg, hl, hk]
  have h := run_ops_inv ops s0 hinv
  refine ⟨⟨h.2.1, h.1⟩, ?_, load_config_active, fun od s hc => (project_close_ok od s hc).1⟩
  intro s hs
  have ha := create_project_alloc s
  simp only [State.alloc_part, Prod.mk.injEq] at ha
  rw [ha.2.2.2, hs]
  exact le_max_right _ _

/-- Witness of C1: load a project, try to load it again, close it, then create
a new project over the same file; a project is active at the end and the peak
is 1. -/
theorem singleton_invariant_witness :
    (run_ops [Op.load "/p.geany", Op.load "/p.geany", Op.close true,
        Op.new_project false none [{ ok := true, e := demo_dialog }]]
      { demo_state with question_script := [true] }).project.isSome = true ∧
    (run_ops [Op.load "/p.geany", Op.load "/p.geany", Op.close true,
        Op.new_project false none [{ ok := true, e := demo_dialog }]]
      { demo_state with question_script := [true] }).peak_projects ≤ 1 :=
  ⟨by decide,
    (singleton_invariant
      [Op.load "/p.geany", Op.load "/p.geany", Op.close true,
        Op.new_project false none [{ ok := true, e := demo_dialog }]]
      { demo_state with question_script := [true] } rfl rfl rfl rfl).1.1⟩

/-- Counterexample to C2 as stated: a project created by the New Project dialog
over an existing project file has no description and no file patterns; after
`write_config` (which succeeds) and `load_config` of the same path the project
has the description and the file patterns of the old file. -/
theorem write_load_round_trip_counterexample :
    (write_config overwrite_state).1 = true ∧
    overwrite_state.project.bind (fun p => p.description) = none ∧
    overwrite_state.project.bind (fun p => p.file_patterns) = none ∧
    (load_config "/p.geany"
        (destroy_project false (write_config overwrite_state).2)).2.project.bind
      (fun p => p.description) = some "old notes" ∧
    (load_config "/p.geany"
        (destroy_project false (write_config overwrite_state).2)).2.project.bind
      (fun p => p.file_patterns) = some ["*.old"] := by
  decide

/-- Claim C2, amended.  For an active project with name, file name and base path
set and its stash groups registered, and any prior content of the file: after a
`write_config` that succeeds, `load_config` of the same path in a state without
a project yields a project with the same name, base path, long-line behaviour
and column and overlay fields; a description or file patterns that are set are
reproduced, and one that is unset is not written, so that the value of the
prior file is read back (or the default: an empty description, no patterns). -/
theorem write_load_round_trip (s s1 : State) (n f b : String) (d : Option String)
    (pats : Option (List String)) (fp : GeanyFilePrefs) (ep : GeanyEditorPrefs)
    (hp : s.project = some { name := some n, description := d, file_name := some f,
                             base_path := some b, file_patterns := pats })
    (hs : s.stash_groups = project_stash_groups fp ep)
    (hw : (write_config s).1 = true)
    (h1 : s1.project = none) (hg : s1.stash_groups = [])
    (hfs : g_key_file_load_from_file s1.fs f = g_key_file_load_from_file (write_config s).2.fs f) :
    (load_config f s1).1 = true ∧
    (load_config f s1).2.project =
      some { name := some n,
             description :=
               some (d.getD (utils_get_setting_string
                 ((g_key_file_load_from_file s.fs f).getD []) "project" "description" "")),
             file_name := some f,
             base_path := some b,
             file_patterns :=
               if pats.isSome then pats
               else g_key_file_get_string_list
                 ((g_key_file_load_from_file s.fs f).getD []) "project" "file_patterns" } ∧
    (load_config f s1).2.priv.long_line_behaviour = s.priv.long_line_behaviour ∧
    (load_config f s1).2.priv.long_line_column = s.priv.long_line_column ∧
    overlay_fields (load_config f s1).2 = overlay_fields s := by
  have hfile := write_config_file s _ hp hw
  simp only [Option.getD_some] at hfile
  rw [hfile] at hfs
  obtain ⟨l1, l2, l3, l4, l5⟩ := load_config_ok f s1 _ h1 hfs
  obtain ⟨o1, o2, o3, o4, o5, o6⟩ :=
    write_config_key_file_own
      ({ name := some n, description := d, file_name := some f, base_path := some b,
         file_patterns := pats } : GeanyProject) s fp ep hs n b rfl rfl
  have hst :=
    write_config_key_file_stash
      ({ name := some n, description := d, file_name := some f, base_path := some b,
         file_patterns := pats } : GeanyProject) s fp ep hs
  simp only [Option.getD_some] at o3 o4
  refine ⟨l1, ?_, ?_, ?_, ?_⟩
  · rw [l2]
    simp only [utils_get_setting_string, g_key_file_get_string_list, o1, o2, o3, o4,
      Option.getD_some]
    cases d <;> cases pats <;> simp [utils_get_setting_string, g_key_file_get_string_list]
  · rw [l3]; simp [utils_get_setting_integer, o5]
  · rw [l4]; simp [utils_get_setting_integer, o6]
  · rw [l5]
    exact stash_groups_load_stored _ s1 hg s.indentation _ _ _ _ _ _ _ hst

/-- Witness of C2 (amended): the loaded demo project, written and loaded again. -/
theorem write_load_round_trip_witness :
    (load_config "/p.geany" (destroy_project false (write_config loaded_state).2)).2.project =
      loaded_state.project ∧
    overlay_fields (load_config "/p.geany" (destroy_project false (write_config loaded_state).2)).2 =
      overlay_fields loaded_state :=
  ⟨(write_load_round_trip loaded_state (destroy_project false (write_config loaded_state).2)
      "demo" "/p.geany" "" (some "old notes") (some ["*.old"]) default_file_prefs
      default_editor_prefs (by decide) (by decide) (by decide) (by decide) (by decide)
      (by decide)).2.1.trans (by decide),
   (write_load_round_trip loaded_state (destroy_project false (write_config loaded_state).2)
      "demo" "/p.geany" "" (some "old notes") (some ["*.old"]) default_file_prefs
      default_editor_prefs (by decide) (by decide) (by decide) (by decide) (by decide)
      (by decide)).2.2.2.2⟩

/-- Claim C3 does not hold of the code, by a slip in `load_config`: it calls
`document_close_all` ("now close all open files") and does not look at the
result, where `handle_current_session` and `project_close` return FALSE on a
refusal.  With no project active, one unsaved document open and a user who
refuses to have it closed, `load_config` of a loadable project file returns
TRUE, and `run_open_dialog` ends with that project loaded, the refused close
on record, the unsaved document still open and the session files of the
project opened next to it. -/
theorem load_config_ignores_refusal :
    unsaved_state.project = none ∧
    unsaved_state.close_all_script.head? = some false ∧
    (document_close_all unsaved_state).1 = false ∧
    (load_config "/p.geany" unsaved_state).1 = true ∧
    (load_config "/p.geany" unsaved_state).2.project.isSome = true ∧
    (run_open_dialog [some "/p.geany"] unsaved_state).project.isSome = true ∧
    Event.close_all false ∈ (run_open_dialog [some "/p.geany"] unsaved_state).log ∧
    (run_open_dialog [some "/p.geany"] unsaved_state).docs.map
        (fun d => (d.file_name, d.changed)) =
      [(none, true), (some "/src/a.c", false), (some "/src/b.c", false)] := by
  decide

/-- What a refusal of `document_close_all` leads to at each place that calls
it.  Let the next `document_close_all` refuse.  Then
`project_close` on an active project returns FALSE with the project part of the
state (`app->project`, its private fields, the stash groups) unchanged;
`handle_current_session` returns FALSE whenever it reaches a close-all (a
project is active, or there are session documents and the user declines to move
them), and when it returns FALSE the project part is unchanged and
`run_new_dialog` ends right there, nothing created; `run_open_dialog` with a
project active ends in the state `project_close` left, the project part
unchanged and no load attempted.  The close-all inside `load_config` is
different: its result is not looked at, so with no project active
`load_config` of a parseable file still returns TRUE with the project created,
although no document was closed. -/
theorem refusal_propagation (s : State) (h : s.close_all_script.head? = some false) :
    (∀ od : Bool, s.project.isSome = true →
      (project_close od s).1 = false ∧ (project_close od s).2.project_part = s.project_part) ∧
    (s.project.isSome = true ∨
        (have_session_docs s = true ∧ s.question_script.head? ≠ some true) →
      (handle_current_session s).1 = false) ∧
    ((handle_current_session s).1 = false →
      (handle_current_session s).2.project_part = s.project_part ∧
      ∀ (r : DialogRun) (rest : List DialogRun), r.ok = true →
        run_new_dialog (r :: rest) s = (handle_current_session s).2) ∧
    (s.project.isSome = true → ∀ (f : String) (rest : List (Option String)),
      run_open_dialog (some f :: rest) s = (project_close false s).2 ∧
      (run_open_dialog (some f :: rest) s).project_part = s.project_part) ∧
    (∀ (f : String) (config : GKeyFile), s.project = none → s.opening_session_files = 0 →
      g_key_file_load_from_file s.fs f = some config →
        (load_config f s).1 = true ∧ (load_config f s).2.project.isSome = true ∧
        (load_config f s).2.docs.length = s.docs.length ∧
        Event.close_all false ∈ (load_config f s).2.log) := by
  have hsome : s.project.isSome = true → (handle_current_session s).1 = false ∧
      (handle_current_session s).2.project_part = s.project_part := by
    intro hp
    cases hps : s.project with
    | none => simp [hps] at hp
    | some p =>
      have he : handle_current_session s = project_close false s := by
        simp [handle_current_session, hps, handle_current_session_tail]
      rw [he]
      exact project_close_refused false s hp h
  refine ⟨fun od hp => project_close_refused od s hp h, ?_, ?_, ?_, ?_⟩
  · intro hor
    cases hps : s.project with
    | some p => exact (hsome (by rw [hps]; rfl)).1
    | none =>
      rcases hor with hp | ⟨hd, hq⟩
      · simp [hps] at hp
      · rw [handle_current_session_none s hps hd]
        have hq2 : ¬ s.question_script.headD false = true := by
          intro hh
          apply hq
          cases hs : s.question_script with
          | nil => rw [hs] at hh; simp at hh
          | cons a l => rw [hs] at hh; simp at hh; simp [hh]
        rw [if_neg hq2]
        exact document_close_all_refused _ h
  · intro hf
    constructor
    · cases hps : s.project with
      | some p => exact (hsome (by rw [hps]; rfl)).2
      | none =>
        generalize hr : handle_current_session s = r at hf ⊢
        simp only [handle_current_session, hps, Option.isNone_none, if_true] at hr
        split_ifs at hr <;> subst hr
        all_goals first
          | rfl
          | (rw [handle_current_session_tail_none] at hf ⊢
             · rfl
             all_goals exact hps)
    · intro r rest hok
      simp [run_new_dialog, hok, hf]
  · intro hp f rest
    have hc := project_close_refused false s hp h
    have : run_open_dialog (some f :: rest) s = (project_close false s).2 := by
      simp [run_open_dialog, hp, hc.1, run_open_dialog_closed]
    exact ⟨this, by rw [this]; exact hc.2⟩
  · intro f config hp h0 hfs
    have hl : load_config f s =
        (true, load_config_finish config (load_config_session (load_config_fields f config s))) := by
      simp [load_config, hp, hfs]
    have hfields : (load_config_fields f config s).docs.length = s.docs.length ∧
        (load_config_fields f config s).opening_session_files = s.opening_session_files ∧
        (load_config_fields f config s).close_all_script = s.close_all_script := by
      simp [load_config_fields, build_load_menu, apply_editor_prefs, State.emit,
        stash_groups_load, State.set_overlay, create_project, init_stash_prefs, add_stash_group]
    obtain ⟨r1, r2⟩ := load_config_session_refused (load_config_fields f config s)
      (by rw [hfields.2.1]; exact h0) (by rw [hfields.2.2]; exact h)
    have hfin : ∀ t : State, (load_config_finish config t).docs = t.docs ∧
        ∀ ev ∈ t.log, ev ∈ (load_config_finish config t).log := by
      intro t
      unfold load_config_finish update_ui
      split
      · exact ⟨rfl, fun ev hev => by simp [g_signal_emit_by_name, State.emit, hev]⟩
      · exact ⟨rfl, fun ev hev => by simp [g_signal_emit_by_name, State.emit, hev]⟩
    obtain ⟨q1, q2⟩ := hfin (load_config_session (load_config_fields f config s))
    have hsome : (load_config f s).2.project.isSome = true := by
      have := load_config_alloc f s
      rw [hl] at this ⊢
      have h5 := congrArg (fun x => x.1) this
      simp only [State.alloc_part, if_true] at h5
      rw [h5]
      exact congrArg (fun x => x.1) (create_project_alloc s)
    refine ⟨by rw [hl], hsome, ?_, ?_⟩
    · rw [hl]
      show (load_config_finish config _).docs.length = _
      rw [q1, r1, hfields.1]
    · rw [hl]
      exact q2 _ r2

/-- An instance of `refusal_propagation`: the loaded demo project with a user
who refuses; `project_close` fails and leaves the project part alone. -/
theorem refusal_propagation_witness :
    (project_close true { loaded_state with close_all_script := [false] }).1 = false ∧
    (project_close true { loaded_state with close_all_script := [false] }).2.project_part =
      loaded_state.project_part :=
  (refusal_propagation { loaded_state with close_all_script := [false] } rfl).1 true
    (by decide)

/-- Claim C4 (session move semantics).  The New Project dialog is confirmed with
no project active and N > 0 documents open, all backed by files.  If the user
confirms moving the documents and the dialog ends with a project created, the
default session is empty, the documents are the same and nothing was loaded for
reopening.  If the session was handled and the dialog ends without a project
(cancelled), the default session is again the list of the N files and the open
documents are again those N files (still open and re-saved, or closed and
reopened from the saved default session). -/
theorem session_move_semantics (r : DialogRun) (rest : List DialogRun) (s : State)
    (hp : s.project = none) (hne : s.docs ≠ [])
    (hreal : ∀ d ∈ s.docs, d.file_name.isSome = true) (hok : r.ok = true) :
    (s.question_script.head? = some true →
      (run_new_dialog (r :: rest) s).project.isSome = true →
        (run_new_dialog (r :: rest) s).default_session = [] ∧
        (run_new_dialog (r :: rest) s).doc_shape = s.doc_shape ∧
        (run_new_dialog (r :: rest) s).default_session_files = s.default_session_files) ∧
    ((handle_current_session s).1 = true →
      (run_new_dialog (r :: rest) s).project = none →
        (run_new_dialog (r :: rest) s).default_session = session_file_names s ∧
        (run_new_dialog (r :: rest) s).docs.map (fun d => d.file_name) =
          s.docs.map (fun d => d.file_name) ∧
        (session_file_names s).length = s.docs.length) := by
  have hd := have_session_docs_real s hne hreal
  have hlen : (session_file_names s).length = s.docs.length := by
    have := congrArg List.length (session_file_names_real s hreal)
    simpa using this
  have hh := handle_current_session_none s hp hd
  have hrun : run_new_dialog (r :: rest) s =
      if (handle_current_session s).1 = true then
        if (run_new_dialog_loop r.e rest (handle_current_session s).2).1 = true then
          (run_new_dialog_loop r.e rest (handle_current_session s).2).2
        else if have_session_docs (run_new_dialog_loop r.e rest (handle_current_session s).2).2
            = true then
          configuration_save_default_session
            (run_new_dialog_loop r.e rest (handle_current_session s).2).2
        else
          configuration_open_default_session
            (configuration_load_default_session
              (run_new_dialog_loop r.e rest (handle_current_session s).2).2)
      else (handle_current_session s).2 := by
    simp only [run_new_dialog, hok, Bool.not_true, Bool.false_eq_true, if_false]
    cases (handle_current_session s).1 <;> simp
  by_cases hq : s.question_script.headD false = true
  · -- the user confirms the move
    rw [if_pos hq] at hh
    have hh1 : (handle_current_session s).1 = true := by rw [hh]
    have hh2 : (handle_current_session s).2.session_part =
        (s.doc_shape, [], s.default_session_files) := by rw [hh]; rfl
    have hhp : (handle_current_session s).2.project = none := by rw [hh]; exact hp
    obtain ⟨l1, l2, l3⟩ := run_new_dialog_loop_spec rest r.e _ hhp
    rw [hh2] at l1
    simp only [State.session_part, Prod.mk.injEq] at l1
    obtain ⟨m1, m2, m3⟩ := l1
    rw [hrun, if_pos hh1]
    cases hl : (run_new_dialog_loop r.e rest (handle_current_session s).2).1 with
    | true =>
      simp only [if_true]
      exact ⟨fun _ _ => ⟨m2, m1, m3⟩, fun _ hn => by
        have := l2 hl
        rw [hn] at this
        cases this⟩
    | false =>
      have hhs : have_session_docs (run_new_dialog_loop r.e rest (handle_current_session s).2).2
          = true := (have_session_docs_congr m1).trans hd
      simp only [Bool.false_eq_true, if_false, hhs, if_true]
      refine ⟨fun _ hsome => ?_, fun _ _ => ⟨?_, ?_, hlen⟩⟩
      · have hn := l3 hl
        have : (configuration_save_default_session
            (run_new_dialog_loop r.e rest (handle_current_session s).2).2).project = none := hn
        rw [this] at hsome
        cases hsome
      · exact session_file_names_congr m1
      · exact doc_names_congr (s := configuration_save_default_session _) (t := s) m1
  · -- the user declines the move: all documents are closed
    rw [if_neg hq] at hh
    have hq2 : s.question_script.head? ≠ some true := by
      intro h
      apply hq
      cases hs : s.question_script with
      | nil => rw [hs] at h; simp at h
      | cons a l => rw [hs] at h; simp at h; simp [h]
    refine ⟨fun h => absurd h hq2, fun hh1 hn => ?_⟩
    have hc : (document_close_all
          (dialogs_show_question "Move the current documents into the new project's session?"
            (configuration_save_default_session s)).2).1 = true := by
      rw [hh] at hh1; exact hh1
    have hh2 : (handle_current_session s).2.session_part =
        (([], 0), session_file_names s, s.default_session_files) := by
      rw [hh]
      have hc2 : s.close_all_script.headD true = true := hc
      simp only [document_close_all]
      simp [State.session_part, State.doc_shape, dialogs_show_question,
        configuration_save_default_session, State.emit]
      simp [← List.headD_eq_head?_getD, hc2]
    have hhp : (handle_current_session s).2.project = none := by rw [hh]; exact hp
    obtain ⟨l1, l2, l3⟩ := run_new_dialog_loop_spec rest r.e _ hhp
    rw [hh2] at l1
    simp only [State.session_part, Prod.mk.injEq] at l1
    obtain ⟨m1, m2, m3⟩ := l1
    have hdocs : (run_new_dialog_loop r.e rest (handle_current_session s).2).2.docs = [] := by
      have := congrArg (fun x => x.1) m1
      simpa [State.doc_shape] using this
    rw [hrun, if_pos hh1] at hn ⊢
    cases hl : (run_new_dialog_loop r.e rest (handle_current_session s).2).1 with
    | true =>
      rw [hl] at hn
      simp only [if_true] at hn
      have := l2 hl
      rw [hn] at this
      cases this
    | false =>
      simp only [Bool.false_eq_true, if_false, have_session_docs_nil _ hdocs]
      rw [open_default_eq]
      simp only [configuration_load_default_session, State.emit, hdocs, m2, List.nil_append,
        List.map_map]
      refine ⟨trivial, ?_, hlen⟩
      rw [← session_file_names_real s hreal]
      rfl

/-- Witness of C4: two documents, the move confirmed, the project created. -/
theorem session_move_semantics_witness :
    (run_new_dialog [{ ok := true, e := demo_dialog }] two_docs_state).project.isSome = true ∧
    (run_new_dialog [{ ok := true, e := demo_dialog }] two_docs_state).default_session = [] ∧
    (run_new_dialog [{ ok := true, e := demo_dialog }] two_docs_state).doc_shape =
      two_docs_state.doc_shape :=
  ⟨by decide,
    ((session_move_semantics { ok := true, e := demo_dialog } [] two_docs_state rfl (by decide)
      (by decide) rfl).1 (by decide) (by decide)).1,
    ((session_move_semantics { ok := true, e := demo_dialog } [] two_docs_state rfl (by decide)
      (by decide) rfl).1 (by decide) (by decide)).2.1⟩

/-- Claim C5 (validation ordering).  With an empty name `update_config` reports
"name too short", refocuses the name field and returns FALSE, whatever the
other fields, the flag and the state are; with a non-empty name of at most
`MAX_NAME_LEN` bytes and an empty file path it reports "invalid project
filename", refocuses the file name field and returns FALSE.  In both cases the
state is otherwise untouched: no question was asked, no directory made, no
project created. -/
theorem validation_order (e : PropertyDialogElements) (np : Bool) (s : State) :
    (e.name = "" →
      update_config e np s =
        (false,
          (s.emit (Event.msgbox_error "The specified project name is too short.")).emit
            (Event.grab_focus "name"))) ∧
    (e.name ≠ "" → strlen e.name ≤ MAX_NAME_LEN → e.file_name = "" →
      update_config e np s =
        (false,
          (s.emit (Event.msgbox_error "You have specified an invalid project filename.")).emit
            (Event.grab_focus "file_name"))) := by
  constructor
  · intro h
    have h0 : strlen e.name = 0 := (strlen_eq_zero_iff _).2 h
    simp [update_config, h0, SHOW_ERR, gtk_widget_grab_focus]
  · intro h hl hf
    have h0 : strlen e.name ≠ 0 := fun h1 => h ((strlen_eq_zero_iff _).1 h1)
    have h2 : ¬ (strlen e.name > MAX_NAME_LEN) := by omega
    have h3 : strlen e.file_name = 0 := (strlen_eq_zero_iff _).2 hf
    simp [update_config, h0, h2, h3, EMPTY, SHOW_ERR, gtk_widget_grab_focus]

/-- Witness of C5: name and file name both empty, and a valid name with an
empty file name. -/
theorem validation_order_witness :
    (update_config empty_dialog true main_init).2.log =
      [Event.msgbox_error "The specified project name is too short.", Event.grab_focus "name"] ∧
    (update_config { empty_dialog with name := "demo" } false loaded_state).2.log =
      loaded_state.log ++
        [Event.msgbox_error "You have specified an invalid project filename.",
         Event.grab_focus "file_name"] :=
  ⟨congrArg (fun r => r.2.log) ((validation_order empty_dialog true main_init).1 rfl),
   congrArg (fun r => r.2.log)
     ((validation_order { empty_dialog with name := "demo" } false loaded_state).2 (by decide)
       (by decide) rfl)⟩

/-- Claim C6 (base path normalisation).  After a successful `update_config`
whose base path input is empty the project's base path is "./"; a successful
`write_config` then stores "./" under project/base_path in the project file,
and `load_config` of a file with that content yields base path "./". -/
theorem base_path_normalisation (e : PropertyDialogElements) (np : Bool) (s : State)
    (hb : e.base_path = "") (hu : (update_config e np s).1 = true) :
    ((update_config e np s).2.project.bind (fun p => p.base_path)) = some "./" ∧
    ((write_config (update_config e np s).2).1 = true →
      ∃ kf : GKeyFile,
        g_key_file_load_from_file (write_config (update_config e np s).2).2.fs e.file_name =
          some kf ∧
        g_key_file_lookup kf "project" "base_path" = some (KVal.str "./") ∧
        ∀ s2 : State, s2.project = none →
          g_key_file_load_from_file s2.fs e.file_name = some kf →
            (load_config e.file_name s2).1 = true ∧
            ((load_config e.file_name s2).2.project.bind (fun p => p.base_path)) = some "./") := by
  obtain ⟨p, c1, _, c3, c4, _⟩ := update_config_ok_project e np s hu
  have hbp : p.base_path = some "./" := by
    rw [c4, hb]; rfl
  refine ⟨by rw [c1]; exact hbp, fun hw => ?_⟩
  have hfile := write_config_file _ p c1 hw
  rw [c3] at hfile
  simp only [Option.getD_some] at hfile
  have hlk := write_config_key_file_base_path p (update_config e np s).2 "./" hbp
  refine ⟨_, hfile, hlk, fun s2 h2 hfs => ?_⟩
  obtain ⟨l1, l2, _⟩ := load_config_ok e.file_name s2 _ h2 hfs
  refine ⟨l1, ?_⟩
  rw [l2]
  simp [utils_get_setting_string, hlk]

/-- Witness of C6: the New Project dialog with the base path left empty. -/
theorem base_path_normalisation_witness :
    ((update_config demo_dialog true { demo_state with question_script := [true] }).2.project.bind
      (fun p => p.base_path)) = some "./" :=
  (base_path_normalisation demo_dialog true { demo_state with question_script := [true] } rfl
    (by decide)).1

/-- Counterexample to C7 as stated: the pattern input is a tab, a space and
"*.c".  Its non-empty space-separated tokens are the tab and "*.c", but
`update_config` strips the leading white space first and stores "*.c" alone. -/
theorem file_pattern_normalisation_counterexample :
    (nonempty_space_tokens ("\t *.c" : String).data).map String.mk = ["\t", "*.c"] ∧
    (update_config { demo_dialog with patterns := "\t *.c" } false loaded_state).1 = true ∧
    ((update_config { demo_dialog with patterns := "\t *.c" } false loaded_state).2.project.bind
      (fun p => p.file_patterns)) = some ["*.c"] := by
  decide

/-- Claim C7, amended.  In a properties edit (a project is active,
`new_project` FALSE) that succeeds, the collapsing loop ends with no two
adjacent spaces left, and file_patterns is exactly the ordered list of the
non-empty space-separated tokens of the input after `g_strstrip` removed its
leading and trailing white space; it contains no empty string; `write_config`
stores that list under project/file_patterns; "*.c   *.h" gives the two
patterns "*.c" and "*.h". -/
theorem file_pattern_normalisation (e : PropertyDialogElements) (s : State)
    (hp : s.project.isSome = true) (hu : (update_config e false s).1 = true) :
    ((update_config e false s).2.project.bind (fun p => p.file_patterns)) =
      some ((nonempty_space_tokens (g_strstrip e.patterns.data)).map String.mk) ∧
    "" ∉ (nonempty_space_tokens (g_strstrip e.patterns.data)).map String.mk ∧
    (∃ str, collapse_spaces_loop ((g_strstrip e.patterns.data).length + 1)
        (g_strstrip e.patterns.data) = some str ∧ has_double_space str = false) ∧
    ((write_config (update_config e false s).2).1 = true →
      ∃ kf : GKeyFile,
        g_key_file_load_from_file (write_config (update_config e false s).2).2.fs e.file_name =
          some kf ∧
        g_key_file_lookup kf "project" "file_patterns" =
          some (KVal.strlist ((nonempty_space_tokens (g_strstrip e.patterns.data)).map String.mk))) ∧
    split_file_patterns "*.c   *.h" = ["*.c", "*.h"] := by
  obtain ⟨p, c1, _, c3, _, c5⟩ := update_config_ok_project e false s hu
  obtain ⟨c6, _⟩ := c5 rfl hp
  rw [split_file_patterns_eq] at c6
  obtain ⟨str, h1, h2, _⟩ :=
    collapse_loop_spec ((g_strstrip e.patterns.data).length + 1) (g_strstrip e.patterns.data)
      (Nat.lt_succ_self _)
  refine ⟨by rw [c1]; exact c6, ?_, ⟨str, h1, h2⟩, fun hw => ?_, by decide⟩
  · intro hmem
    obtain ⟨t, ht, hte⟩ := List.mem_map.1 hmem
    have hne : t ≠ [] := by
      have := (List.mem_filter.1 ht).2
      intro h0
      rw [h0] at this
      simp at this
    apply hne
    have := congrArg String.data hte
    simpa using this
  · have hfile := write_config_file _ p c1 hw
    rw [c3] at hfile
    simp only [Option.getD_some] at hfile
    exact ⟨_, hfile, write_config_key_file_patterns p _ _ c6⟩

/-- Witness of C7 (amended): the properties dialog with the patterns "*.c   *.h". -/
theorem file_pattern_normalisation_witness :
    ((update_config { demo_dialog with patterns := "*.c   *.h" } false loaded_state).2.project.bind
      (fun p => p.file_patterns)) = some ["*.c", "*.h"] :=
  ((file_pattern_normalisation { demo_dialog with patterns := "*.c   *.h" } loaded_state
    (by decide) (by decide)).1).trans (by decide)

/-- Claim C8 (preference reversion).  A project whose overlay has replace_tabs
set is closed successfully while the global file preference has it unset.
Before the close the effective file preferences have replace_tabs set;
afterwards `app->project` is NULL, `project_get_file_prefs` gives the global
file preferences, so replace_tabs is unset, and every document open afterwards
(those reopened from the default session) has the global editor preferences
applied: the state in which the editor preferences were re-applied and the
default session reopened already had `app->project` cleared. -/
theorem preference_reversion (od : Bool) (s : State) (hp : s.project.isSome = true)
    (ho : s.priv.replace_tabs = true) (hg : s.file_prefs.replace_tabs = false)
    (hc : (project_close od s).1 = true) :
    (project_get_file_prefs s).1.replace_tabs = true ∧
    (project_close od s).2.project = none ∧
    (project_get_file_prefs (project_close od s).2).1 = s.file_prefs ∧
    (project_get_file_prefs (project_close od s).2).1.replace_tabs = false ∧
    (∀ d ∈ (project_close od s).2.docs, d.applied = s.editor_prefs) ∧
    (∃ t : State, t.project = none ∧
      (project_close od s).2 =
        update_ui (g_signal_emit_by_name "project-close"
          (destroy_project_reopen od (apply_editor_prefs t)))) := by
  have hnone := (project_close_ok od s hc).1
  cases hps : s.project with
  | none => simp [hps] at hp
  | some p =>
    obtain h1 | ⟨_, hca, _⟩ := project_close_cases od s hp
    · rw [h1.1] at hc; cases hc
    · have hres : (project_close od s).2 =
          destroy_project od (ui_set_statusbar ("Project \"" ++ p.name.getD "" ++ "\" closed.")
            (document_close_all (project_close_write s)).2) := by
        simp [project_close, hps, hca]
      have hpp : (ui_set_statusbar ("Project \"" ++ p.name.getD "" ++ "\" closed.")
            (document_close_all (project_close_write s)).2).project_part = s.project_part := by
        simp
      have hsome : (ui_set_statusbar ("Project \"" ++ p.name.getD "" ++ "\" closed.")
            (document_close_all (project_close_write s)).2).project.isSome = true := by
        rw [project_part_project hpp]; exact hp
      have hdocs : (ui_set_statusbar ("Project \"" ++ p.name.getD "" ++ "\" closed.")
            (document_close_all (project_close_write s)).2).docs = [] := by
        simp [ui_set_statusbar, State.emit, document_close_all] at hca ⊢
        simp [hca]
      obtain ⟨d1, d2⟩ := destroy_project_docs od _ hsome hdocs
      have hgp : (project_close od s).2.global_prefs = s.global_prefs := by
        rw [hres, d1]
        exact project_close_write_global_prefs s
      have hfp : (project_close od s).2.file_prefs = s.file_prefs := congrArg (fun x => x.1) hgp
      have hpf : (project_get_file_prefs (project_close od s).2).1 = s.file_prefs := by
        simp [project_get_file_prefs, hnone, hfp]
      refine ⟨?_, hnone, hpf, by rw [hpf]; exact hg, ?_, ?_⟩
      · simp [project_get_file_prefs, hps, ho]
      · rw [hres]
        intro d hdm
        have := d2 d hdm
        rw [this]
        exact congrArg (fun x => x.2) (project_close_write_global_prefs s)
      · exact ⟨_, destroy_project_release_project _,
          hres.trans (destroy_project_some od _ hsome)⟩

/-- Witness of C8: the loaded demo project with replace_tabs set in its overlay,
closed with the default session reopened. -/
theorem preference_reversion_witness :
    (project_get_file_prefs
      (project_close true
        { loaded_state with priv := { loaded_state.priv with replace_tabs := true } }).2).1.replace_tabs
      = false :=
  (preference_reversion true
    { loaded_state with priv := { loaded_state.priv with replace_tabs := true } }
    (by decide) (by decide) (by decide) (by decide)).2.2.2.1

/-- Claim C9 (effective file preferences).  `project_get_file_prefs` leaves the
global `file_prefs` as it is; with no project active it returns the global file
preferences and changes nothing; with a project active it returns a copy in
which final_new_line, ensure_convert_new_lines, strip_trailing_spaces and
replace_tabs are the project's values and every other field is the global
value, and only the static copy `fp` is written. -/
theorem project_get_file_prefs_frame (s : State) :
    (project_get_file_prefs s).2.file_prefs = s.file_prefs ∧
    (if s.project.isNone then project_get_file_prefs s = (s.file_prefs, s)
     else
      (project_get_file_prefs s).1.final_new_line = s.priv.final_new_line ∧
      (project_get_file_prefs s).1.ensure_convert_new_lines = s.priv.ensure_convert_new_lines ∧
      (project_get_file_prefs s).1.strip_trailing_spaces = s.priv.strip_trailing_spaces ∧
      (project_get_file_prefs s).1.replace_tabs = s.priv.replace_tabs ∧
      (project_get_file_prefs s).1.cmdline_new_files = s.file_prefs.cmdline_new_files ∧
      (project_get_file_prefs s).1.mru_length = s.file_prefs.mru_length ∧
      (project_get_file_prefs s).1.rest = s.file_prefs.rest ∧
      (project_get_file_prefs s).2 = { s with fp := (project_get_file_prefs s).1 }) := by
  unfold project_get_file_prefs
  cases h : s.project.isNone <;> simp

/-- Claim C10 (load failure).  For a path whose file is missing or cannot be
parsed as a key file `load_config` returns FALSE and the state is exactly the
one before; in particular, when no project was active none is afterwards, no
stash group was registered, no document closed, the default session not saved,
nothing allocated and nothing emitted. -/
theorem load_config_unparsable (f : String) (s : State)
    (h : ∀ kf : GKeyFile, s.fs.read f ≠ some (FileData.keyfile kf)) :
    load_config f s = (false, s) ∧
    (s.project = none →
      (load_config f s).2.project = none ∧ (load_config f s).2.stash_groups = s.stash_groups ∧
      (load_config f s).2.docs = s.docs ∧
      (load_config f s).2.default_session = s.default_session ∧
      (load_config f s).2.live_projects = s.live_projects ∧
      (load_config f s).2.log = s.log) := by
  have hl : g_key_file_load_from_file s.fs f = none := by
    unfold g_key_file_load_from_file
    split
    · rename_i kf hk
      exact absurd hk (h kf)
    · rfl
  have he : load_config f s = (false, s) := by
    unfold load_config
    split
    · rfl
    · rw [hl]
  rw [he]
  exact ⟨rfl, fun hp => ⟨hp, rfl, rfl, rfl, rfl, rfl⟩⟩

/-- Witness of C10: the unparsable file of the demo state. -/
theorem load_config_unparsable_witness :
    load_config "/bad.geany" demo_state = (false, demo_state) :=
  (load_config_unparsable "/bad.geany" demo_state
    (fun kf h => by
      have e : demo_state.fs.read "/bad.geany" = some FileData.garbage := by decide
      rw [e] at h
      cases h)).1

/-! ## The session guard of `load_config` -/

/-- What the first part of a successful `load_config` leaves alone: it logs the
re-application of the editor preferences and nothing else, and keeps the
documents (up to the applied preferences), the default session, the counter of
session files being opened and the scripted outcomes. -/
theorem load_config_fields_frame (f : String) (config : GKeyFile) (s : State) :
    (load_config_fields f config s).log = s.log ++ [Event.apply_editor_prefs] ∧
    (load_config_fields f config s).doc_shape = s.doc_shape ∧
    (load_config_fields f config s).default_session = s.default_session ∧
    (load_config_fields f config s).opening_session_files = s.opening_session_files ∧
    (load_config_fields f config s).close_all_script = s.close_all_script ∧
    (load_config_fields f config s).quitting = s.quitting := by
  refine ⟨rfl, ?_, rfl, rfl, rfl, rfl⟩
  simp only [State.doc_shape, Prod.mk.injEq]
  refine ⟨?_, rfl⟩
  show List.map _ (List.map _ s.docs) = _
  rw [List.map_map]
  rfl

theorem load_config_finish_frame (config : GKeyFile) (s : State) :
    (load_config_finish config s).log =
      s.log ++ [Event.signal "project-open"] ++ (if s.quitting then [] else [Event.update_ui]) ∧
    (load_config_finish config s).priv.session_files =
      some (configuration_load_session_files config) ∧
    (load_config_finish config s).docs = s.docs ∧
    (load_config_finish config s).cur_page = s.cur_page ∧
    (load_config_finish config s).default_session = s.default_session ∧
    (load_config_finish config s).close_all_script = s.close_all_script := by
  unfold load_config_finish update_ui g_signal_emit_by_name State.emit
  cases hq : s.quitting <;> simp [hq]

theorem load_config_eq (f : String) (s : State) (config : GKeyFile) (h1 : s.project = none)
    (hfs : g_key_file_load_from_file s.fs f = some config) :
    load_config f s =
      (true, load_config_finish config (load_config_session (load_config_fields f config s))) := by
  simp [load_config, h1, hfs]

theorem load_config_session_guarded (s : State) (h : s.opening_session_files ≠ 0) :
    load_config_session s = s := by
  unfold load_config_session
  rw [if_neg h]

theorem load_config_session_frame (s : State) (h : s.opening_session_files = 0) :
    (load_config_session s).log =
      s.log ++ (if have_session_docs s then [Event.save_default_session] else []) ++
        [Event.close_all (s.close_all_script.headD true)] ∧
    (load_config_session s).default_session =
      (if have_session_docs s then session_file_names s else s.default_session) ∧
    (load_config_session s).docs = (if s.close_all_script.headD true then [] else s.docs) ∧
    (load_config_session s).close_all_script = s.close_all_script.tail ∧
    (load_config_session s).quitting = s.quitting := by
  unfold load_config_session
  rw [if_pos h]
  cases hd : have_session_docs s
  · simp only [Bool.false_eq_true, if_false]
    exact ⟨by simp [document_close_all], rfl, rfl, rfl, rfl⟩
  · simp only [if_true]
    exact ⟨by simp [document_close_all, configuration_save_default_session, State.emit],
      rfl, rfl, rfl, rfl⟩

/-! ## The logs of `write_config`, `project_close` and `destroy_project` -/

theorem utils_write_file_zero_iff (fs : FS) (path : String) (kf : GKeyFile) :
    (utils_write_file fs path kf).1 = 0 ↔
      (fs.readonly.contains path = false ∧ fs.is_dir path = false ∧
        fs.no_space.contains path = false) := by
  unfold utils_write_file
  cases h1 : fs.readonly.contains path <;> cases h2 : fs.is_dir path <;>
    cases h3 : fs.no_space.contains path <;> simp [EACCES, EISDIR, ENOSPC]

theorem write_config_log (s : State) (p : GeanyProject) (hp : s.project = some p) :
    (write_config s).2.log =
      s.log ++ [Event.signal "project-save",
        Event.write_file (p.file_name.getD "") (write_config s).1] := by
  simp [write_config, hp, g_signal_emit_by_name, State.emit]

theorem project_close_write_log (s : State) (p : GeanyProject) (hp : s.project = some p) :
    (project_close_write s).log =
      s.log ++ [Event.signal "project-save",
          Event.write_file (p.file_name.getD "") (write_config s).1] ++
        (if (write_config s).1 then []
         else [Event.warning ("Project file \"" ++ p.file_name.getD "" ++
                "\" could not be written")]) := by
  unfold project_close_write
  cases hw : (write_config s).1
  · simp only [Bool.not_false, if_true, g_warning, State.emit, Bool.false_eq_true, if_false]
    rw [write_config_log s p hp, hw, hp]
    rfl
  · simp only [Bool.not_true, Bool.false_eq_true, if_false, if_true, List.append_nil]
    rw [write_config_log s p hp, hw]

theorem write_config_frame (s : State) :
    (write_config s).2.docs = s.docs ∧ (write_config s).2.cur_page = s.cur_page ∧
    (write_config s).2.default_session = s.default_session ∧
    (write_config s).2.cl_options = s.cl_options ∧ (write_config s).2.quitting = s.quitting := by
  unfold write_config
  split <;> exact ⟨rfl, rfl, rfl, rfl, rfl⟩

theorem project_close_write_frame (s : State) :
    (project_close_write s).docs = s.docs ∧ (project_close_write s).cur_page = s.cur_page ∧
    (project_close_write s).default_session = s.default_session ∧
    (project_close_write s).cl_options = s.cl_options ∧
    (project_close_write s).quitting = s.quitting ∧
    (project_close_write s).fs = (write_config s).2.fs := by
  obtain ⟨a, b, c, d, e⟩ := write_config_frame s
  unfold project_close_write
  split
  · exact ⟨a, b, c, d, e, rfl⟩
  · exact ⟨a, b, c, d, e, rfl⟩

theorem document_close_all_fst (s : State) :
    (document_close_all s).1 = s.close_all_script.headD true := rfl

theorem document_close_all_snd (s : State) :
    (document_close_all s).2.log = s.log ++ [Event.close_all (document_close_all s).1] ∧
    (document_close_all s).2.docs = (if (document_close_all s).1 then [] else s.docs) ∧
    (document_close_all s).2.cur_page = (if (document_close_all s).1 then 0 else s.cur_page) ∧
    (document_close_all s).2.default_session = s.default_session ∧
    (document_close_all s).2.cl_options = s.cl_options ∧
    (document_close_all s).2.quitting = s.quitting ∧
    (document_close_all s).2.fs = s.fs :=
  ⟨rfl, rfl, rfl, rfl, rfl, rfl, rfl⟩

theorem document_new_file_if_non_open_log (s : State) :
    (document_new_file_if_non_open s).log =
      s.log ++ (if s.docs.isEmpty then [Event.new_file] else []) ∧
    (document_new_file_if_non_open s).quitting = s.quitting ∧
    (document_new_file_if_non_open s).project_part = s.project_part := by
  unfold document_new_file_if_non_open
  cases hd : s.docs with
  | nil => exact ⟨rfl, rfl, rfl⟩
  | cons d l => simp

theorem destroy_project_reopen_log (od : Bool) (s : State) :
    (destroy_project_reopen od s).log =
      s.log ++
        (if od && s.cl_options.load_session then
          [Event.load_default_session] ++ s.default_session.map Event.open_file ++
            (if s.docs.isEmpty && s.default_session.isEmpty then [Event.new_file] else []) ++
            [Event.focus_document]
         else []) ∧
    (destroy_project_reopen od s).quitting = s.quitting := by
  unfold destroy_project_reopen
  cases h : (od && s.cl_options.load_session)
  · simp
  · simp only [if_true]
    rw [open_default_eq]
    obtain ⟨a, b, _⟩ := document_new_file_if_non_open_log
      { configuration_load_default_session s with
          docs := (configuration_load_default_session s).docs ++
            (configuration_load_default_session s).default_session_files.map
              (fun f => GeanyDocument.fresh (some f) (editor_get_prefs (configuration_load_default_session s))),
          cur_page := if (configuration_load_default_session s).default_session_files = [] then
              (configuration_load_default_session s).cur_page
            else (configuration_load_default_session s).docs.length +
              (configuration_load_default_session s).default_session_files.length - 1,
          log := (configuration_load_default_session s).log ++
            (configuration_load_default_session s).default_session_files.map Event.open_file,
          default_session_files := [] }
    refine ⟨?_, ?_⟩
    · show (document_new_file_if_non_open _).log ++ [Event.focus_document] = _
      rw [a]
      simp [configuration_load_default_session, State.emit]
    · show (document_new_file_if_non_open _).quitting = _
      rw [b]
      rfl

theorem destroy_project_release_frame (s : State) :
    (destroy_project_release s).log = s.log ++ [Event.signal "project-before-close"] ∧
    (destroy_project_release s).docs = s.docs ∧
    (destroy_project_release s).default_session = s.default_session ∧
    (destroy_project_release s).cl_options = s.cl_options ∧
    (destroy_project_release s).quitting = s.quitting := by
  unfold destroy_project_release
  simp only
  split <;> exact ⟨rfl, rfl, rfl, rfl, rfl⟩

/-- The log of `destroy_project` with a project active. -/
theorem destroy_project_log (od : Bool) (s : State) (h : s.project.isSome = true) :
    (destroy_project od s).log =
      s.log ++ [Event.signal "project-before-close", Event.apply_editor_prefs] ++
        (if od && s.cl_options.load_session then
          [Event.load_default_session] ++ s.default_session.map Event.open_file ++
            (if s.docs.isEmpty && s.default_session.isEmpty then [Event.new_file] else []) ++
            [Event.focus_document]
         else []) ++
        [Event.signal "project-close"] ++ (if s.quitting then [] else [Event.update_ui]) := by
  rw [destroy_project_some od s h]
  obtain ⟨r1, r2, r3, r4, r5⟩ := destroy_project_release_frame s
  obtain ⟨d1, d2⟩ := destroy_project_reopen_log od (apply_editor_prefs (destroy_project_release s))
  have a1 : (apply_editor_prefs (destroy_project_release s)).log =
      s.log ++ [Event.signal "project-before-close", Event.apply_editor_prefs] := by
    show (destroy_project_release s).log ++ [Event.apply_editor_prefs] = _
    rw [r1]; simp
  have a2 : (apply_editor_prefs (destroy_project_release s)).docs.isEmpty = s.docs.isEmpty := by
    show (List.map _ (destroy_project_release s).docs).isEmpty = _
    rw [r2]; cases s.docs <;> rfl
  have a3 : (apply_editor_prefs (destroy_project_release s)).default_session = s.default_session := r3
  have a4 : (apply_editor_prefs (destroy_project_release s)).cl_options = s.cl_options := r4
  have a5 : (apply_editor_prefs (destroy_project_release s)).quitting = s.quitting := r5
  rw [a1, a2, a3, a4] at d1
  rw [a5] at d2
  unfold update_ui g_signal_emit_by_name
  simp only [State.emit]
  rw [d2]
  cases hq : s.quitting
  · simp only [Bool.false_eq_true, if_false]
    rw [d1]
  · simp only [if_true, List.append_nil]
    rw [d1]

/-- The state `project_close` hands to `destroy_project` after a close-all that
was not refused. -/
theorem project_close_eq (od : Bool) (s : State) (p : GeanyProject) (hp : s.project = some p)
    (h : (document_close_all (project_close_write s)).1 = true) :
    project_close od s =
      (true, destroy_project od (ui_set_statusbar ("Project \"" ++ p.name.getD "" ++ "\" closed.")
        (document_close_all (project_close_write s)).2)) := by
  simp only [project_close, hp, h, Bool.not_true, Bool.false_eq_true, if_false]

theorem project_close_true (od : Bool) (s : State) (p : GeanyProject) (hp : s.project = some p)
    (h : (project_close od s).1 = true) :
    (document_close_all (project_close_write s)).1 = true := by
  obtain h1 | h1 := project_close_cases od s (by rw [hp]; rfl)
  · rw [h1.1] at h; cases h
  · exact h1.2.1

/-- The log of a successful `project_close`. -/
theorem project_close_log (od : Bool) (s : State) (p : GeanyProject) (hp : s.project = some p)
    (h : (project_close od s).1 = true) :
    (project_close od s).2.log =
      s.log ++ [Event.signal "project-save",
          Event.write_file (p.file_name.getD "") (write_config s).1] ++
        (if (write_config s).1 then []
         else [Event.warning ("Project file \"" ++ p.file_name.getD "" ++
                "\" could not be written")]) ++
        [Event.close_all true, Event.statusbar ("Project \"" ++ p.name.getD "" ++ "\" closed."),
          Event.signal "project-before-close", Event.apply_editor_prefs] ++
        (if od && s.cl_options.load_session then
          [Event.load_default_session] ++ s.default_session.map Event.open_file ++
            (if s.default_session.isEmpty then [Event.new_file] else []) ++
            [Event.focus_document]
         else []) ++
        [Event.signal "project-close"] ++ (if s.quitting then [] else [Event.update_ui]) := by
  have hc := project_close_true od s p hp h
  rw [project_close_eq od s p hp hc]
  obtain ⟨c1, c2, _, c4, c5, c6, _⟩ := document_close_all_snd (project_close_write s)
  obtain ⟨_, _, w3, w4, w5, _⟩ := project_close_write_frame s
  rw [hc] at c1 c2
  have hsome : (ui_set_statusbar ("Project \"" ++ p.name.getD "" ++ "\" closed.")
      (document_close_all (project_close_write s)).2).project.isSome = true := by
    show (document_close_all (project_close_write s)).2.project.isSome = true
    have := project_part_project
      ((close_all_project_part (project_close_write s)).trans (project_close_write_project_part s))
    rw [this, hp]; rfl
  rw [destroy_project_log od _ hsome]
  show (((document_close_all (project_close_write s)).2.log ++ [Event.statusbar _]) ++ _ ++
    (if od && (document_close_all (project_close_write s)).2.cl_options.load_session then
      [Event.load_default_session] ++
        (document_close_all (project_close_write s)).2.default_session.map Event.open_file ++
        (if (document_close_all (project_close_write s)).2.docs.isEmpty &&
            (document_close_all (project_close_write s)).2.default_session.isEmpty
          then [Event.new_file] else []) ++ [Event.focus_document]
     else []) ++ _ ++
    (if (document_close_all (project_close_write s)).2.quitting then [] else [Event.update_ui])) = _
  rw [c1, c2, c4, c5, c6, w3, w4, w5, project_close_write_log s p hp]
  simp

/-- The log of a refused `project_close`. -/
theorem project_close_false_log (od : Bool) (s : State) (p : GeanyProject) (hp : s.project = some p)
    (h : (project_close od s).1 = false) :
    (project_close od s).2.log =
      s.log ++ [Event.signal "project-save",
          Event.write_file (p.file_name.getD "") (write_config s).1] ++
        (if (write_config s).1 then []
         else [Event.warning ("Project file \"" ++ p.file_name.getD "" ++
                "\" could not be written")]) ++
        [Event.close_all false] := by
  obtain ⟨_, h2, h3⟩ | ⟨h1, _⟩ := project_close_cases od s (by rw [hp]; rfl)
  · rw [h3, (document_close_all_snd _).1, h2, project_close_write_log s p hp]
  · rw [h1] at h; cases h

theorem signals_append (l m : List Event) : signals (l ++ m) = signals l ++ signals m := by
  simp [signals, List.filterMap_append]

theorem signals_map_open_file (l : List String) : signals (l.map Event.open_file) = [] := by
  induction l with
  | nil => rfl
  | cons a l ih =>
    simp only [List.map_cons, signals, List.filterMap_cons] at ih ⊢
    exact ih

theorem drop_log (l m : List Event) : (l ++ m).drop l.length = m := by
  simp

/-! ## Foreign keys in the key file `write_config` builds -/

theorem stash_group_save_foreign (group : StashGroup) (o : Overlay) (g k : String)
    (h : ∀ p ∈ group.entries, ¬ (group.name = g ∧ p.key_name = k)) (kf : GKeyFile) :
    g_key_file_lookup (stash_group_save_to_key_file group kf o) g k = g_key_file_lookup kf g k := by
  unfold stash_group_save_to_key_file
  generalize group.entries = es at h
  induction es generalizing kf with
  | nil => rfl
  | cons e es ih =>
    rw [List.foldl_cons, ih _ (fun p hp => h p (List.mem_cons_of_mem _ hp)), g_key_file_lookup_set,
      if_neg (h e (List.mem_cons_self _ _))]

/-- The stash groups leave every key alone that is not one of theirs. -/
theorem stash_groups_save_foreign (s : State) (g k : String)
    (h : stash_groups_key s g k = false) (config : GKeyFile) :
    g_key_file_lookup (stash_groups_save config s) g k = g_key_file_lookup config g k := by
  unfold stash_groups_save
  unfold stash_groups_key at h
  generalize s.stash_groups = gs at h
  induction gs generalizing config with
  | nil => rfl
  | cons grp gs ih =>
    rw [List.any_cons, Bool.or_eq_false_iff] at h
    rw [List.foldl_cons, ih _ h.2]
    apply stash_group_save_foreign
    intro p hp hh
    have h1 := h.1
    rw [Bool.and_eq_false_iff] at h1
    rcases h1 with h1 | h1
    · simp [hh.1] at h1
    · rw [List.any_eq_false] at h1
      have := h1 p hp
      simp [hh.2] at this

/-- The key file `write_config` builds, key by key, over the stash groups'
output. -/
theorem write_config_key_file_lookup (p : GeanyProject) (s : State) (g k : String) :
    g_key_file_lookup (write_config_key_file p s) g k =
      if g = "build-menu" ∧ k = "commands" then some (KVal.strlist s.build_proj)
      else if g = "files" ∧ k = "session_files" then some (KVal.strlist (session_file_names s))
      else if g = "long line marker" ∧ k = "long_line_column" then
        some (KVal.int s.priv.long_line_column)
      else if g = "long line marker" ∧ k = "long_line_behaviour" then
        some (KVal.int s.priv.long_line_behaviour)
      else if g = "project" ∧ k = "file_patterns" ∧ p.file_patterns.isSome then
        p.file_patterns.map KVal.strlist
      else if g = "project" ∧ k = "description" ∧ p.description.isSome then
        p.description.map KVal.str
      else if g = "project" ∧ k = "base_path" ∧ p.base_path.isSome then p.base_path.map KVal.str
      else if g = "project" ∧ k = "name" ∧ p.name.isSome then p.name.map KVal.str
      else g_key_file_lookup
        (stash_groups_save ((g_key_file_load_from_file s.fs (p.file_name.getD "")).getD []) s)
        g k := by
  simp only [write_config_key_file, configuration_save_session_files, build_save_menu,
    g_key_file_set_string]
  cases p.name <;> cases p.base_path <;> cases p.description <;> cases p.file_patterns <;>
    simp only [g_key_file_lookup_set, Option.isSome_none, Option.isSome_some, Bool.false_eq_true,
      and_false, and_true, if_false, Option.map_some', eq_comm]

/-! ## What the commit of `update_config` reads from the dialog -/

theorem update_config_check_file_settled (e : PropertyDialogElements) (np : Bool) (s : State) :
    (update_config_check_file e np s).1 = false ∨
      (∃ t, t.settled_part = s.settled_part ∧
        update_config_check_file e np s = update_config_commit e np t) := by
  generalize hr : update_config_check_file e np s = r
  simp only [update_config_check_file] at hr
  split_ifs at hr <;> subst hr
  all_goals first
    | exact Or.inl rfl
    | (refine Or.inr ⟨_, ?_, rfl⟩; rfl)

theorem update_config_create_dir_settled (e : PropertyDialogElements) (np : Bool) (s : State) :
    (update_config_create_dir e np s).1 = false ∨
      (∃ t, t.settled_part = s.settled_part ∧
        update_config_create_dir e np s = update_config_commit e np t) := by
  generalize hr : update_config_create_dir e np s = r
  simp only [update_config_create_dir] at hr
  split_ifs at hr <;> subst hr
  all_goals first
    | exact Or.inl rfl
    | (rcases update_config_check_file_settled e np _ with h | ⟨t, h1, h2⟩
       · exact Or.inl h
       · exact Or.inr ⟨t, h1.trans rfl, h2⟩)

/-- A successful `update_config` is the commit on a state that differs from the
given one in the log, the scripted answers and the file system at most. -/
theorem update_config_settled (e : PropertyDialogElements) (np : Bool) (s : State)
    (h : (update_config e np s).1 = true) :
    ∃ t, t.settled_part = s.settled_part ∧
      update_config e np s = update_config_commit e np t := by
  have key : (update_config e np s).1 = false ∨
      (∃ t, t.settled_part = s.settled_part ∧
        update_config e np s = update_config_commit e np t) := by
    generalize hr : update_config e np s = r
    unfold update_config at hr
    split_ifs at hr <;> subst hr
    · exact Or.inl rfl
    · exact Or.inl rfl
    · exact Or.inl rfl
    · exact update_config_create_dir_settled e np s
    · exact update_config_check_file_settled e np s
    · exact update_config_check_file_settled e np s
  rcases key with h1 | h1
  · rw [h1] at h; cases h
  · exact h1

/-- `load_config` either fails and changes nothing, or there was no project,
the file could be parsed and the project was loaded from it. -/
theorem load_config_cases (f : String) (s : State) :
    load_config f s = (false, s) ∨
      (s.project = none ∧ ∃ config, g_key_file_load_from_file s.fs f = some config ∧
        load_config f s =
          (true, load_config_finish config (load_config_session (load_config_fields f config s)))) := by
  cases hp : s.project with
  | some p => exact Or.inl (load_config_active f s (by rw [hp]; rfl))
  | none =>
    cases hfs : g_key_file_load_from_file s.fs f with
    | none => exact Or.inl (by simp [load_config, hp, hfs])
    | some config => exact Or.inr ⟨rfl, config, rfl, load_config_eq f s config hp hfs⟩

theorem load_config_session_fs (s : State) : (load_config_session s).fs = s.fs := by
  unfold load_config_session
  split_ifs <;> rfl

theorem load_config_finish_fs (config : GKeyFile) (s : State) :
    (load_config_finish config s).fs = s.fs := by
  unfold load_config_finish update_ui
  split <;> rfl

/-- What `project_load_file` leaves: on failure the project part and the file
system are as before; on success a project is active, loaded from the file,
with its session files read and not yet opened. -/
theorem project_load_file_cases (f : String) (s : State) :
    ((project_load_file f s).1 = false ∧
        (project_load_file f s).2.project_part = s.project_part ∧
        (project_load_file f s).2.fs = s.fs) ∨
      ((project_load_file f s).1 = true ∧ s.project = none ∧
        (project_load_file f s).2.project.isSome = true ∧
        (project_load_file f s).2.fs = s.fs ∧
        ∃ config, g_key_file_load_from_file s.fs f = some config ∧
          (project_load_file f s).2.priv.session_files =
            some (configuration_load_session_files config)) := by
  rcases load_config_cases f s with h | ⟨hp, config, hfs, h⟩
  · refine Or.inl ?_
    simp only [project_load_file, h, Bool.false_eq_true, if_false]
    exact ⟨trivial, rfl, rfl⟩
  · refine Or.inr ?_
    obtain ⟨_, hproj, _⟩ := load_config_ok f s config hp hfs
    rw [h] at hproj
    have hfs2 : (load_config_finish config
        (load_config_session (load_config_fields f config s))).fs = s.fs := by
      rw [load_config_finish_fs, load_config_session_fs]
      rfl
    have hsf := (load_config_finish_frame config
      (load_config_session (load_config_fields f config s))).2.1
    generalize load_config_finish config (load_config_session (load_config_fields f config s)) = y
      at h hproj hfs2 hsf
    simp only [project_load_file, h, if_true]
    refine ⟨trivial, hp, ?_, hfs2, config, hfs, hsf⟩
    show y.project.isSome = true
    rw [hproj]; rfl

theorem document_show_or_new_file_project_part (f : String) (s : State) :
    (document_show_or_new_file f s).project_part = s.project_part := by
  unfold document_show_or_new_file
  split <;> rfl

theorem main_handle_goto_project_part (lc : LineColumn) (s : State) :
    (main_handle_goto lc s).project_part = s.project_part := by
  unfold main_handle_goto
  simp only
  split_ifs <;> rfl

theorem main_handle_filename_project_part (f : String) (s : State) :
    (main_handle_filename f s).2.project_part = s.project_part := by
  unfold main_handle_filename
  split
  · rfl
  · simp only
    split_ifs
    · rw [open_file_project_part, main_handle_goto_project_part]
    · rw [document_show_or_new_file_project_part, main_handle_goto_project_part]
    · exact main_handle_goto_project_part _ s

theorem open_cl_file_project_part (cwd arg : String) (s : State) :
    (open_cl_file cwd arg s).project_part = s.project_part := by
  unfold open_cl_file
  simp only
  split_ifs
  · rfl
  · rw [statusbar_project_part, main_handle_filename_project_part]
  · exact main_handle_filename_project_part _ s

/-- Opening the files of the command line leaves the project alone. -/
theorem open_cl_files_project_part (cwd : String) (argv : List String) (s : State) :
    (open_cl_files cwd argv s).project_part = s.project_part := by
  unfold open_cl_files
  generalize argv.drop 1 = l
  induction l generalizing s with
  | nil => rfl
  | cons a l ih => rw [List.foldl_cons, ih, open_cl_file_project_part]

/-- A project found active after `project_load_file` in a state without one was
loaded from the file, and its session files are those of the file. -/
theorem project_load_file_loaded (f : String) (s : State) (hs : s.project = none) :
    (project_load_file f s).2.fs = s.fs ∧
      ((project_load_file f s).2.project.isSome = true →
        ∃ config, g_key_file_load_from_file s.fs f = some config ∧
          (project_load_file f s).2.priv.session_files =
            some (configuration_load_session_files config)) := by
  rcases project_load_file_cases f s with ⟨_, h2, h3⟩ | ⟨_, _, _, h4, h5⟩
  · refine ⟨h3, fun h => ?_⟩
    rw [project_part_project h2, hs] at h
    cases h
  · exact ⟨h4, fun _ => h5⟩

theorem main_load_project_from_command_line_cases (f : String) (s : State) :
    main_load_project_from_command_line f false s = s ∨
      ∃ g, main_load_project_from_command_line f false s = (project_load_file g s).2 := by
  unfold main_load_project_from_command_line
  split
  · exact Or.inr ⟨_, rfl⟩
  · exact Or.inl rfl

theorem load_startup_files_project_cases (cwd : String) (argv : List String) (s : State) :
    (∃ b l, load_startup_files_project cwd argv s = (b, l, s)) ∨
      (∃ f l, load_startup_files_project cwd argv s =
        (true, l, main_load_project_from_command_line f false s)) := by
  unfold load_startup_files_project
  split
  · split_ifs
    · exact Or.inr ⟨_, _, rfl⟩
    · exact Or.inl ⟨_, _, rfl⟩
  · exact Or.inl ⟨_, _, rfl⟩

theorem load_startup_files_project_loaded (cwd : String) (argv : List String) (s : State)
    (hs : s.project = none) :
    (load_startup_files_project cwd argv s).2.2.fs = s.fs ∧
      ((load_startup_files_project cwd argv s).2.2.project.isSome = true →
        (load_startup_files_project cwd argv s).1 = true ∧
        ∃ f config, g_key_file_load_from_file s.fs f = some config ∧
          (load_startup_files_project cwd argv s).2.2.priv.session_files =
            some (configuration_load_session_files config)) := by
  rcases load_startup_files_project_cases cwd argv s with ⟨b, l, h⟩ | ⟨f, l, h⟩
  · rw [h]
    exact ⟨rfl, fun hh => by rw [hs] at hh; cases hh⟩
  · rw [h]
    rcases main_load_project_from_command_line_cases f s with h2 | ⟨g, h2⟩
    · rw [h2]
      exact ⟨rfl, fun hh => by rw [hs] at hh; cases hh⟩
    · rw [h2]
      obtain ⟨h3, h4⟩ := project_load_file_loaded g s hs
      exact ⟨h3, fun hh => ⟨rfl, g, h4 hh⟩⟩

theorem load_session_project_file_cases (s : State) :
    load_session_project_file s = s ∨
      ∃ g, load_session_project_file s = (project_load_file g s).2 := by
  unfold load_session_project_file
  split
  · exact Or.inl rfl
  · split_ifs
    · exact Or.inr ⟨_, rfl⟩
    · exact Or.inl rfl

theorem load_session_project_file_loaded (s : State) (hs : s.project = none) :
    (load_session_project_file s).fs = s.fs ∧
      ((load_session_project_file s).project.isSome = true →
        ∃ f config, g_key_file_load_from_file s.fs f = some config ∧
          (load_session_project_file s).priv.session_files =
            some (configuration_load_session_files config)) := by
  rcases load_session_project_file_cases s with h | ⟨g, h⟩
  · rw [h]
    exact ⟨rfl, fun hh => by rw [hs] at hh; cases hh⟩
  · rw [h]
    obtain ⟨h3, h4⟩ := project_load_file_loaded g s hs
    exact ⟨h3, fun hh => ⟨g, h4 hh⟩⟩

theorem load_startup_files_session_cases (ls : Bool) (s : State) :
    load_startup_files_session ls s = (ls, s) ∨
      (s.project.isSome = true ∧ load_startup_files_session ls s = (true, s)) ∨
      (s.project = none ∧ (load_session_project_file s).project.isSome = true ∧
        load_startup_files_session ls s = (true, load_session_project_file s)) ∨
      (s.project = none ∧ (load_session_project_file s).project = none ∧
        load_startup_files_session ls s =
          (true, configuration_load_default_session (load_session_project_file s))) := by
  unfold load_startup_files_session
  cases hc : (s.prefs_load_session && s.cl_options.load_session && !s.cl_options.new_instance)
  · exact Or.inl (by simp)
  · refine Or.inr ?_
    simp only [if_true]
    cases hp : s.project with
    | some p =>
      refine Or.inl ⟨rfl, ?_⟩
      simp only [Option.isNone_some, Bool.false_eq_true, if_false, hp]
    | none =>
      refine Or.inr ?_
      simp only [Option.isNone_none, if_true]
      cases hq : (load_session_project_file s).project with
      | some q =>
        refine Or.inl ⟨trivial, rfl, ?_⟩
        simp only [Option.isNone_some, Bool.false_eq_true, if_false]
      | none =>
        refine Or.inr ⟨trivial, rfl, ?_⟩
        simp only [Option.isNone_none, if_true]

/-- After the second part of `load_startup_files` a project that is active was
loaded from a project file, its session files are those of the file, and the
session is going to be opened. -/
theorem load_startup_files_session_loaded (ls : Bool) (s : State) (fs0 : FS) (hfs : s.fs = fs0)
    (hl : s.project.isSome = true →
      ls = true ∧ ∃ f config, g_key_file_load_from_file fs0 f = some config ∧
        s.priv.session_files = some (configuration_load_session_files config)) :
    (load_startup_files_session ls s).2.project.isSome = true →
      (load_startup_files_session ls s).1 = true ∧
      ∃ f config, g_key_file_load_from_file fs0 f = some config ∧
        (load_startup_files_session ls s).2.priv.session_files =
          some (configuration_load_session_files config) := by
  rcases load_startup_files_session_cases ls s with h | ⟨hp, h⟩ | ⟨hp, hq, h⟩ | ⟨hp, hq, h⟩
  · rw [h]; exact hl
  · rw [h]; exact fun _ => ⟨rfl, (hl hp).2⟩
  · rw [h]
    obtain ⟨_, h2⟩ := load_session_project_file_loaded s hp
    rw [hfs] at h2
    exact fun _ => ⟨rfl, h2 hq⟩
  · rw [h]
    intro hh
    have : (configuration_load_default_session (load_session_project_file s)).project =
        (load_session_project_file s).project := rfl
    simp only [this, hq] at hh
    cases hh

theorem load_startup_files_open_project (ls : Bool) (s : State) :
    (load_startup_files_open ls s).project = s.project := by
  unfold load_startup_files_open
  split_ifs
  · show (configuration_open_files s.priv.session_files s).project = s.project
    exact project_part_project (open_files_project_part _ s)
  · exact project_part_project (open_default_project_part s)
  · rfl

/-- The third part of `load_startup_files` with a project active: the session
files of the project are opened, in order, and the field is cleared. -/
theorem load_startup_files_open_consumes (s : State) (hs : s.project.isSome = true) :
    (load_startup_files_open true s).log =
      s.log ++ (s.priv.session_files.getD []).map Event.open_file ∧
    (load_startup_files_open true s).priv.session_files = none := by
  unfold load_startup_files_open
  rw [if_pos rfl, if_pos hs, configuration_open_files_eq]
  exact ⟨rfl, rfl⟩

theorem project_load_file_with_session_eq (f : String) (s : State)
    (h : (project_load_file f s).1 = true) :
    project_load_file_with_session f s =
      (true, ui_focus_current_document (document_new_file_if_non_open
        { configuration_open_files (project_load_file f s).2.priv.session_files
            (project_load_file f s).2 with
          priv := { (configuration_open_files (project_load_file f s).2.priv.session_files
              (project_load_file f s).2).priv with session_files := none } })) := by
  simp only [project_load_file_with_session, h, if_true]

theorem project_load_file_with_session_true (f : String) (s : State)
    (h : (project_load_file_with_session f s).1 = true) :
    (project_load_file f s).1 = true := by
  cases hp : (project_load_file f s).1 with
  | true => rfl
  | false =>
    simp only [project_load_file_with_session, hp, Bool.false_eq_true, if_false] at h

/-! ## The claims on loading, saving and closing -/

/-- Claim C11: for every parseable project file, `load_config` (no project active)
succeeds and populates the project with the stored value of each key when the key
is present, and with the named default when it is missing: name "untitled",
description "", base_path "" (not "./"), long_line_behaviour 1 and
long_line_column the global editor long line column; file_patterns is the
stored list or NULL; file_name is the path that was loaded, whatever the file
holds. -/
theorem load_config_defaults (f : String) (s : State) (config : GKeyFile)
    (h1 : s.project = none) (hfs : g_key_file_load_from_file s.fs f = some config) :
    (load_config f s).1 = true ∧
    ∃ p, (load_config f s).2.project = some p ∧
      p.file_name = some f ∧
      (∀ v, g_key_file_lookup config "project" "name" = some (KVal.str v) → p.name = some v) ∧
      (g_key_file_lookup config "project" "name" = none → p.name = some "untitled") ∧
      (∀ v, g_key_file_lookup config "project" "description" = some (KVal.str v) →
        p.description = some v) ∧
      (g_key_file_lookup config "project" "description" = none → p.description = some "") ∧
      (∀ v, g_key_file_lookup config "project" "base_path" = some (KVal.str v) →
        p.base_path = some v) ∧
      (g_key_file_lookup config "project" "base_path" = none → p.base_path = some "") ∧
      (∀ v, g_key_file_lookup config "project" "file_patterns" = some (KVal.strlist v) →
        p.file_patterns = some v) ∧
      (g_key_file_lookup config "project" "file_patterns" = none → p.file_patterns = none) ∧
      (∀ v, g_key_file_lookup config "long line marker" "long_line_behaviour" = some (KVal.int v) →
        (load_config f s).2.priv.long_line_behaviour = v) ∧
      (g_key_file_lookup config "long line marker" "long_line_behaviour" = none →
        (load_config f s).2.priv.long_line_behaviour = 1) ∧
      (∀ v, g_key_file_lookup config "long line marker" "long_line_column" = some (KVal.int v) →
        (load_config f s).2.priv.long_line_column = v) ∧
      (g_key_file_lookup config "long line marker" "long_line_column" = none →
        (load_config f s).2.priv.long_line_column = s.editor_prefs.long_line_column) := by
  obtain ⟨h, hp, hb, hc, _⟩ := load_config_ok f s config h1 hfs
  refine ⟨h, _, hp, rfl, ?_, ?_, ?_, ?_, ?_, ?_, ?_, ?_, ?_, ?_, ?_, ?_⟩
  · intro v hv; simp only [utils_get_setting_string, hv]
  · intro hv; simp only [utils_get_setting_string, hv]; rfl
  · intro v hv; simp only [utils_get_setting_string, hv]
  · intro hv; simp only [utils_get_setting_string, hv]
  · intro v hv; simp only [utils_get_setting_string, hv]
  · intro hv; simp only [utils_get_setting_string, hv]
  · intro v hv; simp only [g_key_file_get_string_list, hv]
  · intro hv; simp only [g_key_file_get_string_list, hv]
  · intro v hv; rw [hb]; simp only [utils_get_setting_integer, hv]
  · intro hv; rw [hb]; simp only [utils_get_setting_integer, hv]
  · intro v hv; rw [hc]; simp only [utils_get_setting_integer, hv]
  · intro hv; rw [hc]; simp only [utils_get_setting_integer, hv]

/-- Witness for C11: loading the demo project file, and a project file with no
keys at all, in the startup state. -/
theorem load_config_defaults_witness :
    (load_config "/p.geany" demo_state).1 = true ∧
    (load_config "/p.geany" demo_state).2.project.isSome = true ∧
    ((load_config "/e.geany" { demo_state with fs := { demo_state.fs with
        files := [("/e.geany", FileData.keyfile [("project", "file_name", KVal.str "/x")])] } }).2.project =
      some { name := some "untitled", description := some "", file_name := some "/e.geany",
             base_path := some "", file_patterns := none }) :=
  ⟨(load_config_defaults "/p.geany" demo_state demo_key_file (by decide) (by decide)).1,
   by decide, by decide⟩

/-- Claim C12: what a successful `load_config` does with the session.  In both
cases the session files are loaded from the file and "project-open" is
emitted.  While session files are being opened (`opening_session_files`
non-zero) the default session is not saved and no document is closed: the log
gains the re-application of the editor preferences, "project-open" and the UI
refresh only.  Otherwise the default session is saved exactly when
`have_session_docs` holds, and close-all is invoked next, unconditionally. -/
theorem load_config_session_guard (f : String) (s : State) (config : GKeyFile)
    (h1 : s.project = none) (hfs : g_key_file_load_from_file s.fs f = some config) :
    (load_config f s).1 = true ∧
    (load_config f s).2.priv.session_files = some (configuration_load_session_files config) ∧
    (s.opening_session_files ≠ 0 →
      (load_config f s).2.log =
        s.log ++ [Event.apply_editor_prefs, Event.signal "project-open"] ++
          (if s.quitting then [] else [Event.update_ui]) ∧
      (load_config f s).2.default_session = s.default_session ∧
      (load_config f s).2.doc_shape = s.doc_shape ∧
      (load_config f s).2.close_all_script = s.close_all_script) ∧
    (s.opening_session_files = 0 →
      (load_config f s).2.log =
        s.log ++ [Event.apply_editor_prefs] ++
          (if have_session_docs s then [Event.save_default_session] else []) ++
          [Event.close_all (s.close_all_script.headD true), Event.signal "project-open"] ++
          (if s.quitting then [] else [Event.update_ui]) ∧
      (load_config f s).2.default_session =
        (if have_session_docs s then session_file_names s else s.default_session) ∧
      (load_config f s).2.close_all_script = s.close_all_script.tail) := by
  rw [load_config_eq f s config h1 hfs]
  obtain ⟨a1, a2, a3, a4, a5, a6⟩ := load_config_fields_frame f config s
  refine ⟨rfl, (load_config_finish_frame config _).2.1, ?_, ?_⟩
  · intro h
    have hg := load_config_session_guarded (load_config_fields f config s) (by rw [a4]; exact h)
    obtain ⟨b1, _, b3, b4, b5, b6⟩ :=
      load_config_finish_frame config (load_config_session (load_config_fields f config s))
    simp only [hg] at b1 b3 b4 b5 b6 ⊢
    refine ⟨?_, by rw [b5, a3], ?_, by rw [b6, a5]⟩
    · rw [b1, a1, a6]; simp
    · rw [← a2]; simp only [State.doc_shape, b3, b4]
  · intro h
    obtain ⟨c1, c2, _, c4, c5⟩ :=
      load_config_session_frame (load_config_fields f config s) (by rw [a4]; exact h)
    obtain ⟨b1, _, _, _, b5, b6⟩ :=
      load_config_finish_frame config (load_config_session (load_config_fields f config s))
    rw [have_session_docs_congr a2] at c1 c2
    rw [session_file_names_congr a2, a3] at c2
    refine ⟨?_, by rw [b5, c2], by rw [b6, c4, a5]⟩
    rw [b1, c1, c5, a1, a5, a6]; simp

/-- Witness for C12: loading the demo project file with two documents open,
once at startup (counter 1) and once from the menu (counter 0). -/
theorem load_config_session_guard_witness :
    (load_config "/p.geany" { two_docs_state with opening_session_files := 1 }).1 = true ∧
    (load_config "/p.geany" two_docs_state).2.log =
      two_docs_state.log ++ [Event.apply_editor_prefs, Event.save_default_session,
        Event.close_all true, Event.signal "project-open", Event.update_ui] :=
  ⟨(load_config_session_guard "/p.geany" { two_docs_state with opening_session_files := 1 }
      demo_key_file (by decide) (by decide)).1, by decide⟩

/-- Claim C13: a project's session files are consumed exactly once.  Whenever
`project_load_file_with_session` returns TRUE, the files opened through
`configuration_open_files` are exactly the list `load_config` read from the
project file, in order, and `session_files` is NULL afterwards, so that
opening the field again opens nothing.  Likewise in `load_startup_files`: a
project that is active at the end was loaded from a project file, the files
opened for it are exactly the list read from that file, in order, and
`session_files` is NULL afterwards. -/
theorem session_files_consumed_once (f : String) (s : State)
    (h : (project_load_file_with_session f s).1 = true)
    (cwd : String) (argv : List String) (s0 : State) (h0 : s0.project = none)
    (h1 : (load_startup_files cwd argv s0).project.isSome = true) :
    (∃ config, g_key_file_load_from_file s.fs f = some config ∧
      (project_load_file f s).2.priv.session_files =
        some (configuration_load_session_files config) ∧
      (project_load_file_with_session f s).2.log =
        (project_load_file f s).2.log ++
          (configuration_load_session_files config).map Event.open_file ++
          (if (project_load_file f s).2.docs.isEmpty &&
              (configuration_load_session_files config).isEmpty then [Event.new_file] else []) ++
          [Event.focus_document]) ∧
    (project_load_file_with_session f s).2.project.isSome = true ∧
    (project_load_file_with_session f s).2.priv.session_files = none ∧
    configuration_open_files (project_load_file_with_session f s).2.priv.session_files
        (project_load_file_with_session f s).2 =
      (project_load_file_with_session f s).2 ∧
    (∃ g config, g_key_file_load_from_file s0.fs g = some config ∧
      (load_startup_files_session (load_startup_files_project cwd argv s0).1
          (load_startup_files_project cwd argv s0).2.2).2.priv.session_files =
        some (configuration_load_session_files config) ∧
      (load_startup_files_session (load_startup_files_project cwd argv s0).1
          (load_startup_files_project cwd argv s0).2.2).1 = true ∧
      (load_startup_files_open true
          (load_startup_files_session (load_startup_files_project cwd argv s0).1
            (load_startup_files_project cwd argv s0).2.2).2).log =
        (load_startup_files_session (load_startup_files_project cwd argv s0).1
            (load_startup_files_project cwd argv s0).2.2).2.log ++
          (configuration_load_session_files config).map Event.open_file) ∧
    (load_startup_files cwd argv s0).priv.session_files = none ∧
    configuration_open_files (load_startup_files cwd argv s0).priv.session_files
        (load_startup_files cwd argv s0) =
      load_startup_files cwd argv s0 := by
  have hplf := project_load_file_with_session_true f s h
  have heq := project_load_file_with_session_eq f s hplf
  have hA3 : (project_load_file_with_session f s).2.priv.session_files = none := by
    rw [heq]
    have := (document_new_file_if_non_open_log
      { configuration_open_files (project_load_file f s).2.priv.session_files
          (project_load_file f s).2 with
        priv := { (configuration_open_files (project_load_file f s).2.priv.session_files
            (project_load_file f s).2).priv with session_files := none } }).2.2
    exact congrArg (fun x => x.2.1.session_files) this
  have hB : (load_startup_files_session (load_startup_files_project cwd argv s0).1
      (load_startup_files_project cwd argv s0).2.2).2.project.isSome = true := by
    have e1 := open_cl_files_project_part cwd (load_startup_files_project cwd argv s0).2.1
      (load_startup_files_open
        (load_startup_files_session (load_startup_files_project cwd argv s0).1
          (load_startup_files_project cwd argv s0).2.2).1
        (load_startup_files_session (load_startup_files_project cwd argv s0).1
          (load_startup_files_project cwd argv s0).2.2).2)
    have e2 : (load_startup_files cwd argv s0).project = _ := project_part_project e1
    rw [load_startup_files_open_project] at e2
    rw [← e2]
    exact h1
  obtain ⟨p1, p2⟩ := load_startup_files_project_loaded cwd argv s0 h0
  obtain ⟨q1, g, config0, q2, q3⟩ := load_startup_files_session_loaded
    (load_startup_files_project cwd argv s0).1 (load_startup_files_project cwd argv s0).2.2
    s0.fs p1 p2 hB
  obtain ⟨o1, o2⟩ := load_startup_files_open_consumes _ hB
  have hB2 : (load_startup_files cwd argv s0).priv.session_files = none := by
    have e1 := open_cl_files_project_part cwd (load_startup_files_project cwd argv s0).2.1
      (load_startup_files_open
        (load_startup_files_session (load_startup_files_project cwd argv s0).1
          (load_startup_files_project cwd argv s0).2.2).1
        (load_startup_files_session (load_startup_files_project cwd argv s0).1
          (load_startup_files_project cwd argv s0).2.2).2)
    have e2 : (load_startup_files cwd argv s0).priv = _ := congrArg (fun x => x.2.1) e1
    rw [e2, q1]
    exact o2
  refine ⟨?_, ?_, hA3, by rw [hA3]; rfl, ⟨g, config0, q2, q3, q1, ?_⟩, hB2, by rw [hB2]; rfl⟩
  · rcases project_load_file_cases f s with ⟨c1, _⟩ | ⟨_, _, _, _, config, c5, c6⟩
    · rw [c1] at hplf; cases hplf
    · refine ⟨config, c5, c6, ?_⟩
      rw [heq]
      show (document_new_file_if_non_open _).log ++ [Event.focus_document] = _
      rw [(document_new_file_if_non_open_log _).1, configuration_open_files_eq, c6]
      simp
  · rw [heq]
    have := (document_new_file_if_non_open_log
      { configuration_open_files (project_load_file f s).2.priv.session_files
          (project_load_file f s).2 with
        priv := { (configuration_open_files (project_load_file f s).2.priv.session_files
            (project_load_file f s).2).priv with session_files := none } }).2.2
    have e : (ui_focus_current_document (document_new_file_if_non_open
      { configuration_open_files (project_load_file f s).2.priv.session_files
          (project_load_file f s).2 with
        priv := { (configuration_open_files (project_load_file f s).2.priv.session_files
            (project_load_file f s).2).priv with session_files := none } })).project =
        (project_load_file f s).2.project :=
      (congrArg (fun x => x.1) this).trans
        (project_part_project (open_files_project_part _ (project_load_file f s).2))
    show (ui_focus_current_document _).project.isSome = true
    rw [e]
    rcases project_load_file_cases f s with ⟨c1, _⟩ | ⟨_, _, c3, _⟩
    · rw [c1] at hplf; cases hplf
    · exact c3
  · rw [o1, q3]
    rfl

/-- Witness for C13: the demo project file loaded with its session from the
menu, and named on the command line at startup together with a file. -/
theorem session_files_consumed_once_witness :
    (project_load_file_with_session "/p.geany" demo_state).2.priv.session_files = none ∧
    (load_startup_files "/home/u" ["geany", "/p.geany", "c.txt:3"] startup_state).priv.session_files =
      none ∧
    (load_startup_files "/home/u" ["geany", "/p.geany", "c.txt:3"] startup_state).log =
      [Event.apply_editor_prefs, Event.signal "project-open", Event.update_ui,
       Event.statusbar "Project \"demo\" opened.", Event.open_file "/src/a.c",
       Event.open_file "/src/b.c", Event.open_file "/home/u/c.txt"] :=
  ⟨(session_files_consumed_once "/p.geany" demo_state (by decide)
      "/home/u" ["geany", "/p.geany", "c.txt:3"] startup_state (by decide) (by decide)).2.2.1,
   (session_files_consumed_once "/p.geany" demo_state (by decide)
      "/home/u" ["geany", "/p.geany", "c.txt:3"] startup_state (by decide) (by decide)).2.2.2.2.2.1,
   by decide⟩

/-- Claim C14: `write_config` returns FALSE without writing or emitting
anything when no project is active.  With a project active it returns TRUE
exactly when `utils_write_file` of the serialised configuration to the
project's file name succeeds, that is exactly when the path is neither
write-protected nor a directory and the write itself does not fail: whether an
existing file at that path could be read or parsed plays no part, and after a
TRUE the file holds the configuration that was built. -/
theorem write_config_result (s : State) :
    (s.project = none → write_config s = (false, s)) ∧
    (∀ p f, s.project = some p → p.file_name = some f →
      ((write_config s).1 = true ↔ (utils_write_file s.fs f (write_config_key_file p s)).1 = 0) ∧
      ((write_config s).1 = true ↔
        (s.fs.readonly.contains f = false ∧ s.fs.is_dir f = false ∧
          s.fs.no_space.contains f = false)) ∧
      (g_key_file_load_from_file s.fs f = none → s.fs.readonly.contains f = false →
        s.fs.is_dir f = false → s.fs.no_space.contains f = false → (write_config s).1 = true) ∧
      ((write_config s).1 = true →
        (write_config s).2.fs.read f = some (FileData.keyfile (write_config_key_file p s))) ∧
      ((write_config s).1 = false → (write_config s).2.fs = s.fs) ∧
      (write_config s).2.log =
        s.log ++ [Event.signal "project-save", Event.write_file f (write_config s).1]) := by
  constructor
  · intro h
    simp only [write_config, h]
  · intro p f hp hf
    have h1 : (write_config s).1 = true ↔
        (utils_write_file s.fs f (write_config_key_file p s)).1 = 0 := by
      simp [write_config, hp, hf, g_signal_emit_by_name, State.emit]
    have h2 := utils_write_file_zero_iff s.fs f (write_config_key_file p s)
    refine ⟨h1, h1.trans h2, fun _ a b c => (h1.trans h2).2 ⟨a, b, c⟩, ?_, ?_, ?_⟩
    · intro hw
      have hz := h1.1 hw
      have : (write_config s).2.fs = (utils_write_file s.fs f (write_config_key_file p s)).2 := by
        simp [write_config, hp, hf, g_signal_emit_by_name, State.emit]
      rw [this, utils_write_file_ok _ _ _ hz, FS.read_store]
    · intro hw
      have hz : ¬ (s.fs.readonly.contains f = false ∧ s.fs.is_dir f = false ∧
          s.fs.no_space.contains f = false) := by
        intro hh
        rw [(h1.trans h2).2 hh] at hw
        cases hw
      have : (write_config s).2.fs = (utils_write_file s.fs f (write_config_key_file p s)).2 := by
        simp [write_config, hp, hf, g_signal_emit_by_name, State.emit]
      rw [this]
      unfold utils_write_file
      cases h3 : s.fs.readonly.contains f
      · cases h4 : s.fs.is_dir f
        · cases h5 : s.fs.no_space.contains f
          · exact absurd ⟨h3, h4, h5⟩ hz
          · simp
        · simp
      · simp
    · simp [write_config, hp, hf, g_signal_emit_by_name, State.emit]

/-- Witness for C14: the loaded demo project is written to its file, also when
the file there cannot be parsed, and not when the path is write-protected. -/
theorem write_config_result_witness :
    ((write_config loaded_state).1 = true ↔
      (loaded_state.fs.readonly.contains "/p.geany" = false ∧
        loaded_state.fs.is_dir "/p.geany" = false ∧
        loaded_state.fs.no_space.contains "/p.geany" = false)) ∧
    (write_config loaded_state).1 = true ∧
    (write_config { loaded_state with fs := { loaded_state.fs with
        files := [("/p.geany", FileData.garbage)] } }).1 = true ∧
    (write_config { loaded_state with fs := { loaded_state.fs with
        readonly := ["/p.geany"] } }).1 = false :=
  ⟨((write_config_result loaded_state).2 _ "/p.geany" rfl rfl).2.1, by decide, by decide, by decide⟩

/-- Claim C15: `write_config` preserves foreign content.  For an existing
parseable file at the project's file name, every section and key that is not
one of the project's own keys (project name / base_path / description /
file_patterns, the long line marker keys, the keys of the registered stash
groups, the session files section, the build configuration section) has in
the configuration that is written the value it had in the file.  The own keys
name, base_path, long_line_behaviour and long_line_column always hold the
in-memory values; description and file_patterns hold the in-memory value when
it is set and otherwise keep what the file had.  After a successful write the
file holds that configuration. -/
theorem write_config_preserves_foreign (s : State) (p : GeanyProject) (f : String)
    (prior : GKeyFile) (hf : p.file_name = some f)
    (hprior : g_key_file_load_from_file s.fs f = some prior) :
    (∀ g k, write_config_own_key s g k = false →
      g_key_file_lookup (write_config_key_file p s) g k = g_key_file_lookup prior g k) ∧
    (∀ n, p.name = some n →
      g_key_file_lookup (write_config_key_file p s) "project" "name" = some (KVal.str n)) ∧
    (∀ b, p.base_path = some b →
      g_key_file_lookup (write_config_key_file p s) "project" "base_path" = some (KVal.str b)) ∧
    g_key_file_lookup (write_config_key_file p s) "long line marker" "long_line_behaviour" =
      some (KVal.int s.priv.long_line_behaviour) ∧
    g_key_file_lookup (write_config_key_file p s) "long line marker" "long_line_column" =
      some (KVal.int s.priv.long_line_column) ∧
    (∀ d, p.description = some d →
      g_key_file_lookup (write_config_key_file p s) "project" "description" =
        some (KVal.str d)) ∧
    (∀ l, p.file_patterns = some l →
      g_key_file_lookup (write_config_key_file p s) "project" "file_patterns" =
        some (KVal.strlist l)) ∧
    (p.description = none → stash_groups_key s "project" "description" = false →
      g_key_file_lookup (write_config_key_file p s) "project" "description" =
        g_key_file_lookup prior "project" "description") ∧
    (p.file_patterns = none → stash_groups_key s "project" "file_patterns" = false →
      g_key_file_lookup (write_config_key_file p s) "project" "file_patterns" =
        g_key_file_lookup prior "project" "file_patterns") ∧
    (s.project = some p → (write_config s).1 = true →
      g_key_file_load_from_file (write_config s).2.fs f = some (write_config_key_file p s)) := by
  have hload : (g_key_file_load_from_file s.fs (p.file_name.getD "")).getD [] = prior := by
    rw [hf]
    show (g_key_file_load_from_file s.fs f).getD [] = prior
    rw [hprior]
    rfl
  refine ⟨?_, ?_, ?_, ?_, ?_, ?_, ?_, ?_, ?_, ?_⟩
  · intro g k hown
    simp only [write_config_own_key, Bool.or_eq_false_iff, Bool.and_eq_false_iff,
      decide_eq_false_iff_not] at hown
    obtain ⟨⟨⟨⟨h1, h2⟩, h3⟩, h4⟩, h5⟩ := hown
    have hk : ∀ x, x ∈ ["name", "base_path", "description", "file_patterns"] →
        ¬ (g = "project" ∧ k = x) := by
      intro x hx hh
      rcases h1 with h1 | h1
      · exact h1 hh.1
      · rw [hh.2] at h1
        simp only [List.contains_eq_any_beq, List.any_eq_false] at h1
        exact absurd (h1 x hx) (by simp)
    have hl : ∀ x, x ∈ ["long_line_behaviour", "long_line_column"] →
        ¬ (g = "long line marker" ∧ k = x) := by
      intro x hx hh
      rcases h2 with h2 | h2
      · exact h2 hh.1
      · rw [hh.2] at h2
        simp only [List.contains_eq_any_beq, List.any_eq_false] at h2
        exact absurd (h2 x hx) (by simp)
    rw [write_config_key_file_lookup, hload,
      if_neg (fun hh => h5 hh.1), if_neg (fun hh => h4 hh.1),
      if_neg (hl "long_line_column" (by simp)), if_neg (hl "long_line_behaviour" (by simp)),
      if_neg (fun hh => hk "file_patterns" (by simp) ⟨hh.1, hh.2.1⟩),
      if_neg (fun hh => hk "description" (by simp) ⟨hh.1, hh.2.1⟩),
      if_neg (fun hh => hk "base_path" (by simp) ⟨hh.1, hh.2.1⟩),
      if_neg (fun hh => hk "name" (by simp) ⟨hh.1, hh.2.1⟩)]
    exact stash_groups_save_foreign s g k h3 prior
  · intro n hn
    rw [write_config_key_file_lookup, hn]
    simp
  · intro b hb
    rw [write_config_key_file_lookup, hb]
    simp
  · rw [write_config_key_file_lookup]
    simp
  · rw [write_config_key_file_lookup]
    simp
  · intro d hd
    rw [write_config_key_file_lookup, hd]
    simp
  · intro l hl
    rw [write_config_key_file_lookup, hl]
    simp
  · intro hd hst
    rw [write_config_key_file_lookup, hload, hd]
    simp only [String.reduceEq, false_and, and_false, if_false, Option.isSome_none,
      Bool.false_eq_true, and_self, true_and]
    exact stash_groups_save_foreign s _ _ hst prior
  · intro hd hst
    rw [write_config_key_file_lookup, hload, hd]
    simp only [String.reduceEq, false_and, and_false, if_false, Option.isSome_none,
      Bool.false_eq_true, and_self, true_and]
    exact stash_groups_save_foreign s _ _ hst prior
  · intro hp hw
    have := write_config_file s p hp hw
    rw [hf] at this
    exact this

/-- Witness for C15: the plugin key of the file on disk is in the configuration
written for the loaded demo project. -/
theorem write_config_preserves_foreign_witness :
    foreign_state.project =
      some { name := some "demo", description := some "old notes", file_name := some "/p.geany",
             base_path := some "", file_patterns := some ["*.old"] } ∧
    g_key_file_lookup
      (write_config_key_file
        { name := some "demo", description := some "old notes", file_name := some "/p.geany",
          base_path := some "", file_patterns := some ["*.old"] } foreign_state)
      "plugin" "x" = some (KVal.int 7) :=
  ⟨by decide,
   ((write_config_preserves_foreign foreign_state
      { name := some "demo", description := some "old notes", file_name := some "/p.geany",
        base_path := some "", file_patterns := some ["*.old"] }
      "/p.geany" [("plugin", "x", KVal.int 7), ("project", "description", KVal.str "old")]
      rfl (by decide)).1 "plugin" "x" (by decide)).trans (by decide)⟩

/-- Claim C16: with a project active `project_close` first attempts
`write_config` (the log continues with "project-save" and the write, with a
warning when it failed), and its result is that of closing all documents,
whatever the write did.  When close-all refuses, FALSE is returned with the
project still active and all its fields unchanged, no document closed, and
the file system as `write_config` left it (the project file written, when the
write succeeded). -/
theorem project_close_result (od : Bool) (s : State) (p : GeanyProject) (hp : s.project = some p) :
    (project_close od s).1 = (document_close_all (project_close_write s)).1 ∧
    (project_close od s).1 = s.close_all_script.headD true ∧
    (s.log ++ [Event.signal "project-save",
          Event.write_file (p.file_name.getD "") (write_config s).1] ++
        (if (write_config s).1 then []
         else [Event.warning ("Project file \"" ++ p.file_name.getD "" ++
                "\" could not be written")]) ++
        [Event.close_all (project_close od s).1]) <+: (project_close od s).2.log ∧
    ((project_close od s).1 = false →
      (project_close od s).2.log =
        s.log ++ [Event.signal "project-save",
            Event.write_file (p.file_name.getD "") (write_config s).1] ++
          (if (write_config s).1 then []
           else [Event.warning ("Project file \"" ++ p.file_name.getD "" ++
                  "\" could not be written")]) ++
          [Event.close_all false] ∧
      (project_close od s).2.project = some p ∧
      (project_close od s).2.project_part = s.project_part ∧
      (project_close od s).2.docs = s.docs ∧
      (project_close od s).2.fs = (write_config s).2.fs ∧
      ((write_config s).1 = true →
        g_key_file_load_from_file (project_close od s).2.fs (p.file_name.getD "") =
          some (write_config_key_file p s))) := by
  have hsome : s.project.isSome = true := by rw [hp]; rfl
  have hscript : (document_close_all (project_close_write s)).1 = s.close_all_script.headD true := by
    rw [document_close_all_fst, project_close_write_close_all_script]
  have hwl := project_close_write_log s p hp
  obtain ⟨f1, _, _, _, _, f6⟩ := project_close_write_frame s
  obtain ⟨h1, h2, h3⟩ | ⟨h1, h2, u, hu, h3⟩ := project_close_cases od s hsome
  · have hlog : (project_close od s).2.log =
        s.log ++ [Event.signal "project-save",
            Event.write_file (p.file_name.getD "") (write_config s).1] ++
          (if (write_config s).1 then []
           else [Event.warning ("Project file \"" ++ p.file_name.getD "" ++
                  "\" could not be written")]) ++
          [Event.close_all false] := by
      rw [h3, (document_close_all_snd _).1, h2, hwl]
    refine ⟨by rw [h1, h2], by rw [h1, ← hscript, h2], ?_, ?_⟩
    · rw [hlog, h1]
    · intro _
      refine ⟨hlog, ?_⟩
      have hpp := project_close_fail od s h1
      have hd : (document_close_all (project_close_write s)).2.docs = s.docs := by
        rw [(document_close_all_snd _).2.1, h2, f1]
        rfl
      refine ⟨by rw [project_part_project hpp, hp], hpp, by rw [h3, hd], by rw [h3]; exact f6, ?_⟩
      intro hw
      rw [h3]
      show g_key_file_load_from_file (project_close_write s).fs _ = _
      rw [f6]
      exact write_config_file s p hp hw
  · refine ⟨by rw [h1, h2], by rw [h1, ← hscript, h2], ?_, fun h => by rw [h1] at h; cases h⟩
    rw [project_close_log od s p hp h1, h1]
    refine ⟨[Event.statusbar ("Project \"" ++ p.name.getD "" ++ "\" closed."),
        Event.signal "project-before-close", Event.apply_editor_prefs] ++
      (if od && s.cl_options.load_session then
        [Event.load_default_session] ++ s.default_session.map Event.open_file ++
          (if s.default_session.isEmpty then [Event.new_file] else []) ++
          [Event.focus_document]
       else []) ++
      [Event.signal "project-close"] ++ (if s.quitting then [] else [Event.update_ui]), ?_⟩
    simp only [List.append_assoc, List.cons_append, List.nil_append]

/-- Witness for C16: closing the loaded demo project with a refusing user, and
with a write-protected project file. -/
theorem project_close_result_witness :
    (project_close false { loaded_state with close_all_script := [false] }).1 = false ∧
    (project_close false { loaded_state with close_all_script := [false] }).2.project =
      loaded_state.project ∧
    (project_close false { loaded_state with fs := { loaded_state.fs with
        readonly := ["/p.geany"] } }).1 = true :=
  ⟨(project_close_result false { loaded_state with close_all_script := [false] } _ rfl).2.1,
   by decide, by decide⟩

/-- Claim C17: a successful `project_close` emits "project-before-close" and
"project-close" exactly once each, in that order (the signals of the new part
of the log are "project-save", "project-before-close", "project-close").
"project-before-close" is emitted on a state in which the project is still
active with its fields as they were; "project-close" is emitted on a state
without a project, after the editor preferences were re-applied and after any
reopening of the default session, and before the UI refresh.  A refused close
emits neither (only "project-save"). -/
theorem project_close_signals (od : Bool) (s : State) (p : GeanyProject) (hp : s.project = some p) :
    ((project_close od s).1 = true →
      (project_close od s).2.log =
        s.log ++ [Event.signal "project-save",
            Event.write_file (p.file_name.getD "") (write_config s).1] ++
          (if (write_config s).1 then []
           else [Event.warning ("Project file \"" ++ p.file_name.getD "" ++
                  "\" could not be written")]) ++
          [Event.close_all true, Event.statusbar ("Project \"" ++ p.name.getD "" ++ "\" closed."),
            Event.signal "project-before-close", Event.apply_editor_prefs] ++
          (if od && s.cl_options.load_session then
            [Event.load_default_session] ++ s.default_session.map Event.open_file ++
              (if s.default_session.isEmpty then [Event.new_file] else []) ++
              [Event.focus_document]
           else []) ++
          [Event.signal "project-close"] ++ (if s.quitting then [] else [Event.update_ui]) ∧
      signals ((project_close od s).2.log.drop s.log.length) =
        ["project-save", "project-before-close", "project-close"] ∧
      ∃ t, t.project_part = s.project_part ∧
        (destroy_project_release t).log = t.log ++ [Event.signal "project-before-close"] ∧
        (destroy_project_release t).project = none ∧
        (destroy_project_reopen od (apply_editor_prefs (destroy_project_release t))).project = none ∧
        (project_close od s).2 =
          update_ui (g_signal_emit_by_name "project-close"
            (destroy_project_reopen od (apply_editor_prefs (destroy_project_release t))))) ∧
    ((project_close od s).1 = false →
      signals ((project_close od s).2.log.drop s.log.length) = ["project-save"]) := by
  refine ⟨fun h => ⟨project_close_log od s p hp h, ?_, ?_⟩, ?_⟩
  · rw [project_close_log od s p hp h]
    simp only [List.append_assoc]
    rw [drop_log]
    cases (write_config s).1 <;> cases (od && s.cl_options.load_session) <;>
      cases s.default_session.isEmpty <;> cases s.quitting <;>
      simp only [signals_append, signals_map_open_file, if_true, if_false, Bool.false_eq_true] <;>
      rfl
  · have hc := project_close_true od s p hp h
    have hpp : (ui_set_statusbar ("Project \"" ++ p.name.getD "" ++ "\" closed.")
        (document_close_all (project_close_write s)).2).project_part = s.project_part := by
      rw [statusbar_project_part, close_all_project_part, project_close_write_project_part]
    refine ⟨_, hpp, (destroy_project_release_frame _).1, destroy_project_release_project _, ?_, ?_⟩
    · have := destroy_project_reopen_project_part od (apply_editor_prefs (destroy_project_release
        (ui_set_statusbar ("Project \"" ++ p.name.getD "" ++ "\" closed.")
          (document_close_all (project_close_write s)).2)))
      rw [project_part_project this]
      exact destroy_project_release_project
        (ui_set_statusbar ("Project \"" ++ p.name.getD "" ++ "\" closed.")
          (document_close_all (project_close_write s)).2)
    · rw [project_close_eq od s p hp hc]
      exact destroy_project_some od _ (by rw [project_part_project hpp, hp]; rfl)
  · intro h
    rw [project_close_false_log od s p hp h]
    simp only [List.append_assoc]
    rw [drop_log]
    cases (write_config s).1 <;> rfl

/-- Witness for C17: the signals of closing the loaded demo project. -/
theorem project_close_signals_witness :
    signals ((project_close true loaded_state).2.log.drop loaded_state.log.length) =
      ["project-save", "project-before-close", "project-close"] :=
  ((project_close_signals true loaded_state _ rfl).1 (by decide)).2.1

/-- Claim C18: `project_ask_close` returns TRUE without asking or changing
anything when no project is active.  With a project active it is
`project_close (FALSE)` when the warn-on-close preference is off, and
`project_close (FALSE)` after the question when the user confirms; when the
user declines it returns FALSE and nothing but the question happened (the
question is logged and the scripted answer consumed): the project is still
active and untouched, nothing was written, no document was closed. -/
theorem project_ask_close_spec (s : State) :
    (s.project = none → project_ask_close s = (true, s)) ∧
    (∀ p, s.project = some p →
      (dialogs_show_question ("The '" ++ p.name.getD "" ++
          "' project is open. Do you want to close it before proceeding?") s).2 =
        { s with question_script := s.question_script.tail,
                 log := s.log ++ [Event.question ("The '" ++ p.name.getD "" ++
                   "' project is open. Do you want to close it before proceeding?")] } ∧
      (s.warn_on_project_close = false → project_ask_close s = project_close false s) ∧
      (s.warn_on_project_close = true → s.question_script.headD false = true →
        project_ask_close s =
          project_close false
            (dialogs_show_question ("The '" ++ p.name.getD "" ++
              "' project is open. Do you want to close it before proceeding?") s).2) ∧
      (s.warn_on_project_close = true → s.question_script.headD false = false →
        project_ask_close s =
          (false, (dialogs_show_question ("The '" ++ p.name.getD "" ++
              "' project is open. Do you want to close it before proceeding?") s).2) ∧
        (project_ask_close s).2.project = some p ∧
        (project_ask_close s).2.project_part = s.project_part ∧
        (project_ask_close s).2.docs = s.docs ∧
        (project_ask_close s).2.fs = s.fs ∧
        (project_ask_close s).2.log = s.log ++ [Event.question ("The '" ++ p.name.getD "" ++
          "' project is open. Do you want to close it before proceeding?")])) := by
  constructor
  · intro h
    simp only [project_ask_close, h]
  · intro p hp
    have e : project_ask_close s =
        (if !s.warn_on_project_close then project_close false s
         else if (dialogs_show_question ("The '" ++ p.name.getD "" ++
              "' project is open. Do you want to close it before proceeding?") s).1
           then project_close false (dialogs_show_question ("The '" ++ p.name.getD "" ++
              "' project is open. Do you want to close it before proceeding?") s).2
           else (false, (dialogs_show_question ("The '" ++ p.name.getD "" ++
              "' project is open. Do you want to close it before proceeding?") s).2)) := by
      simp only [project_ask_close, hp]
    refine ⟨rfl, fun hw => ?_, fun hw hq => ?_, fun hw hq => ?_⟩
    · rw [e, hw]; rfl
    · have : (dialogs_show_question ("The '" ++ p.name.getD "" ++
          "' project is open. Do you want to close it before proceeding?") s).1 = true := hq
      rw [e, hw, this]; rfl
    · have : (dialogs_show_question ("The '" ++ p.name.getD "" ++
          "' project is open. Do you want to close it before proceeding?") s).1 = false := hq
      have e2 : project_ask_close s = (false, (dialogs_show_question ("The '" ++ p.name.getD "" ++
          "' project is open. Do you want to close it before proceeding?") s).2) := by
        rw [e, hw, this]; rfl
      rw [e2]
      exact ⟨rfl, hp, rfl, rfl, rfl, rfl⟩

/-- Witness for C18: the loaded demo project, warning on and the user
declining. -/
theorem project_ask_close_spec_witness :
    (project_ask_close
      { loaded_state with warn_on_project_close := true, question_script := [false] }).1 = false ∧
    (project_ask_close
      { loaded_state with warn_on_project_close := true, question_script := [false] }).2.project =
        loaded_state.project :=
  ⟨congrArg Prod.fst
    (((project_ask_close_spec
        { loaded_state with warn_on_project_close := true, question_script := [false] }).2
      _ rfl).2.2.2 rfl rfl).1,
   by decide⟩

/-- Claim C19, evaluated at a name of 26 two-byte characters: the name check
of `update_config` measures the name with `strlen`, in bytes.  The name has 26
characters, which is within the 50 characters the check announces, and 52
bytes; `update_config` rejects it as too long and refocuses the name field. -/
theorem name_check_counts_bytes :
    "éééééééééééééééééééééééééé".length = 26 ∧
    strlen "éééééééééééééééééééééééééé" = 52 ∧
    update_config { demo_dialog with name := "éééééééééééééééééééééééééé" } true demo_state =
      (false,
        { demo_state with
            log := [Event.msgbox_error
                      "The specified project name is too long (max. 50 characters).",
                    Event.grab_focus "name"] }) := by
  decide

theorem update_config_check_file_settled_cases (e : PropertyDialogElements) (np : Bool)
    (s : State) :
    ((update_config_check_file e np s).1 = false ∧
        (update_config_check_file e np s).2.settled_part = s.settled_part) ∨
      (∃ t, t.settled_part = s.settled_part ∧
        update_config_check_file e np s = update_config_commit e np t) := by
  generalize hr : update_config_check_file e np s = r
  simp only [update_config_check_file] at hr
  split_ifs at hr <;> subst hr
  all_goals first
    | exact Or.inl ⟨rfl, rfl⟩
    | (refine Or.inr ⟨_, ?_, rfl⟩; rfl)

theorem update_config_create_dir_settled_cases (e : PropertyDialogElements) (np : Bool)
    (s : State) :
    ((update_config_create_dir e np s).1 = false ∧
        (update_config_create_dir e np s).2.settled_part = s.settled_part) ∨
      (∃ t, t.settled_part = s.settled_part ∧
        update_config_create_dir e np s = update_config_commit e np t) := by
  generalize hr : update_config_create_dir e np s = r
  simp only [update_config_create_dir] at hr
  split_ifs at hr <;> subst hr
  all_goals first
    | exact Or.inl ⟨rfl, rfl⟩
    | (rcases update_config_check_file_settled_cases e np _ with h | ⟨t, h1, h2⟩
       · exact Or.inl ⟨h.1, h.2.trans rfl⟩
       · exact Or.inr ⟨t, h1.trans rfl, h2⟩)

/-- A failed `update_config` changes the log, the scripted answers and the file
system at most. -/
theorem update_config_fail_settled (e : PropertyDialogElements) (np : Bool) (s : State)
    (h : (update_config e np s).1 = false) :
    (update_config e np s).2.settled_part = s.settled_part := by
  have key : ((update_config e np s).1 = false ∧
        (update_config e np s).2.settled_part = s.settled_part) ∨
      (∃ t, t.settled_part = s.settled_part ∧
        update_config e np s = update_config_commit e np t) := by
    generalize hr : update_config e np s = r
    unfold update_config at hr
    split_ifs at hr <;> subst hr
    · exact Or.inl ⟨rfl, rfl⟩
    · exact Or.inl ⟨rfl, rfl⟩
    · exact Or.inl ⟨rfl, rfl⟩
    · exact update_config_create_dir_settled_cases e np s
    · exact update_config_check_file_settled_cases e np s
    · exact update_config_check_file_settled_cases e np s
  rcases key with h1 | ⟨t, _, h2⟩
  · exact h1.2
  · rw [h2] at h; cases h

theorem update_config_err_code_ne_zero (e : PropertyDialogElements) (s : State) :
    update_config_err_code e s ≠ 0 ↔
      (utils_is_file_writable s.fs e.file_name ≠ 0 ∨ s.fs.is_dir e.file_name = true) := by
  unfold update_config_err_code
  by_cases h1 : utils_is_file_writable s.fs e.file_name ≠ 0
  · rw [if_pos h1]
    exact ⟨fun _ => Or.inl h1, fun _ => h1⟩
  · rw [if_neg h1]
    cases h2 : s.fs.is_dir e.file_name
    · simp [h1]
    · simp [EISDIR]

theorem update_config_check_file_err (e : PropertyDialogElements) (np : Bool) (s : State)
    (h : update_config_err_code e s ≠ 0) :
    update_config_check_file e np s =
      (false,
        gtk_widget_grab_focus "file_name"
          (SHOW_ERR
            ("Project file could not be written (errno " ++
              toString (update_config_err_code e s) ++ ").") s)) := by
  unfold update_config_check_file
  rw [if_pos h]

theorem update_config_check_file_no_err (e : PropertyDialogElements) (np : Bool) (s : State)
    (h : update_config_err_code e s = 0) :
    update_config_check_file e np s =
      (if np && s.fs.file_exists e.file_name then
        (if (dialogs_show_question
              ("The file '" ++ e.file_name ++ "' already exists. Do you want to overwrite it?")
              s).1 then
          update_config_commit e np
            (dialogs_show_question
              ("The file '" ++ e.file_name ++ "' already exists. Do you want to overwrite it?")
              s).2
         else
          (false, gtk_widget_grab_focus "file_name"
            (dialogs_show_question
              ("The file '" ++ e.file_name ++ "' already exists. Do you want to overwrite it?")
              s).2))
       else update_config_commit e np s) := by
  unfold update_config_check_file
  rw [if_neg (by rw [h]; exact fun hh => hh rfl)]
  cases hc : (np && s.fs.file_exists e.file_name)
  · simp
  · simp only [if_true]
    cases hq : (dialogs_show_question
        ("The file '" ++ e.file_name ++ "' already exists. Do you want to overwrite it?") s).1
    · simp
    · simp

/-- When the name and the file name pass and the base path is empty or an
existing directory, `update_config` is its last checks. -/
theorem update_config_reaches_check_file (e : PropertyDialogElements) (np : Bool) (s : State)
    (h1 : strlen e.name ≠ 0) (h2 : strlen e.name ≤ MAX_NAME_LEN) (h3 : EMPTY e.file_name = false)
    (h4 : EMPTY e.base_path = true ∨ s.fs.is_dir (update_config_locale_path e) = true) :
    update_config e np s = update_config_check_file e np s := by
  unfold update_config
  rw [if_neg h1, if_neg (by omega), h3]
  simp only [Bool.false_eq_true, if_false]
  rcases h4 with h4 | h4
  · simp [h4]
  · cases hb : EMPTY e.base_path
    · simp [h4]
    · simp

theorem utils_mkdir_fs (fs : FS) (path : String) (b : Bool) :
    (if b then utils_mkdir fs path else (0, fs)).2.readonly = fs.readonly ∧
      ∀ d, fs.is_dir d = true → (if b then utils_mkdir fs path else (0, fs)).2.is_dir d = true := by
  cases b
  · exact ⟨rfl, fun _ h => h⟩
  · simp only [if_true]
    unfold utils_mkdir
    split
    · exact ⟨rfl, fun _ h => h⟩
    · refine ⟨rfl, fun d h => ?_⟩
      simp only [FS.is_dir, List.contains_cons] at h ⊢
      rw [h]
      simp

theorem update_config_create_dir_check (e : PropertyDialogElements) (np : Bool) (s : State) :
    (update_config_create_dir e np s).1 = false ∨
      ∃ t, t.fs.readonly = s.fs.readonly ∧ (∀ d, s.fs.is_dir d = true → t.fs.is_dir d = true) ∧
        update_config_create_dir e np s = update_config_check_file e np t := by
  cases hq : (dialogs_show_question
      ("Create the project's base path directory? The path \"" ++ e.base_path ++
        "\" does not exist.") s).1
  · left
    simp [update_config_create_dir, hq]
  · by_cases hm : (utils_mkdir s.fs (update_config_locale_path e)).1 = 0
    · right
      refine ⟨{ (dialogs_show_question
          ("Create the project's base path directory? The path \"" ++ e.base_path ++
            "\" does not exist.") s).2 with
          fs := (utils_mkdir s.fs (update_config_locale_path e)).2 },
        (utils_mkdir_fs s.fs (update_config_locale_path e) true).1,
        (utils_mkdir_fs s.fs (update_config_locale_path e) true).2, ?_⟩
      have hm2 : (utils_mkdir (dialogs_show_question
          ("Create the project's base path directory? The path \"" ++ e.base_path ++
            "\" does not exist.") s).2.fs (update_config_locale_path e)).1 = 0 := hm
      simp only [update_config_create_dir, hq, if_true, hm2, ne_eq, not_true_eq_false,
        decide_False, Bool.not_true, Bool.or_self, Bool.false_eq_true, if_false]
      rfl
    · left
      have hm2 : (utils_mkdir (dialogs_show_question
          ("Create the project's base path directory? The path \"" ++ e.base_path ++
            "\" does not exist.") s).2.fs (update_config_locale_path e)).1 ≠ 0 := hm
      simp [update_config_create_dir, hq, hm2]

/-- A project file path that is write-protected or a directory makes
`update_config` fail, whatever else the dialog holds. -/
theorem update_config_unwritable (e : PropertyDialogElements) (np : Bool) (s : State)
    (h : utils_is_file_writable s.fs e.file_name ≠ 0 ∨ s.fs.is_dir e.file_name = true) :
    (update_config e np s).1 = false := by
  have hchk : ∀ t : State, t.fs.readonly = s.fs.readonly →
      (∀ d, s.fs.is_dir d = true → t.fs.is_dir d = true) →
      (update_config_check_file e np t).1 = false := by
    intro t h1 h2
    have : update_config_err_code e t ≠ 0 := by
      rw [update_config_err_code_ne_zero]
      rcases h with h | h
      · left
        unfold utils_is_file_writable at h ⊢
        rw [h1]
        exact h
      · exact Or.inr (h2 _ h)
    rw [update_config_check_file_err e np t this]
  generalize hr : update_config e np s = r
  unfold update_config at hr
  split_ifs at hr <;> subst hr
  · rfl
  · rfl
  · rfl
  · rcases update_config_create_dir_check e np s with h1 | ⟨t, h1, h2, h3⟩
    · exact h1
    · rw [h3]
      exact hchk t h1 h2
  · exact hchk s rfl (fun _ hd => hd)
  · exact hchk s rfl (fun _ hd => hd)

/-! ## The documents after a close -/

theorem document_new_file_if_non_open_docs (s : State) :
    (document_new_file_if_non_open s).docs.map (fun d => d.file_name) =
      (if s.docs.isEmpty then [none] else s.docs.map (fun d => d.file_name)) := by
  unfold document_new_file_if_non_open
  cases hd : s.docs with
  | nil => rfl
  | cons d l => simp [hd]

theorem destroy_project_reopen_names (od : Bool) (s : State) (hd : s.docs = []) :
    (destroy_project_reopen od s).docs.map (fun d => d.file_name) =
      (if od && s.cl_options.load_session then
        (if s.default_session.isEmpty then [none] else s.default_session.map some)
       else []) := by
  unfold destroy_project_reopen
  cases h : (od && s.cl_options.load_session)
  · simp [hd]
  · simp only [if_true]
    show (document_new_file_if_non_open _).docs.map _ = _
    rw [document_new_file_if_non_open_docs, open_default_eq]
    simp only [configuration_load_default_session, State.emit, hd, List.nil_append]
    cases hs : s.default_session with
    | nil => rfl
    | cons a l => simp [GeanyDocument.fresh, Function.comp_def]

/-- The documents open after a successful `project_close`, by file name. -/
theorem project_close_names (od : Bool) (s : State) (p : GeanyProject) (hp : s.project = some p)
    (h : (project_close od s).1 = true) :
    (project_close od s).2.docs.map (fun d => d.file_name) =
      (if od && s.cl_options.load_session then
        (if s.default_session.isEmpty then [none] else s.default_session.map some)
       else []) := by
  have hc := project_close_true od s p hp h
  rw [project_close_eq od s p hp hc]
  obtain ⟨_, c2, _, c4, c5, _, _⟩ := document_close_all_snd (project_close_write s)
  obtain ⟨_, _, w3, w4, _, _⟩ := project_close_write_frame s
  rw [hc] at c2
  have hsome : (ui_set_statusbar ("Project \"" ++ p.name.getD "" ++ "\" closed.")
      (document_close_all (project_close_write s)).2).project.isSome = true := by
    show (document_close_all (project_close_write s)).2.project.isSome = true
    have := project_part_project
      ((close_all_project_part (project_close_write s)).trans (project_close_write_project_part s))
    rw [this, hp]; rfl
  rw [destroy_project_some od _ hsome]
  obtain ⟨_, r2, r3, r4, _⟩ := destroy_project_release_frame
    (ui_set_statusbar ("Project \"" ++ p.name.getD "" ++ "\" closed.")
      (document_close_all (project_close_write s)).2)
  have a2 : (apply_editor_prefs (destroy_project_release
      (ui_set_statusbar ("Project \"" ++ p.name.getD "" ++ "\" closed.")
        (document_close_all (project_close_write s)).2))).docs = [] := by
    show List.map _ (destroy_project_release _).docs = []
    rw [r2]
    show List.map _ (document_close_all (project_close_write s)).2.docs = []
    rw [c2]
    rfl
  have hn := destroy_project_reopen_names od _ a2
  have a3 : (apply_editor_prefs (destroy_project_release
      (ui_set_statusbar ("Project \"" ++ p.name.getD "" ++ "\" closed.")
        (document_close_all (project_close_write s)).2))).default_session = s.default_session :=
    r3.trans (c4.trans w3)
  have a4 : (apply_editor_prefs (destroy_project_release
      (ui_set_statusbar ("Project \"" ++ p.name.getD "" ++ "\" closed.")
        (document_close_all (project_close_write s)).2))).cl_options = s.cl_options :=
    r4.trans (c5.trans w4)
  rw [a3, a4] at hn
  rw [← hn]
  unfold update_ui g_signal_emit_by_name
  split <;> rfl

/-! ## The recent projects and the Properties dialog loop -/

theorem update_config_commit_frame (e : PropertyDialogElements) (np : Bool) (s : State) :
    (update_config_commit e np s).2.recent_projects = s.recent_projects ∧
    (update_config_commit e np s).2.fs = s.fs := by
  have hu : ∀ x : State, (update_ui x).recent_projects = x.recent_projects ∧
      (update_ui x).fs = x.fs := by
    intro x
    unfold update_ui
    split <;> exact ⟨rfl, rfl⟩
  have hpr : ∀ x : State, (update_config_properties e x).recent_projects = x.recent_projects ∧
      (update_config_properties e x).fs = x.fs := by
    intro x
    simp only [update_config_properties, stash_groups_update, State.set_overlay,
      build_read_project, apply_editor_prefs, State.emit]
    split <;> split <;> (try split) <;> exact ⟨rfl, rfl⟩
  cases ht : s.project with
  | none =>
    have h : update_config_commit e np s =
        (true, update_ui
          { create_project s with project :=
              (create_project s).project.map (fun (p : GeanyProject) =>
                { p with name := some e.name, file_name := some e.file_name,
                         base_path := some (if !EMPTY e.base_path then e.base_path else "./") }) }) := by
      simp only [update_config_commit, ht, Option.isNone_none, if_true, Bool.or_true,
        Bool.not_true, Bool.false_eq_true, if_false]
    rw [h]
    exact ⟨(hu _).1.trans rfl, (hu _).2.trans rfl⟩
  | some q =>
    cases np with
    | false =>
      have h : update_config_commit e false s =
          (true, update_ui (update_config_properties e
            { s with project :=
                s.project.map (fun (p : GeanyProject) =>
                  { p with name := some e.name, file_name := some e.file_name,
                           base_path := some (if !EMPTY e.base_path then e.base_path else "./") }) })) := by
        simp only [update_config_commit, ht, Option.isNone_some, Bool.false_eq_true, if_false,
          Bool.or_false, Bool.not_false, if_true]
      rw [h]
      exact ⟨(hu _).1.trans ((hpr _).1.trans rfl), (hu _).2.trans ((hpr _).2.trans rfl)⟩
    | true =>
      have h : update_config_commit e true s =
          (true, update_ui
            { s with project :=
                s.project.map (fun (p : GeanyProject) =>
                  { p with name := some e.name, file_name := some e.file_name,
                           base_path := some (if !EMPTY e.base_path then e.base_path else "./") }) }) := by
        simp only [update_config_commit, ht, Option.isNone_some, Bool.false_eq_true, if_false,
          Bool.or_false, Bool.not_true]
      rw [h]
      exact ⟨(hu _).1.trans rfl, (hu _).2.trans rfl⟩

/-- `update_config` never touches the recent projects. -/
theorem update_config_recent_projects (e : PropertyDialogElements) (np : Bool) (s : State) :
    (update_config e np s).2.recent_projects = s.recent_projects := by
  cases h : (update_config e np s).1
  · exact congrArg (fun x => x.recent_projects) (update_config_fail_settled e np s h)
  · obtain ⟨t, ht, he⟩ := update_config_settled e np s h
    rw [he, (update_config_commit_frame e np t).1]
    exact congrArg (fun x => x.recent_projects) ht

theorem write_config_recent_projects (s : State) :
    (write_config s).2.recent_projects = s.recent_projects := by
  unfold write_config
  split <;> rfl

theorem destroy_project_false_recent_projects (s : State) :
    (destroy_project false s).recent_projects = s.recent_projects := by
  unfold destroy_project
  split
  · rfl
  · unfold update_ui destroy_project_reopen destroy_project_release
    simp only [Bool.false_and, Bool.false_eq_true, if_false]
    split <;> split <;> rfl

theorem update_config_isSome (e : PropertyDialogElements) (np : Bool) (s : State)
    (h : s.project.isSome = true) : (update_config e np s).2.project.isSome = true := by
  rcases update_config_cases e np s with ⟨_, h2⟩ | ⟨t, _, h2⟩
  · rw [project_part_project h2]; exact h
  · rw [h2]
    obtain ⟨p, hp, _⟩ := update_config_commit_project e np t
    rw [hp]; rfl

/-- One pass of the loop of `show_project_properties` in which the commit
succeeds and the write fails. -/
theorem show_project_properties_loop_write_failed (r : DialogRun) (rest : List DialogRun)
    (s : State) (hr : r.ok = true) (hu : (update_config r.e false s).1 = true)
    (hw : (write_config
      (g_signal_emit_by_name "project-dialog-confirmed" (update_config r.e false s).2)).1 = false) :
    show_project_properties_loop (r :: rest) s =
      show_project_properties_loop rest
        (SHOW_ERR "Project file could not be written"
          (write_config
            (g_signal_emit_by_name "project-dialog-confirmed" (update_config r.e false s).2)).2) := by
  rw [show_project_properties_loop]
  simp only [hr, hu, hw, Bool.not_true, Bool.false_eq_true, if_false, if_true, Bool.not_false]

/-- The Properties dialog never deactivates the project. -/
theorem show_project_properties_loop_isSome (runs : List DialogRun) (s : State)
    (h : s.project.isSome = true) :
    (show_project_properties_loop runs s).project.isSome = true := by
  induction runs generalizing s with
  | nil => exact h
  | cons r rest ih =>
    have hu := update_config_isSome r.e false s h
    have hw : (write_config
        (g_signal_emit_by_name "project-dialog-confirmed" (update_config r.e false s).2)).2.project =
        (update_config r.e false s).2.project :=
      project_part_project ((write_config_project_part _).trans (signal_project_part _ _))
    have hws : (write_config
        (g_signal_emit_by_name "project-dialog-confirmed"
          (update_config r.e false s).2)).2.project.isSome = true := by
      rw [hw]; exact hu
    rw [show_project_properties_loop]
    cases hr : r.ok
    · exact h
    · cases hc : (update_config r.e false s).1
      · simp only [Bool.not_true, Bool.false_eq_true, if_false, hc]
        exact ih _ hu
      · cases hx : (write_config
            (g_signal_emit_by_name "project-dialog-confirmed" (update_config r.e false s).2)).1
        · simp only [Bool.not_true, Bool.false_eq_true, if_false, if_true, hx, hc,
            Bool.not_false]
          exact ih _ hws
        · simp only [Bool.not_true, Bool.false_eq_true, if_false, if_true, hx, hc]
          exact hws

/-! ## Filenames that are left alone -/

theorem get_line_and_column_from_filename_skip (fs : FS) (filename : String)
    (h : EMPTY filename = true ∨ fs.file_exists filename = true) :
    get_line_and_column_from_filename fs filename =
      { filename := filename.data, colon_count := 0, have_number := false,
        line := -1, column := -1 } := by
  unfold get_line_and_column_from_filename
  rcases h with h | h
  · simp [h]
  · cases he : EMPTY filename <;> simp [h]

theorem main_handle_goto_cl_options (lc : LineColumn) (s : State) :
    (lc.line < 0 → lc.column < 0 → main_handle_goto lc s = s) ∧
    (main_handle_goto lc s).cl_options =
      { s.cl_options with
          goto_line := if lc.line ≥ 0 then lc.line else s.cl_options.goto_line,
          goto_column := if lc.column ≥ 0 then lc.column else s.cl_options.goto_column } := by
  unfold main_handle_goto
  constructor
  · intro h1 h2
    simp only [ge_iff_le, not_le.2 h1, not_le.2 h2, if_false]
  · by_cases h1 : lc.line ≥ 0 <;> by_cases h2 : lc.column ≥ 0 <;> simp only [h1, h2, if_true, if_false]

theorem document_show_or_new_file_cl_options (f : String) (s : State) :
    (document_show_or_new_file f s).cl_options = s.cl_options := by
  unfold document_show_or_new_file
  split <;> rfl

/-- What `main_handle_filename` does to the command-line options: nothing but
the two assignments of a line and a column that were found. -/
theorem main_handle_filename_cl_options (f g : String) (s : State)
    (hg : utils_get_path_from_uri f = some g) :
    (main_handle_filename f s).2.cl_options =
      (main_handle_goto (get_line_and_column_from_filename s.fs g) s).cl_options := by
  unfold main_handle_filename
  rw [hg]
  simp only
  split_ifs
  · rfl
  · exact document_show_or_new_file_cl_options _ _
  · rfl

/-! ## The base path -/

theorem absolute_of_prefix (l p : List Char) (hp : p <+: l) (hne : p ≠ [])
    (hl : g_path_is_absolute (String.mk l) = true) :
    g_path_is_absolute (String.mk p) = true := by
  obtain ⟨t, ht⟩ := hp
  cases p with
  | nil => exact absurd rfl hne
  | cons c cs =>
    subst ht
    exact hl

theorem reverse_dropWhile_reverse_prefix (q : Char → Bool) (l : List Char) :
    (l.reverse.dropWhile q).reverse <+: l := by
  have h := List.dropWhile_suffix q (l := l.reverse)
  have := List.reverse_prefix.2 h
  rwa [List.reverse_reverse] at this

/-- The directory of an absolute path is absolute. -/
theorem g_path_get_dirname_absolute (p : String) (h : g_path_is_absolute p = true) :
    g_path_is_absolute (g_path_get_dirname p) = true := by
  have hc : p.data.contains '/' = true := by
    unfold g_path_is_absolute at h
    cases hd : p.data with
    | nil => rw [hd] at h; cases h
    | cons c cs =>
      rw [hd] at h
      simp only [decide_eq_true_eq] at h
      simp [h]
  unfold g_path_get_dirname
  simp only [hc, if_true]
  split
  · rfl
  · rename_i c cs hd
    have hpre : (c :: cs) <+: p.data := by
      rw [← hd]
      have h1 : ((p.data.reverse.dropWhile (fun c => decide (c ≠ '/'))).drop 1) <:+ p.data.reverse :=
        (List.drop_suffix _ _).trans (List.dropWhile_suffix _)
      have h2 := (List.dropWhile_suffix (fun c => decide (c = '/'))
        (l := (p.data.reverse.dropWhile (fun c => decide (c ≠ '/'))).drop 1)).trans h1
      have := List.reverse_prefix.2 h2
      rwa [List.reverse_reverse] at this
    rw [hd]
    exact absolute_of_prefix p.data (c :: cs) hpre (by simp) h

/-- A path built on an absolute directory is absolute. -/
theorem g_build_filename_absolute (dir path : String) (h : g_path_is_absolute dir = true) :
    g_path_is_absolute (g_build_filename dir path) = true := by
  unfold g_build_filename
  have hne : dir ≠ "" := by
    intro he
    rw [he] at h
    cases h
  rw [if_neg hne]
  split_ifs
  · exact h
  · have hpre := reverse_dropWhile_reverse_prefix (fun c => decide (c = '/')) dir.data
    cases hd : (dir.data.reverse.dropWhile (fun c => decide (c = '/'))).reverse with
    | nil => rfl
    | cons c cs =>
      rw [hd] at hpre
      have := absolute_of_prefix dir.data (c :: cs) hpre (by simp) h
      exact this

/-! ## The entries of the New Project dialog -/

theorem entry_text_changed_fields (c : Bool) (o n : String) (e : PropertyDialogElements) :
    (entry_text_changed c o n e).name = e.name ∧
    (entry_text_changed c o n e).base_path = e.base_path ∧
    (entry_text_changed c o n e).file_name = e.file_name := by
  unfold entry_text_changed
  split <;> exact ⟨rfl, rfl, rfl⟩

/-- With no entry edited by hand `update_new_project_dlg` sets the three entries
to the values it computes and leaves the flag cleared. -/
theorem update_new_project_dlg_fresh (home : String) (c : Bool) (base_p : Option String)
    (e : PropertyDialogElements) (s : State) (h : e.entries_modified = false) :
    (update_new_project_dlg home c base_p e s).name = (new_project_entries home base_p e.name s).1 ∧
    (update_new_project_dlg home c base_p e s).base_path =
      (new_project_entries home base_p e.name s).2.1 ∧
    (update_new_project_dlg home c base_p e s).file_name =
      (new_project_entries home base_p e.name s).2.2 ∧
    (update_new_project_dlg home c base_p e s).entries_modified = false := by
  unfold update_new_project_dlg
  rw [if_neg (by rw [h]; exact Bool.false_ne_true)]
  refine ⟨?_, ?_, ?_, rfl⟩
  · exact (entry_text_changed_fields _ _ _ _).1.trans
      ((entry_text_changed_fields _ _ _ _).1.trans rfl)
  · exact (entry_text_changed_fields _ _ _ _).2.1.trans
      ((entry_text_changed_fields _ _ _ _).2.1.trans rfl)
  · exact (entry_text_changed_fields _ _ _ _).2.2.trans rfl

/-- Without a base path `new_project_entries` derives everything from the text of
the name entry. -/
theorem new_project_entries_none (home text : String) (s : State) :
    new_project_entries home none text s =
      (text,
       (if text = "" then new_project_dir home s ++ "/"
        else new_project_dir home s ++ "/" ++ text ++ "/"),
       (if text = "" then new_project_dir home s ++ "/"
        else if s.project_file_in_basedir then
          new_project_dir home s ++ "/" ++ text ++ "/" ++ text ++ ".geany"
        else new_project_dir home s ++ "/" ++ text ++ ".geany")) := by
  have he : EMPTY "" = true := by decide
  unfold new_project_entries
  simp only [Option.getD_none, he, Bool.not_true, Bool.false_eq_true, if_false]
  by_cases ht : text = ""
  · subst ht
    simp only [he, Bool.not_true, Bool.false_eq_true, if_false, if_true]
  · have hne : EMPTY text = false := by
      unfold EMPTY
      simp only [decide_eq_false_iff_not]
      exact fun h0 => ht ((strlen_eq_zero_iff text).1 h0)
    simp only [hne, Bool.not_false, if_true, ht, if_false, GEANY_PROJECT_EXT]
    cases s.project_file_in_basedir <;> simp [String.append_assoc]

/-! ## The default session at startup -/

theorem startup_part_of_fields (s t : State) (h1 : t.prefs_load_session = s.prefs_load_session)
    (h2 : t.cl_options = s.cl_options) (h3 : t.default_session_files = s.default_session_files)
    (h4 : t.log.count Event.load_default_session = s.log.count Event.load_default_session) :
    t.startup_part = s.startup_part := by
  unfold State.startup_part
  rw [h1, h2, h3, h4]

theorem load_config_session_startup_part (s : State) :
    (load_config_session s).startup_part = s.startup_part := by
  unfold load_config_session
  split
  · split
    · refine startup_part_of_fields _ _ rfl rfl rfl ?_
      simp [document_close_all, configuration_save_default_session, State.emit]
    · refine startup_part_of_fields _ _ rfl rfl rfl ?_
      simp [document_close_all]
  · rfl

theorem load_config_finish_startup_part (config : GKeyFile) (s : State) :
    (load_config_finish config s).startup_part = s.startup_part := by
  unfold load_config_finish update_ui
  split
  · refine startup_part_of_fields _ _ rfl rfl rfl ?_
    simp [g_signal_emit_by_name, State.emit]
  · refine startup_part_of_fields _ _ rfl rfl rfl ?_
    simp [g_signal_emit_by_name, State.emit]

theorem load_config_fields_startup_part (f : String) (config : GKeyFile) (s : State) :
    (load_config_fields f config s).startup_part = s.startup_part := by
  refine startup_part_of_fields _ _ rfl rfl rfl ?_
  rw [(load_config_fields_frame f config s).1]
  simp

theorem load_config_startup_part (f : String) (s : State) :
    (load_config f s).2.startup_part = s.startup_part := by
  rcases load_config_cases f s with h | ⟨_, config, _, h⟩
  · rw [h]
  · rw [h]
    show (load_config_finish config _).startup_part = _
    rw [load_config_finish_startup_part, load_config_session_startup_part,
      load_config_fields_startup_part]

theorem project_load_file_startup_part (f : String) (s : State) :
    (project_load_file f s).2.startup_part = s.startup_part := by
  have h := load_config_startup_part f s
  unfold project_load_file
  simp only []
  generalize load_config f s = r at h
  split
  · rw [← h]
    refine startup_part_of_fields _ _ rfl rfl rfl ?_
    simp [ui_add_recent_project_file, ui_set_statusbar, State.emit]
  · rw [← h]
    refine startup_part_of_fields _ _ rfl rfl rfl ?_
    simp [ui_set_statusbar, State.emit]

theorem main_load_project_from_command_line_startup_part (f : String) (s : State) :
    (main_load_project_from_command_line f false s).startup_part = s.startup_part := by
  rcases main_load_project_from_command_line_cases f s with h | ⟨g, h⟩
  · rw [h]
  · rw [h]
    exact project_load_file_startup_part g s

theorem load_session_project_file_startup_part (s : State) :
    (load_session_project_file s).startup_part = s.startup_part := by
  rcases load_session_project_file_cases s with h | ⟨g, h⟩
  · rw [h]
  · rw [h]
    exact project_load_file_startup_part g s

theorem load_startup_files_project_startup_part (cwd : String) (argv : List String) (s : State) :
    (load_startup_files_project cwd argv s).2.2.startup_part = s.startup_part := by
  rcases load_startup_files_project_cases cwd argv s with ⟨b, l, h⟩ | ⟨f, l, h⟩
  · rw [h]
  · rw [h]
    exact main_load_project_from_command_line_startup_part f s

/-- The second part of `load_startup_files`, by the three conditions and the
project: what is loaded, and whether the session is going to be opened. -/
theorem load_startup_files_session_exact (ls : Bool) (s : State) :
    ((s.prefs_load_session && s.cl_options.load_session && !s.cl_options.new_instance) = false ∧
        load_startup_files_session ls s = (ls, s)) ∨
      ((s.prefs_load_session && s.cl_options.load_session && !s.cl_options.new_instance) = true ∧
        (load_startup_files_session ls s).1 = true ∧
        ((s.project.isSome = true ∧ (load_startup_files_session ls s).2 = s) ∨
         (s.project = none ∧ (load_session_project_file s).project.isSome = true ∧
           (load_startup_files_session ls s).2 = load_session_project_file s) ∨
         (s.project = none ∧ (load_session_project_file s).project = none ∧
           (load_startup_files_session ls s).2 =
             configuration_load_default_session (load_session_project_file s)))) := by
  cases hc : (s.prefs_load_session && s.cl_options.load_session && !s.cl_options.new_instance)
  · refine Or.inl ⟨rfl, ?_⟩
    unfold load_startup_files_session
    rw [hc]
    rfl
  · refine Or.inr ⟨rfl, ?_⟩
    have h1 : (load_startup_files_session ls s).1 = true := by
      unfold load_startup_files_session
      rw [hc]
      rfl
    refine ⟨h1, ?_⟩
    unfold load_startup_files_session
    simp only [hc, if_true]
    cases hp : s.project with
    | some p =>
      refine Or.inl ⟨rfl, ?_⟩
      simp only [Option.isNone_some, Bool.false_eq_true, if_false, hp]
    | none =>
      refine Or.inr ?_
      simp only [Option.isNone_none, if_true]
      cases hq : (load_session_project_file s).project with
      | some q =>
        refine Or.inl ⟨trivial, rfl, ?_⟩
        simp only [Option.isNone_some, Bool.false_eq_true, if_false]
      | none =>
        refine Or.inr ⟨trivial, rfl, ?_⟩
        simp only [Option.isNone_none, if_true]

theorem startup_part_fields (s t : State) (h : t.startup_part = s.startup_part) :
    t.prefs_load_session = s.prefs_load_session ∧ t.cl_options = s.cl_options ∧
      t.default_session_files = s.default_session_files := by
  unfold State.startup_part at h
  simp only [Prod.mk.injEq] at h
  exact ⟨h.1, h.2.1, h.2.2.1⟩

theorem load_startup_files_open_cases (ls : Bool) (s : State) :
    (ls = true → s.project.isSome = true →
      (load_startup_files_open ls s).log =
        s.log ++ (s.priv.session_files.getD []).map Event.open_file ∧
      (load_startup_files_open ls s).priv.session_files = none ∧
      (load_startup_files_open ls s).default_session_files = s.default_session_files) ∧
    (ls = true → s.project = none →
      load_startup_files_open ls s = configuration_open_default_session s) ∧
    (ls = false → load_startup_files_open ls s = s) := by
  refine ⟨fun h hp => ?_, fun h hp => ?_, fun h => ?_⟩
  · subst h
    unfold load_startup_files_open
    rw [if_pos rfl, if_pos hp, configuration_open_files_eq]
    exact ⟨rfl, rfl, rfl⟩
  · subst h
    unfold load_startup_files_open
    rw [if_pos rfl, if_neg (by rw [hp]; exact Bool.false_ne_true)]
  · subst h
    rfl

theorem configuration_open_default_session_nothing (s : State)
    (h : s.default_session_files = []) :
    (configuration_open_default_session s).log = s.log ∧
      (configuration_open_default_session s).docs = s.docs := by
  unfold configuration_open_default_session
  rw [configuration_open_files_eq, h]
  simp

/-! ## The loop of `get_line_and_column_from_filename` -/

theorem getD_append_cons (pre suf : List Char) (c d : Char) :
    (pre ++ c :: suf).getD pre.length d = c := by
  rw [List.getD_eq_getElem?_getD, List.getElem?_append_right (le_refl _)]
  simp

theorem take_append_cons (pre suf : List Char) (c : Char) :
    (pre ++ c :: suf).take pre.length = pre := by
  simp

theorem drop_append_cons (pre suf : List Char) (c : Char) :
    (pre ++ c :: suf).drop (pre.length + 1) = suf := by
  have h : pre ++ c :: suf = (pre ++ [c]) ++ suf := by simp
  rw [h]
  have h2 : pre.length + 1 = (pre ++ [c]).length := by simp
  rw [h2, List.drop_left]

theorem isdigit_ne_colon (c : Char) (h : g_ascii_isdigit c = true) : c ≠ ':' := by
  intro hc
  subst hc
  revert h
  decide

theorem get_line_and_column_loop_other (i : Nat) (st : LineColumn) (c : Char)
    (hget : st.filename.getD (i + 1) (Char.ofNat 0) = c) (hc : c ≠ ':')
    (hd : g_ascii_isdigit c = false) :
    get_line_and_column_loop (i + 1) st = st := by
  rw [get_line_and_column_loop]
  simp only [hget]
  simp [hc, hd]

theorem get_line_and_column_loop_digit (i : Nat) (st : LineColumn) (c : Char)
    (hget : st.filename.getD (i + 1) (Char.ofNat 0) = c)
    (hd : g_ascii_isdigit c = true) (hcol : st.column < 0) :
    get_line_and_column_loop (i + 1) st =
      get_line_and_column_loop i { st with colon_count := 0, have_number := true } := by
  have hc := isdigit_ne_colon c hd
  rw [get_line_and_column_loop]
  simp only [hget]
  simp [hc, hd, hcol]

theorem get_line_and_column_loop_colon_break (i : Nat) (st : LineColumn)
    (hget : st.filename.getD (i + 1) (Char.ofNat 0) = ':') (hcc : 1 ≤ st.colon_count) :
    get_line_and_column_loop (i + 1) st = { st with colon_count := st.colon_count + 1 } := by
  rw [get_line_and_column_loop]
  have hd : g_ascii_isdigit ':' = false := by decide
  simp only [hget]
  simp [hd]
  intro h0
  omega

theorem get_line_and_column_loop_colon_skip (i : Nat) (st : LineColumn)
    (hget : st.filename.getD (i + 1) (Char.ofNat 0) = ':') (hcc : st.colon_count = 0)
    (hn : st.have_number = false) (hcol : st.column < 0) :
    get_line_and_column_loop (i + 1) st =
      get_line_and_column_loop i { st with colon_count := 1, have_number := false } := by
  rw [get_line_and_column_loop]
  have hd : g_ascii_isdigit ':' = false := by decide
  simp only [hget]
  simp [hd, hcc, hn, hcol]

theorem get_line_and_column_loop_colon_number (i : Nat) (st : LineColumn)
    (hget : st.filename.getD (i + 1) (Char.ofNat 0) = ':') (hcc : st.colon_count = 0)
    (hn : st.have_number = true) :
    get_line_and_column_loop (i + 1) st =
      (if st.line ≥ 0 then
        { filename := st.filename.take (i + 1), colon_count := 1, have_number := false,
          line := atoi (st.filename.drop (i + 2)), column := st.line }
       else get_line_and_column_loop i
        { filename := st.filename.take (i + 1), colon_count := 1, have_number := false,
          line := atoi (st.filename.drop (i + 2)), column := st.line }) := by
  rw [get_line_and_column_loop]
  have hd : g_ascii_isdigit ':' = false := by decide
  simp only [hget]
  simp [hd, hcc, hn]


theorem get_line_and_column_loop_digit_any (i : Nat) (st : LineColumn) (c : Char)
    (hget : st.filename.getD (i + 1) (Char.ofNat 0) = c) (hd : g_ascii_isdigit c = true) :
    get_line_and_column_loop (i + 1) st =
      (if st.column ≥ 0 then { st with colon_count := 0, have_number := true }
       else get_line_and_column_loop i { st with colon_count := 0, have_number := true }) := by
  have hc := isdigit_ne_colon c hd
  rw [get_line_and_column_loop]
  simp only [hget]
  simp [hc, hd]

theorem get_line_and_column_loop_colon_skip_any (i : Nat) (st : LineColumn)
    (hget : st.filename.getD (i + 1) (Char.ofNat 0) = ':') (hcc : st.colon_count = 0)
    (hn : st.have_number = false) :
    get_line_and_column_loop (i + 1) st =
      (if st.column ≥ 0 then { st with colon_count := 1, have_number := false }
       else get_line_and_column_loop i { st with colon_count := 1, have_number := false }) := by
  rw [get_line_and_column_loop]
  have hd : g_ascii_isdigit ':' = false := by decide
  simp only [hget]
  simp [hd, hcc, hn]

theorem get_line_and_column_loop_digits (pre suf : List Char) (k : Nat) (D : List Char) :
    ∀ (st : LineColumn), st.filename = pre ++ D ++ suf → pre.length = k + 1 →
      (∀ c ∈ D, g_ascii_isdigit c = true) → D ≠ [] → st.column < 0 →
      get_line_and_column_loop (k + D.length) st =
        get_line_and_column_loop k { st with colon_count := 0, have_number := true } := by
  induction D using List.reverseRecOn generalizing suf with
  | nil => intro st _ _ _ h; exact absurd rfl h
  | append_singleton D1 d ih =>
    intro st hf hk hd _ hcol
    have hf2 : st.filename = (pre ++ D1) ++ d :: suf := by rw [hf]; simp
    have hlen : k + (D1 ++ [d]).length = (k + D1.length) + 1 := by simp; omega
    have hget : st.filename.getD (k + D1.length + 1) (Char.ofNat 0) = d := by
      have h1 : k + D1.length + 1 = (pre ++ D1).length := by simp; omega
      rw [hf2, h1]
      exact getD_append_cons _ _ _ _
    rw [hlen, get_line_and_column_loop_digit _ st d hget (hd d (by simp)) hcol]
    cases D1 with
    | nil => rfl
    | cons e D2 =>
      exact ih (d :: suf) { st with colon_count := 0, have_number := true }
        (by show st.filename = _; rw [hf]; simp) hk
        (fun c hc => hd c (List.mem_append_left _ hc))
        (by simp) hcol

theorem get_line_and_column_loop_number (pre suf : List Char) (k : Nat) (D : List Char)
    (st : LineColumn) (hf : st.filename = pre ++ ':' :: D ++ suf) (hk : pre.length = k + 1)
    (hd : ∀ c ∈ D, g_ascii_isdigit c = true) (hD : D ≠ []) (hcol : st.column < 0) :
    get_line_and_column_loop (k + 1 + D.length) st =
      (if st.line ≥ 0 then
        { filename := pre, colon_count := 1, have_number := false,
          line := atoi (D ++ suf), column := st.line }
       else get_line_and_column_loop k
        { filename := pre, colon_count := 1, have_number := false,
          line := atoi (D ++ suf), column := st.line }) := by
  have h1 := get_line_and_column_loop_digits (pre ++ [':']) suf (k + 1) D st
    (by rw [hf]; simp) (by simp; omega) hd hD hcol
  rw [h1]
  have hf2 : st.filename = pre ++ ':' :: (D ++ suf) := by rw [hf]; simp
  have hget : st.filename.getD (k + 1) (Char.ofNat 0) = ':' := by
    rw [hf2, ← hk]
    exact getD_append_cons _ _ _ _
  have htake : st.filename.take (k + 1) = pre := by
    rw [hf2, ← hk]
    exact take_append_cons _ _ _
  have hdrop : st.filename.drop (k + 2) = D ++ suf := by
    have h2 : k + 2 = pre.length + 1 := by omega
    rw [hf2, h2]
    exact drop_append_cons _ _ _
  rw [get_line_and_column_loop_colon_number k { st with colon_count := 0, have_number := true }
    hget rfl rfl]
  show (if st.line ≥ 0 then _ else _) = _
  rw [htake, hdrop]


theorem isdigit_toNat (c : Char) (h : g_ascii_isdigit c = true) : 48 ≤ c.toNat ∧ c.toNat ≤ 57 := by
  unfold g_ascii_isdigit at h
  simp only [Bool.and_eq_true, decide_eq_true_eq] at h
  exact ⟨h.1, h.2⟩

theorem isdigit_not_space (c : Char) (h : g_ascii_isdigit c = true) :
    g_ascii_isspace c = false := by
  have h1 := isdigit_toNat c h
  unfold g_ascii_isspace
  simp
  omega

theorem atoi_digits_append (D : List Char) (hd : ∀ c ∈ D, g_ascii_isdigit c = true)
    (t : List Char) (ht : t = [] ∨ t = [':']) :
    ∀ acc, atoi_digits (D ++ t) acc = D.foldl (fun a c => a * 10 + (c.toNat - 48)) acc := by
  induction D with
  | nil =>
    intro acc
    rcases ht with rfl | rfl
    · rfl
    · rfl
  | cons d D1 ih =>
    intro acc
    have h1 : g_ascii_isdigit d = true := hd d (by simp)
    show atoi_digits (d :: (D1 ++ t)) acc = _
    rw [atoi_digits, if_pos h1]
    exact ih (fun c hc => hd c (List.mem_cons_of_mem _ hc)) _

theorem to_gint_range (v : Int) : G_MININT ≤ to_gint v ∧ to_gint v ≤ G_MAXINT := by
  unfold to_gint G_MININT G_MAXINT
  omega

theorem to_gint_of_range (v : Int) (h1 : G_MININT ≤ v) (h2 : v ≤ G_MAXINT) : to_gint v = v := by
  unfold to_gint
  unfold G_MININT at h1
  unfold G_MAXINT at h2
  omega

theorem atoi_range (cs : List Char) : G_MININT ≤ atoi cs ∧ atoi cs ≤ G_MAXINT := by
  unfold atoi
  exact to_gint_range _

theorem atoi_of_digits (D : List Char) (hd : ∀ c ∈ D, g_ascii_isdigit c = true) (hD : D ≠ [])
    (hr : (decimal_value D : Int) ≤ G_MAXINT) (t : List Char) (ht : t = [] ∨ t = [':']) :
    atoi (D ++ t) = (decimal_value D : Int) := by
  cases D with
  | nil => exact absurd rfl hD
  | cons d D1 =>
    have h1 : g_ascii_isdigit d = true := hd d (by simp)
    have hs : g_strchug (d :: D1 ++ t) = d :: (D1 ++ t) := by
      unfold g_strchug
      show List.dropWhile g_ascii_isspace (d :: (D1 ++ t)) = _
      rw [List.dropWhile_cons_of_neg (by rw [isdigit_not_space d h1]; exact Bool.false_ne_true)]
    have hm : d ≠ '-' := by
      intro hc
      subst hc
      revert h1
      decide
    have hp : d ≠ '+' := by
      intro hc
      subst hc
      revert h1
      decide
    have ha : atoi (d :: D1 ++ t) = to_gint (atoi_digits (d :: D1 ++ t) 0 : Int) := by
      unfold atoi
      rw [hs]
      split
      · rename_i heq
        exact absurd (List.cons.inj heq).1 hm
      · rename_i heq
        exact absurd (List.cons.inj heq).1 hp
      · rfl
    have hv : (atoi_digits (d :: D1 ++ t) 0 : Int) = (decimal_value (d :: D1) : Int) := by
      rw [atoi_digits_append (d :: D1) hd t ht 0]
      rfl
    rw [ha, hv]
    exact to_gint_of_range _
      (le_trans (show G_MININT ≤ 0 by decide) (Int.natCast_nonneg _)) hr


theorem reverse_cons_append (c : Char) (rpre suf : List Char) :
    (c :: rpre).reverse ++ suf = rpre.reverse ++ c :: suf := by simp

theorem getD_reverse_cons (c : Char) (rpre suf : List Char) (m : Nat) (st : LineColumn)
    (hf : st.filename = (c :: rpre).reverse ++ suf) (hk : rpre.length = m + 1) :
    st.filename.getD (m + 1) (Char.ofNat 0) = c := by
  have h1 : m + 1 = rpre.reverse.length := by simp [hk]
  rw [hf, reverse_cons_append, h1]
  exact getD_append_cons _ _ _ _

/-- With a number seen, the loop changes nothing over characters that, read
backwards, are not digits and then a colon. -/
theorem get_line_and_column_loop_unchanged_number (n : Nat) :
    ∀ (st : LineColumn) (rpre suf : List Char), st.filename = rpre.reverse ++ suf →
      rpre.length = n + 1 → st.column < 0 → colon_after_digits rpre = false →
      (get_line_and_column_loop n st).filename = st.filename ∧
      (get_line_and_column_loop n st).line = st.line ∧
      (get_line_and_column_loop n st).column = st.column := by
  induction n with
  | zero => intro st _ _ _ _ _ _; exact ⟨rfl, rfl, rfl⟩
  | succ m ih =>
    intro st rpre suf hf hk hcol hc
    cases rpre with
    | nil => simp at hk
    | cons c rpre1 =>
      have hk1 : rpre1.length = m + 1 := by simpa using hk
      have hget := getD_reverse_cons c rpre1 suf m st hf hk1
      unfold colon_after_digits at hc
      by_cases h1 : c = ':'
      · rw [if_pos h1] at hc
        cases hc
      · rw [if_neg h1] at hc
        cases hd : g_ascii_isdigit c
        · rw [get_line_and_column_loop_other m st c hget h1 hd]
          exact ⟨rfl, rfl, rfl⟩
        · rw [hd, if_pos rfl] at hc
          rw [get_line_and_column_loop_digit m st c hget hd hcol]
          exact ih { st with colon_count := 0, have_number := true } rpre1 (c :: suf)
            (by show st.filename = _; rw [hf, reverse_cons_append]) hk1 hcol hc

/-- After a colon and with no number seen, the loop changes nothing over
characters that do not end in ":digits". -/
theorem get_line_and_column_loop_unchanged_colon (n : Nat) (st : LineColumn)
    (rpre suf : List Char) (hf : st.filename = rpre.reverse ++ suf) (hk : rpre.length = n + 1)
    (hcol : st.column < 0) (hcc : 1 ≤ st.colon_count)
    (hc : colon_digits_reversed rpre = false) :
    (get_line_and_column_loop n st).filename = st.filename ∧
    (get_line_and_column_loop n st).line = st.line ∧
    (get_line_and_column_loop n st).column = st.column := by
  cases n with
  | zero => exact ⟨rfl, rfl, rfl⟩
  | succ m =>
    cases rpre with
    | nil => simp at hk
    | cons c rpre1 =>
      have hk1 : rpre1.length = m + 1 := by simpa using hk
      have hget := getD_reverse_cons c rpre1 suf m st hf hk1
      simp only [colon_digits_reversed] at hc
      by_cases h1 : c = ':'
      · subst h1
        rw [get_line_and_column_loop_colon_break m st hget hcc]
        exact ⟨rfl, rfl, rfl⟩
      · cases hd : g_ascii_isdigit c
        · rw [get_line_and_column_loop_other m st c hget h1 hd]
          exact ⟨rfl, rfl, rfl⟩
        · rw [hd, Bool.true_and] at hc
          rw [get_line_and_column_loop_digit m st c hget hd hcol]
          exact get_line_and_column_loop_unchanged_number m
            { st with colon_count := 0, have_number := true } rpre1 (c :: suf)
            (by show st.filename = _; rw [hf, reverse_cons_append]) hk1 hcol hc

/-- From the start, the loop changes nothing over characters that, without one
trailing colon, do not end in ":digits". -/
theorem get_line_and_column_loop_unchanged_start (n : Nat) (st : LineColumn)
    (rpre suf : List Char) (hf : st.filename = rpre.reverse ++ suf) (hk : rpre.length = n + 1)
    (hcol : st.column < 0) (hcc : st.colon_count = 0) (hn : st.have_number = false)
    (hc : colon_digits_reversed (strip_colon_reversed rpre) = false) :
    (get_line_and_column_loop n st).filename = st.filename ∧
    (get_line_and_column_loop n st).line = st.line ∧
    (get_line_and_column_loop n st).column = st.column := by
  cases n with
  | zero => exact ⟨rfl, rfl, rfl⟩
  | succ m =>
    cases rpre with
    | nil => simp at hk
    | cons c rpre1 =>
      have hk1 : rpre1.length = m + 1 := by simpa using hk
      have hget := getD_reverse_cons c rpre1 suf m st hf hk1
      by_cases h1 : c = ':'
      · subst h1
        simp only [strip_colon_reversed, if_true] at hc
        rw [get_line_and_column_loop_colon_skip m st hget hcc hn hcol]
        exact get_line_and_column_loop_unchanged_colon m
          { st with colon_count := 1, have_number := false } rpre1 (':' :: suf)
          (by show st.filename = _; rw [hf, reverse_cons_append]) hk1 hcol (le_refl 1) hc
      · simp only [strip_colon_reversed, if_neg h1, colon_digits_reversed] at hc
        cases hd : g_ascii_isdigit c
        · rw [get_line_and_column_loop_other m st c hget h1 hd]
          exact ⟨rfl, rfl, rfl⟩
        · rw [hd, Bool.true_and] at hc
          rw [get_line_and_column_loop_digit m st c hget hd hcol]
          exact get_line_and_column_loop_unchanged_number m
            { st with colon_count := 0, have_number := true } rpre1 (c :: suf)
            (by show st.filename = _; rw [hf, reverse_cons_append]) hk1 hcol hc

/-- The loop leaves a prefix of the filename, and never the empty one of a
filename that is not empty. -/
theorem get_line_and_column_loop_prefix (n : Nat) :
    ∀ (st : LineColumn), (get_line_and_column_loop n st).filename <+: st.filename ∧
      (st.filename ≠ [] → (get_line_and_column_loop n st).filename ≠ []) := by
  induction n with
  | zero => intro st; exact ⟨List.prefix_refl _, fun h => h⟩
  | succ m ih =>
    intro st
    have key : get_line_and_column_loop (m + 1) st = st ∨
        get_line_and_column_loop (m + 1) st = { st with colon_count := st.colon_count + 1 } ∨
        (∃ st2 : LineColumn, (st2.filename = st.filename ∨ st2.filename = st.filename.take (m + 1)) ∧
          (get_line_and_column_loop (m + 1) st = st2 ∨
            get_line_and_column_loop (m + 1) st = get_line_and_column_loop m st2)) := by
      generalize hget : st.filename.getD (m + 1) (Char.ofNat 0) = c
      by_cases h1 : c = ':'
      · subst h1
        by_cases hcc : st.colon_count = 0
        · cases hn : st.have_number
          · rw [get_line_and_column_loop_colon_skip_any m st hget hcc hn]
            refine Or.inr (Or.inr ⟨{ st with colon_count := 1, have_number := false },
              Or.inl rfl, ?_⟩)
            split
            · exact Or.inl rfl
            · exact Or.inr rfl
          · rw [get_line_and_column_loop_colon_number m st hget hcc hn]
            refine Or.inr (Or.inr ⟨LineColumn.mk (st.filename.take (m + 1)) 1 false
              (atoi (st.filename.drop (m + 2))) st.line, Or.inr rfl, ?_⟩)
            split
            · exact Or.inl rfl
            · exact Or.inr rfl
        · exact Or.inr (Or.inl (get_line_and_column_loop_colon_break m st hget (by omega)))
      · cases hd : g_ascii_isdigit c
        · exact Or.inl (get_line_and_column_loop_other m st c hget h1 hd)
        · rw [get_line_and_column_loop_digit_any m st c hget hd]
          refine Or.inr (Or.inr ⟨{ st with colon_count := 0, have_number := true },
            Or.inl rfl, ?_⟩)
          split
          · exact Or.inl rfl
          · exact Or.inr rfl
    have htake : st.filename.take (m + 1) <+: st.filename ∧
        (st.filename ≠ [] → st.filename.take (m + 1) ≠ []) := by
      refine ⟨List.take_prefix _ _, fun h => ?_⟩
      cases hw : st.filename with
      | nil => exact absurd hw h
      | cons a w => simp
    rcases key with h | h | ⟨st2, hf, h | h⟩
    · rw [h]; exact ⟨List.prefix_refl _, fun h => h⟩
    · rw [h]; exact ⟨List.prefix_refl _, fun h => h⟩
    · rw [h]
      rcases hf with hf | hf
      · rw [hf]; exact ⟨List.prefix_refl _, fun h => h⟩
      · rw [hf]; exact htake
    · rw [h]
      obtain ⟨i1, i2⟩ := ih st2
      rcases hf with hf | hf
      · rw [hf] at i1 i2; exact ⟨i1, i2⟩
      · rw [hf] at i1 i2
        exact ⟨i1.trans htake.1, fun h => i2 (htake.2 h)⟩


/-- The loop keeps line and column within the range of a `gint`. -/
theorem get_line_and_column_loop_range (n : Nat) :
    ∀ (st : LineColumn), G_MININT ≤ st.line ∧ st.line ≤ G_MAXINT →
      G_MININT ≤ st.column ∧ st.column ≤ G_MAXINT →
      (G_MININT ≤ (get_line_and_column_loop n st).line ∧
        (get_line_and_column_loop n st).line ≤ G_MAXINT) ∧
      (G_MININT ≤ (get_line_and_column_loop n st).column ∧
        (get_line_and_column_loop n st).column ≤ G_MAXINT) := by
  induction n with
  | zero => intro st hl hc; exact ⟨hl, hc⟩
  | succ m ih =>
    intro st hl hc
    generalize hget : st.filename.getD (m + 1) (Char.ofNat 0) = c
    by_cases h1 : c = ':'
    · subst h1
      by_cases hcc : st.colon_count = 0
      · cases hn : st.have_number
        · rw [get_line_and_column_loop_colon_skip_any m st hget hcc hn]
          split
          · exact ⟨hl, hc⟩
          · exact ih { st with colon_count := 1, have_number := false } hl hc
        · rw [get_line_and_column_loop_colon_number m st hget hcc hn]
          split
          · exact ⟨atoi_range _, hl⟩
          · exact ih _ (atoi_range _) hl
      · rw [get_line_and_column_loop_colon_break m st hget (by omega)]
        exact ⟨hl, hc⟩
    · cases hd : g_ascii_isdigit c
      · rw [get_line_and_column_loop_other m st c hget h1 hd]
        exact ⟨hl, hc⟩
      · rw [get_line_and_column_loop_digit_any m st c hget hd]
        split
        · exact ⟨hl, hc⟩
        · exact ih { st with colon_count := 0, have_number := true } hl hc

theorem colon_after_digits_iff (r : List Char) :
    colon_after_digits r = true ↔
      ∃ D b, (∀ c ∈ D, g_ascii_isdigit c = true) ∧ r = D ++ ':' :: b := by
  induction r with
  | nil =>
    constructor
    · intro h; cases h
    · rintro ⟨D, b, _, h⟩
      cases D <;> cases h
  | cons c r1 ih =>
    unfold colon_after_digits
    by_cases h1 : c = ':'
    · rw [if_pos h1]
      refine ⟨fun _ => ⟨[], r1, ⟨fun x hx => absurd hx (List.not_mem_nil x), ?_⟩⟩, fun _ => rfl⟩
      rw [h1]
      rfl
    · rw [if_neg h1]
      cases hd : g_ascii_isdigit c
      · simp only [Bool.false_eq_true, if_false, false_iff]
        rintro ⟨D, b, hD, h⟩
        cases D with
        | nil => exact h1 (List.cons.inj h).1
        | cons d D1 =>
          have := hD d (by simp)
          rw [← (List.cons.inj h).1, hd] at this
          cases this
      · simp only [if_true]
        rw [ih]
        constructor
        · rintro ⟨D, b, hD, h⟩
          refine ⟨c :: D, b, fun x hx => ?_, by rw [h]; rfl⟩
          rcases List.mem_cons.1 hx with hx | hx
          · rw [hx]; exact hd
          · exact hD x hx
        · rintro ⟨D, b, hD, h⟩
          cases D with
          | nil => exact absurd (List.cons.inj h).1 h1
          | cons d D1 =>
            exact ⟨D1, b, fun x hx => hD x (List.mem_cons_of_mem _ hx), (List.cons.inj h).2⟩

/-- The characters end in ":digits" exactly when they are some characters, a
colon, and one or more decimal digits. -/
theorem ends_in_colon_digits_iff (w : List Char) :
    ends_in_colon_digits w = true ↔
      ∃ b D, D ≠ [] ∧ (∀ c ∈ D, g_ascii_isdigit c = true) ∧ w = b ++ ':' :: D := by
  unfold ends_in_colon_digits
  constructor
  · intro h
    cases hr : w.reverse with
    | nil => rw [hr] at h; cases h
    | cons c r1 =>
      rw [hr] at h
      simp only [colon_digits_reversed, Bool.and_eq_true] at h
      obtain ⟨D, b, hD, hb⟩ := (colon_after_digits_iff r1).1 h.2
      refine ⟨b.reverse, (c :: D).reverse, by simp, fun x hx => ?_, ?_⟩
      · rcases List.mem_cons.1 (List.mem_reverse.1 hx) with hx | hx
        · rw [hx]; exact h.1
        · exact hD x hx
      · have : w = (c :: r1).reverse := by rw [← hr, List.reverse_reverse]
        rw [this, hb]
        simp
  · rintro ⟨b, D, hD, hd, hw⟩
    have hr : w.reverse = D.reverse ++ ':' :: b.reverse := by rw [hw]; simp
    cases hD2 : D.reverse with
    | nil => exact absurd (List.reverse_eq_nil_iff.1 hD2) hD
    | cons c D1 =>
      rw [hr, hD2]
      show colon_digits_reversed (c :: (D1 ++ ':' :: b.reverse)) = true
      simp only [colon_digits_reversed, Bool.and_eq_true]
      have hmem : ∀ x ∈ c :: D1, g_ascii_isdigit x = true := fun x hx =>
        hd x (List.mem_reverse.1 (by rw [hD2]; exact hx))
      exact ⟨hmem c (by simp), (colon_after_digits_iff _).2
        ⟨D1, b.reverse, fun x hx => hmem x (List.mem_cons_of_mem _ hx), rfl⟩⟩

/-- One trailing colon is taken off, and nothing else. -/
theorem strip_colon_spec (w : List Char) :
    strip_colon (w ++ [':']) = w ∧ (∀ c, c ≠ ':' → strip_colon (w ++ [c]) = w ++ [c]) ∧
      strip_colon [] = [] := by
  refine ⟨?_, fun c hc => ?_, rfl⟩
  · unfold strip_colon
    simp [strip_colon_reversed]
  · unfold strip_colon
    simp [strip_colon_reversed, hc]

theorem get_line_and_column_from_filename_loop (fs : FS) (filename : String)
    (hx : fs.file_exists filename = false) (hne : filename.data ≠ []) :
    get_line_and_column_from_filename fs filename =
      get_line_and_column_loop (filename.data.length - 1)
        { filename := filename.data, colon_count := 0, have_number := false, line := -1,
          column := -1 } := by
  have he : EMPTY filename = false := by
    unfold EMPTY
    simp only [decide_eq_false_iff_not]
    intro h0
    have := (strlen_eq_zero_iff filename).1 h0
    rw [this] at hne
    exact hne rfl
  unfold get_line_and_column_from_filename
  simp only [he, hx, Bool.false_eq_true, if_false]

/-- The first step from the start over a trailing colon, if there is one. -/
theorem get_line_and_column_loop_trailing (w t : List Char) (n : Nat) (st : LineColumn)
    (hf : st.filename = w ++ t) (hw : w.length = n + 1) (ht : t = [] ∨ t = [':'])
    (hcc : st.colon_count = 0) (hn : st.have_number = false) (hcol : st.column < 0) :
    ∃ st1, get_line_and_column_loop ((w ++ t).length - 1) st = get_line_and_column_loop n st1 ∧
      st1.filename = st.filename ∧ st1.line = st.line ∧ st1.column = st.column := by
  rcases ht with rfl | rfl
  · refine ⟨st, ?_, rfl, rfl, rfl⟩
    have : (w ++ []).length - 1 = n := by simp; omega
    rw [this]
  · refine ⟨{ st with colon_count := 1, have_number := false }, ?_, rfl, rfl, rfl⟩
    have : (w ++ [':']).length - 1 = n + 1 := by simp; omega
    rw [this]
    have hget : st.filename.getD (n + 1) (Char.ofNat 0) = ':' := by
      rw [hf, ← hw]
      exact getD_append_cons _ _ _ _
    exact get_line_and_column_loop_colon_skip n st hget hcc hn hcol

/-! ## The claims on dialogs, failed writes and startup -/

/-- Claim C21: the last check of `update_config`.  A project file path that is
not writable or is an existing directory makes `update_config` return FALSE;
when the earlier checks pass, the failure is reported and the file name field
refocused.  When the path is writable, no directory, and the file exists, the
overwrite question is asked exactly when `new_project` is TRUE: a declined
question gives FALSE with the file name field refocused, a confirmed one goes
on to the commit; with `new_project` FALSE, or when the file does not exist,
the commit follows without a question. -/
theorem update_config_file_check (e : PropertyDialogElements) (np : Bool) (s : State) :
    ((utils_is_file_writable s.fs e.file_name ≠ 0 ∨ s.fs.is_dir e.file_name = true) →
      (update_config e np s).1 = false ∧
      update_config_check_file e np s =
        (false,
          gtk_widget_grab_focus "file_name"
            (SHOW_ERR
              ("Project file could not be written (errno " ++
                toString (update_config_err_code e s) ++ ").") s))) ∧
    (strlen e.name ≠ 0 → strlen e.name ≤ MAX_NAME_LEN → EMPTY e.file_name = false →
      (EMPTY e.base_path = true ∨ s.fs.is_dir (update_config_locale_path e) = true) →
      update_config e np s = update_config_check_file e np s) ∧
    (utils_is_file_writable s.fs e.file_name = 0 → s.fs.is_dir e.file_name = false →
      (s.fs.file_exists e.file_name = true →
        update_config_check_file e false s = update_config_commit e false s ∧
        (s.question_script.headD false = false →
          update_config_check_file e true s =
            (false,
              gtk_widget_grab_focus "file_name"
                (dialogs_show_question
                  ("The file '" ++ e.file_name ++ "' already exists. Do you want to overwrite it?")
                  s).2)) ∧
        (s.question_script.headD false = true →
          update_config_check_file e true s =
            update_config_commit e true
              (dialogs_show_question
                ("The file '" ++ e.file_name ++ "' already exists. Do you want to overwrite it?")
                s).2)) ∧
      (s.fs.file_exists e.file_name = false →
        update_config_check_file e np s = update_config_commit e np s)) := by
  refine ⟨fun h => ⟨update_config_unwritable e np s h,
      update_config_check_file_err e np s ((update_config_err_code_ne_zero e s).2 h)⟩,
    update_config_reaches_check_file e np s, ?_⟩
  intro hw hd
  have herr : update_config_err_code e s = 0 := by
    by_contra hne
    rcases (update_config_err_code_ne_zero e s).1 hne with h | h
    · exact h hw
    · rw [hd] at h; cases h
  refine ⟨fun hex => ⟨?_, fun hq => ?_, fun hq => ?_⟩, fun hex => ?_⟩
  · rw [update_config_check_file_no_err e false s herr]
    simp
  · have hq2 : (dialogs_show_question
        ("The file '" ++ e.file_name ++ "' already exists. Do you want to overwrite it?")
        s).1 = false := hq
    rw [update_config_check_file_no_err e true s herr, hex, hq2]
    simp
  · have hq2 : (dialogs_show_question
        ("The file '" ++ e.file_name ++ "' already exists. Do you want to overwrite it?")
        s).1 = true := hq
    rw [update_config_check_file_no_err e true s herr, hex, hq2]
    simp
  · rw [update_config_check_file_no_err e np s herr, hex]
    simp

/-- Witness for C21: over the existing demo project file the New Project path
with a declining user fails, the Properties path asks nothing; a
write-protected path fails. -/
theorem update_config_file_check_witness :
    (update_config demo_dialog true { demo_state with question_script := [false] }).1 = false ∧
    (update_config demo_dialog false demo_state).1 = true ∧
    (update_config_check_file demo_dialog false demo_state =
      update_config_commit demo_dialog false demo_state) ∧
    (update_config { demo_dialog with file_name := "/ro.geany" } true demo_state).1 = false :=
  ⟨by decide, by decide,
   ((update_config_file_check demo_dialog false demo_state).2.2 (by decide) (by decide)).1
     (by decide) |>.1,
   ((update_config_file_check { demo_dialog with file_name := "/ro.geany" } true demo_state).1
     (Or.inl (by decide))).1⟩

/-- Counterexample to C22 as stated: closing the loaded demo project while its
project file cannot be written: the write fails, and the project does not stay
active, the close goes through. -/
theorem failed_write_per_caller_counterexample :
    full_disk_state.project.isSome = true ∧
    (write_config full_disk_state).1 = false ∧
    (project_close false full_disk_state).1 = true ∧
    (project_close false full_disk_state).2.project = none := by
  decide

/-- Claim C22, amended: a failed write of the project file is handled per
caller.  In the New Project flow the project just created is destroyed: no
project is active afterwards and the recent projects are as before.  In the
Properties flow the project stays active with the fields `update_config`
committed, and the dialog is run again.  In `project_close` the failed write
only gives a warning and rolls nothing back: the project is as it was when
the documents are closed, and the close then ends as it would have after a
successful write (the project still active and unchanged when the close of the
documents is refused, destroyed otherwise). -/
theorem failed_write_per_caller (e : PropertyDialogElements) (s : State) (r : DialogRun)
    (rest : List DialogRun) (od : Bool) :
    (s.project = none → (update_config e true s).1 = true →
      (write_config (update_config e true s).2).1 = false →
      run_new_dialog_body e s =
        (false, destroy_project false
          (SHOW_ERR "Project file could not be written"
            (write_config (update_config e true s).2).2)) ∧
      (run_new_dialog_body e s).2.project = none ∧
      (run_new_dialog_body e s).2.recent_projects = s.recent_projects ∧
      run_new_dialog_loop e [] s = (false, (run_new_dialog_body e s).2)) ∧
    (s.project.isSome = true → r.ok = true → (update_config r.e false s).1 = true →
      (write_config
        (g_signal_emit_by_name "project-dialog-confirmed" (update_config r.e false s).2)).1 = false →
      show_project_properties_loop (r :: rest) s =
        show_project_properties_loop rest
          (SHOW_ERR "Project file could not be written"
            (write_config
              (g_signal_emit_by_name "project-dialog-confirmed"
                (update_config r.e false s).2)).2) ∧
      (SHOW_ERR "Project file could not be written"
          (write_config
            (g_signal_emit_by_name "project-dialog-confirmed"
              (update_config r.e false s).2)).2).project_part =
        (update_config r.e false s).2.project_part ∧
      (show_project_properties_loop [r] s).project_part =
        (update_config r.e false s).2.project_part ∧
      (show_project_properties_loop (r :: rest) s).project.isSome = true) ∧
    (s.project.isSome = true → (write_config s).1 = false →
      (project_close_write s).project_part = s.project_part ∧
      (project_close od s).1 = s.close_all_script.headD true ∧
      ((project_close od s).1 = false → (project_close od s).2.project_part = s.project_part) ∧
      ((project_close od s).1 = true → (project_close od s).2.project = none)) := by
  refine ⟨fun hp hu hw => ?_, fun hp hr hu hw => ?_, fun hp hw => ?_⟩
  · have hb : run_new_dialog_body e s =
        (false, destroy_project false
          (SHOW_ERR "Project file could not be written"
            (write_config (update_config e true s).2).2)) := by
      simp only [run_new_dialog_body, hu, hw, Bool.not_false, if_true]
    have hb1 : (run_new_dialog_body e s).1 = false := by rw [hb]
    refine ⟨hb, (run_new_dialog_body_spec e s hp).2.2 hb1, ?_, ?_⟩
    · rw [hb]
      show (destroy_project false _).recent_projects = _
      rw [destroy_project_false_recent_projects]
      show (write_config _).2.recent_projects = _
      rw [write_config_recent_projects, update_config_recent_projects]
    · rw [run_new_dialog_loop]
      simp only [hb1, Bool.false_eq_true, if_false]
  · have hl := show_project_properties_loop_write_failed r rest s hr hu hw
    have hl1 := show_project_properties_loop_write_failed r [] s hr hu hw
    have hpp : (SHOW_ERR "Project file could not be written"
        (write_config
          (g_signal_emit_by_name "project-dialog-confirmed"
            (update_config r.e false s).2)).2).project_part =
        (update_config r.e false s).2.project_part := by
      rw [SHOW_ERR_project_part, write_config_project_part, signal_project_part]
    refine ⟨hl, hpp, ?_, show_project_properties_loop_isSome _ s hp⟩
    rw [hl1]
    exact hpp
  · cases hq : s.project with
    | none => rw [hq] at hp; cases hp
    | some p =>
      refine ⟨project_close_write_project_part s, ?_, project_close_fail od s, fun h =>
        (project_close_ok od s h).1⟩
      have hscript : (document_close_all (project_close_write s)).1 =
          s.close_all_script.headD true := by
        rw [document_close_all_fst, project_close_write_close_all_script]
      obtain h1 | h1 := project_close_cases od s hp
      · exact (h1.1.trans h1.2.1.symm).trans hscript
      · exact (h1.1.trans h1.2.1.symm).trans hscript

/-- Witness for C22: on a full disk a new project is destroyed again after the
failed write, a Properties edit of the demo project keeps the project with the
committed name, and a close of the demo project goes through. -/
theorem failed_write_per_caller_witness :
    (run_new_dialog_body { demo_dialog with file_name := "/n.geany" }
      full_disk_startup_state).2.project = none ∧
    (show_project_properties
        [{ ok := true, e := { demo_dialog with name := "renamed" } }]
        full_disk_state).project =
      some { name := some "renamed", description := some "", file_name := some "/p.geany",
             base_path := some "./", file_patterns := some [] } ∧
    (project_close false full_disk_state).2.project = none :=
  ⟨((failed_write_per_caller { demo_dialog with file_name := "/n.geany" }
      full_disk_startup_state { ok := true, e := demo_dialog } [] false).1 (by decide)
      (by decide) (by decide)).2.1,
   by decide,
   ((failed_write_per_caller demo_dialog full_disk_state
      { ok := true, e := demo_dialog } [] false).2.2 (by decide) (by decide)).2.2.2 (by decide)⟩

/-- Counterexample to C23 as stated: with the demo project active and the close
refused, `run_open_dialog` ends; the chooser is not run again, although another
choice was ready (running it again would have closed the project and loaded the
second file). -/
theorem chooser_loop_counterexample :
    refusing_project_state.project.isSome = true ∧
    (project_close false refusing_project_state).1 = false ∧
    run_open_dialog [some "/q.geany", some "/p.geany"] refusing_project_state =
      (project_close false refusing_project_state).2 ∧
    run_open_dialog [some "/q.geany", some "/p.geany"] refusing_project_state ≠
      run_open_dialog [some "/p.geany"] (project_close false refusing_project_state).2 := by
  decide

/-- Claim C23, amended: in the chooser loop of `run_open_dialog`, for every
accepted file: if a project is active and closing it is refused, no load of
the chosen file is attempted and the loop ends there (the chooser is not run
again; the project is still active and unchanged); if loading the chosen file
fails, the error is reported and the chooser is run again; a successful load
ends the loop, and so does a cancelled chooser. -/
theorem chooser_loop (f : String) (rest : List (Option String)) (s : State) :
    (s.project.isSome = true → (project_close false s).1 = false →
      run_open_dialog (some f :: rest) s = (project_close false s).2 ∧
      (run_open_dialog (some f :: rest) s).project_part = s.project_part) ∧
    (¬ (s.project.isSome = true ∧ (project_close false s).1 = false) →
      ((project_load_file_with_session f (run_open_dialog_closed s)).1 = false →
        run_open_dialog (some f :: rest) s =
          run_open_dialog rest
            (SHOW_ERR ("Project file \"" ++ f ++ "\" could not be loaded.")
              (project_load_file_with_session f (run_open_dialog_closed s)).2)) ∧
      ((project_load_file_with_session f (run_open_dialog_closed s)).1 = true →
        run_open_dialog (some f :: rest) s =
          (project_load_file_with_session f (run_open_dialog_closed s)).2)) ∧
    run_open_dialog (none :: rest) s = s ∧
    run_open_dialog [] s = s := by
  refine ⟨fun hp hc => ?_, fun hn => ⟨fun hl => ?_, fun hl => ?_⟩, rfl, rfl⟩
  · have e : run_open_dialog (some f :: rest) s = (project_close false s).2 := by
      rw [run_open_dialog]
      simp only [hp, hc, Bool.not_false, Bool.and_self, if_true, run_open_dialog_closed]
    exact ⟨e, by rw [e]; exact project_close_fail false s hc⟩
  · have hn2 : (s.project.isSome && !(project_close false s).1) = false := by
      cases h1 : s.project.isSome <;> cases h2 : (project_close false s).1 <;> simp
      exact hn ⟨h1, h2⟩
    rw [run_open_dialog]
    simp only [hn2, hl, Bool.false_eq_true, if_false, Bool.not_false, if_true]
  · have hn2 : (s.project.isSome && !(project_close false s).1) = false := by
      cases h1 : s.project.isSome <;> cases h2 : (project_close false s).1 <;> simp
      exact hn ⟨h1, h2⟩
    rw [run_open_dialog]
    simp only [hn2, hl, Bool.false_eq_true, if_false, Bool.not_true]

/-- Witness for C23: a refused close ends the loop; an unparsable file is
reported and the next choice is loaded. -/
theorem chooser_loop_witness :
    run_open_dialog [some "/q.geany", some "/p.geany"] refusing_project_state =
      (project_close false refusing_project_state).2 ∧
    (run_open_dialog [some "/bad.geany", some "/p.geany"] demo_state).project.isSome = true :=
  ⟨((chooser_loop "/q.geany" [some "/p.geany"] refusing_project_state).1 (by decide)
      (by decide)).1,
   by decide⟩

/-- Claim C24: `project_get_base_path` returns NULL exactly when no project is
active or the project's base path is empty (or NULL).  Otherwise it returns
the base path itself when that is absolute, the directory of the project file
name when the base path is "./", and that directory joined with the base path
for any other relative base path; so every result is an absolute path whenever
the project file name is absolute. -/
theorem project_get_base_path_spec (s : State) :
    (project_get_base_path s = none ↔
      (s.project = none ∨
        ∃ p, s.project = some p ∧ (p.base_path = none ∨ p.base_path = some ""))) ∧
    (∀ p b, s.project = some p → p.base_path = some b → b ≠ "" →
      (g_path_is_absolute b = true → project_get_base_path s = some b) ∧
      (g_path_is_absolute b = false → b = "./" →
        project_get_base_path s = some (g_path_get_dirname (p.file_name.getD ""))) ∧
      (g_path_is_absolute b = false → b ≠ "./" →
        project_get_base_path s =
          some (g_build_filename (g_path_get_dirname (p.file_name.getD "")) b))) ∧
    (∀ p f r, s.project = some p → p.file_name = some f → g_path_is_absolute f = true →
      project_get_base_path s = some r → g_path_is_absolute r = true) := by
  have hcase : ∀ p b, s.project = some p → p.base_path = some b → b ≠ "" →
      project_get_base_path s =
        (if g_path_is_absolute b then some b
         else if b = "./" then some (g_path_get_dirname (p.file_name.getD ""))
         else some (g_build_filename (g_path_get_dirname (p.file_name.getD "")) b)) := by
    intro p b hp hb hne
    have he : EMPTY b = false := by
      unfold EMPTY
      simp only [decide_eq_false_iff_not]
      exact fun h0 => hne ((strlen_eq_zero_iff b).1 h0)
    simp only [project_get_base_path, hp, hb, he, Bool.not_false, if_true]
  refine ⟨?_, fun p b hp hb hne => ?_, fun p f r hp hf ha hr => ?_⟩
  · constructor
    · intro h
      cases hp : s.project with
      | none => exact Or.inl rfl
      | some p =>
        refine Or.inr ⟨p, rfl, ?_⟩
        cases hb : p.base_path with
        | none => exact Or.inl rfl
        | some b =>
          refine Or.inr ?_
          by_contra hne
          have hne2 : b ≠ "" := fun h0 => hne (by rw [h0])
          rw [hcase p b hp hb hne2] at h
          split_ifs at h
    · rintro (h | ⟨p, hp, h | h⟩)
      · simp only [project_get_base_path, h]
      · simp only [project_get_base_path, hp, h]
      · simp only [project_get_base_path, hp, h]
        rfl
  · rw [hcase p b hp hb hne]
    refine ⟨fun h => by rw [h]; rfl, fun h1 h2 => by rw [h1, if_pos h2]; rfl,
      fun h1 h2 => by rw [h1, if_neg h2]; rfl⟩
  · cases hb : p.base_path with
    | none =>
      simp only [project_get_base_path, hp, hb] at hr
      cases hr
    | some b =>
      by_cases hne : b = ""
      · rw [hne] at hb
        have he : EMPTY "" = true := by decide
        simp only [project_get_base_path, hp, hb, he, Bool.not_true, Bool.false_eq_true,
          if_false] at hr
        cases hr
      · rw [hcase p b hp hb hne, hf] at hr
        have hd : g_path_is_absolute (g_path_get_dirname f) = true :=
          g_path_get_dirname_absolute f ha
        split_ifs at hr with h1 h2
        · cases hr; exact h1
        · cases hr; exact hd
        · cases hr; exact g_build_filename_absolute _ _ hd

/-- Witness for C24: the demo project with the base paths "./", "src" and
"/opt/x". -/
theorem project_get_base_path_spec_witness :
    project_get_base_path overwrite_state = some "/" ∧
    project_get_base_path
        (update_config { demo_dialog with base_path := "src" } true
          { demo_state with question_script := [true, true] }).2 = some "/src" ∧
    g_path_is_absolute "/src" = true :=
  ⟨by decide, by decide,
   (project_get_base_path_spec
      (update_config { demo_dialog with base_path := "src" } true
        { demo_state with question_script := [true, true] }).2).2.2
      { name := some "demo", description := none, file_name := some "/p.geany",
        base_path := some "src", file_patterns := none }
      "/p.geany" "/src" (by decide) rfl (by decide) (by decide)⟩

/-- Claim C25: in the New Project dialog opened without a folder, when the name
entry changes to `text`: if no entry was hand-edited (`entries_modified`
false), base path and file name are derived anew from the name (base path
project_dir/name/, file name project_dir/name.geany, or
project_dir/name/name.geany with the project-file-in-basedir preference; both
project_dir/ for an empty name) and `entries_modified` is false afterwards;
once `entries_modified` is true, the change of the name leaves both entries
(and the flag) as they are. -/
theorem name_change_rederives (home text : String) (e : PropertyDialogElements) (s : State) :
    (e.entries_modified = false →
      (on_name_entry_changed home { e with name := text } s).name = text ∧
      (on_name_entry_changed home { e with name := text } s).base_path =
        (if text = "" then new_project_dir home s ++ "/"
         else new_project_dir home s ++ "/" ++ text ++ "/") ∧
      (on_name_entry_changed home { e with name := text } s).file_name =
        (if text = "" then new_project_dir home s ++ "/"
         else if s.project_file_in_basedir then
           new_project_dir home s ++ "/" ++ text ++ "/" ++ text ++ ".geany"
         else new_project_dir home s ++ "/" ++ text ++ ".geany") ∧
      (on_name_entry_changed home { e with name := text } s).entries_modified = false) ∧
    (e.entries_modified = true →
      on_name_entry_changed home { e with name := text } s = { e with name := text }) ∧
    (on_entries_changed e).entries_modified = true := by
  refine ⟨fun h => ?_, fun h => ?_, rfl⟩
  · obtain ⟨f1, f2, f3, f4⟩ :=
      update_new_project_dlg_fresh home true none { e with name := text } s h
    have hn := new_project_entries_none home text s
    unfold on_name_entry_changed
    refine ⟨?_, ?_, ?_, f4⟩
    · rw [f1]
      exact congrArg (fun r => r.1) hn
    · rw [f2]
      exact congrArg (fun r => r.2.1) hn
    · rw [f3]
      exact congrArg (fun r => r.2.2) hn
  · simp only [on_name_entry_changed, update_new_project_dlg, h, if_true]

/-- Witness for C25: typing the name "demo" into the fresh dialog, and again
after the file name was edited by hand. -/
theorem name_change_rederives_witness :
    (on_name_entry_changed "/home/u" { empty_dialog with name := "demo" } demo_state).base_path =
      "/home/u/demo/" ∧
    (on_name_entry_changed "/home/u" { empty_dialog with name := "demo" } demo_state).file_name =
      "/home/u/demo.geany" ∧
    on_name_entry_changed "/home/u"
        { (on_entries_changed { empty_dialog with file_name := "/x.geany" }) with name := "demo" }
        demo_state =
      { (on_entries_changed { empty_dialog with file_name := "/x.geany" }) with name := "demo" } :=
  ⟨by decide, by decide,
   (name_change_rederives "/home/u" "demo"
      (on_entries_changed { empty_dialog with file_name := "/x.geany" }) demo_state).2.1 rfl⟩

/-- Counterexample to C26 as stated: in an instance started with --no-session a
successful `project_close (TRUE)` does not reload the default session and
reopens none of its files; no document is open afterwards. -/
theorem open_default_reload_counterexample :
    (project_close true no_session_state).1 = true ∧
    no_session_state.default_session = ["/src/a.c"] ∧
    Event.load_default_session ∉ (project_close true no_session_state).2.log ∧
    Event.open_file "/src/a.c" ∉ (project_close true no_session_state).2.log ∧
    (project_close true no_session_state).2.docs = [] := by
  decide

/-- Claim C26, amended: for every successful `project_close`, `open_default`
TRUE makes the close reload the default session and reopen its files, in
order, and then ensure that a document is open, exactly when session loading
was not switched off on the command line (`cl_options.load_session`); with
`open_default` FALSE, or with --no-session, the default session is neither
reloaded nor reopened and no document is open after the close. -/
theorem open_default_reload (od : Bool) (s : State) (p : GeanyProject) (hp : s.project = some p)
    (h : (project_close od s).1 = true) :
    (od = true → s.cl_options.load_session = true →
      (∃ pre, (project_close od s).2.log =
        pre ++ [Event.load_default_session] ++ s.default_session.map Event.open_file ++
          (if s.default_session.isEmpty then [Event.new_file] else []) ++
          [Event.focus_document, Event.signal "project-close"] ++
          (if s.quitting then [] else [Event.update_ui])) ∧
      (project_close od s).2.docs.map (fun d => d.file_name) =
        (if s.default_session.isEmpty then [none] else s.default_session.map some)) ∧
    ((od = false ∨ s.cl_options.load_session = false) →
      Event.load_default_session ∉ (project_close od s).2.log.drop s.log.length ∧
      (∀ f, Event.open_file f ∉ (project_close od s).2.log.drop s.log.length) ∧
      Event.new_file ∉ (project_close od s).2.log.drop s.log.length ∧
      (project_close od s).2.docs = []) := by
  have hl := project_close_log od s p hp h
  have hn := project_close_names od s p hp h
  constructor
  · intro ho hs
    have hc : (od && s.cl_options.load_session) = true := by rw [ho, hs]; rfl
    rw [hc] at hl hn
    simp only [if_true] at hl hn
    refine ⟨⟨s.log ++ [Event.signal "project-save",
          Event.write_file (p.file_name.getD "") (write_config s).1] ++
        (if (write_config s).1 then []
         else [Event.warning ("Project file \"" ++ p.file_name.getD "" ++
                "\" could not be written")]) ++
        [Event.close_all true, Event.statusbar ("Project \"" ++ p.name.getD "" ++ "\" closed."),
          Event.signal "project-before-close", Event.apply_editor_prefs], ?_⟩, hn⟩
    rw [hl]
    simp only [List.append_assoc, List.cons_append, List.nil_append]
  · intro ho
    have hc : (od && s.cl_options.load_session) = false := by
      rcases ho with ho | ho
      · rw [ho]; rfl
      · rw [ho]; simp
    rw [hc] at hl hn
    simp only [Bool.false_eq_true, if_false, List.append_nil] at hl hn
    rw [hl]
    simp only [List.append_assoc]
    rw [drop_log]
    refine ⟨?_, ?_, ?_, List.map_eq_nil_iff.1 hn⟩
    · cases (write_config s).1 <;> cases s.quitting <;> simp
    · intro f
      cases (write_config s).1 <;> cases s.quitting <;> simp
    · cases (write_config s).1 <;> cases s.quitting <;> simp

/-- Witness for C26: closing the loaded demo project with `open_default` TRUE
reloads a default session of one file. -/
theorem open_default_reload_witness :
    (project_close true { loaded_state with default_session := ["/src/a.c"] }).2.docs.map
        (fun d => d.file_name) = [some "/src/a.c"] ∧
    (project_close true no_session_state).2.docs = [] :=
  ⟨((open_default_reload true { loaded_state with default_session := ["/src/a.c"] } _ rfl
      (by decide)).1 rfl (by decide)).2,
   ((open_default_reload true no_session_state _ rfl (by decide)).2 (Or.inr (by decide))).2.2.2⟩

/-- Counterexample to C27: "abc:12:" names no existing file and has no trailing
":digits" specifier (it ends in a colon), yet the line is set to 12 and the
filename is cut down to "abc". -/
theorem line_column_trailing_colon_counterexample :
    startup_state.fs.file_exists "abc:12:" = false ∧
    ends_in_colon_digits "abc:12:".data = false ∧
    (get_line_and_column_from_filename startup_state.fs "abc:12:").filename = "abc".data ∧
    (get_line_and_column_from_filename startup_state.fs "abc:12:").line = 12 ∧
    (get_line_and_column_from_filename startup_state.fs "abc:12:").column = -1 := by
  decide

/-- Claim C27, amended: for a filename that names no existing file, with `t`
nothing or one trailing colon: on base:L:C followed by `t` (base not empty, L
and C one or more decimal digits each, their values within the range of
`int`) `get_line_and_column_from_filename` gives line = L, column = C and the
filename base; on base:L followed by `t`, base not empty and not itself ending
in ":digits", L within the range of `int`, it gives line = L, column -1 and the
filename base; if the filename without one trailing colon does not end in
":digits", filename, line and column are left as they were (-1 the latter
two); the resulting filename is always a prefix of the input, not empty unless
the input is; and line and column always hold values of a `gint`. -/
theorem line_column_specifier (fs : FS) (filename : String)
    (hx : fs.file_exists filename = false) :
    (∀ base L C t : List Char, base ≠ [] → L ≠ [] → C ≠ [] →
      (∀ c ∈ L, g_ascii_isdigit c = true) → (∀ c ∈ C, g_ascii_isdigit c = true) →
      (decimal_value L : Int) ≤ G_MAXINT → (decimal_value C : Int) ≤ G_MAXINT →
      (t = [] ∨ t = [':']) → filename.data = base ++ ':' :: L ++ ':' :: C ++ t →
      (get_line_and_column_from_filename fs filename).filename = base ∧
      (get_line_and_column_from_filename fs filename).line = (decimal_value L : Int) ∧
      (get_line_and_column_from_filename fs filename).column = (decimal_value C : Int)) ∧
    (∀ base L t : List Char, base ≠ [] → L ≠ [] → (∀ c ∈ L, g_ascii_isdigit c = true) →
      (decimal_value L : Int) ≤ G_MAXINT →
      ends_in_colon_digits base = false → (t = [] ∨ t = [':']) →
      filename.data = base ++ ':' :: L ++ t →
      (get_line_and_column_from_filename fs filename).filename = base ∧
      (get_line_and_column_from_filename fs filename).line = (decimal_value L : Int) ∧
      (get_line_and_column_from_filename fs filename).column = -1) ∧
    (ends_in_colon_digits (strip_colon filename.data) = false →
      (get_line_and_column_from_filename fs filename).filename = filename.data ∧
      (get_line_and_column_from_filename fs filename).line = -1 ∧
      (get_line_and_column_from_filename fs filename).column = -1) ∧
    ((get_line_and_column_from_filename fs filename).filename <+: filename.data ∧
      (filename ≠ "" → (get_line_and_column_from_filename fs filename).filename ≠ [])) ∧
    ((G_MININT ≤ (get_line_and_column_from_filename fs filename).line ∧
        (get_line_and_column_from_filename fs filename).line ≤ G_MAXINT) ∧
      (G_MININT ≤ (get_line_and_column_from_filename fs filename).column ∧
        (get_line_and_column_from_filename fs filename).column ≤ G_MAXINT)) := by
  have hneg : (-1 : Int) < 0 := by decide
  have hrange : G_MININT ≤ (-1 : Int) ∧ (-1 : Int) ≤ G_MAXINT := by decide
  refine ⟨fun base L C t hb hL hC hLd hCd hLr hCr ht hf => ?_,
    fun base L t hb hL hLd hLr he ht hf => ?_, fun he => ?_, ?_, ?_⟩
  · obtain ⟨k, hk⟩ : ∃ k, base.length = k + 1 :=
      ⟨base.length - 1, by have := List.length_pos.2 hb; omega⟩
    have hne : filename.data ≠ [] := by rw [hf]; simp
    rw [get_line_and_column_from_filename_loop fs filename hx hne]
    generalize filename.data = fd at hf
    subst hf
    have hw : (base ++ ':' :: L ++ ':' :: C).length = (k + 1 + L.length + 1 + C.length) + 1 := by
      simp; omega
    obtain ⟨st1, h1, f1, l1, c1⟩ := get_line_and_column_loop_trailing
      (base ++ ':' :: L ++ ':' :: C) t _
      { filename := base ++ ':' :: L ++ ':' :: C ++ t, colon_count := 0, have_number := false,
        line := -1, column := -1 }
      rfl hw ht rfl rfl hneg
    rw [h1]
    have h2 := get_line_and_column_loop_number (base ++ ':' :: L) t (k + 1 + L.length) C st1
      (by rw [f1]) (by simp; omega) hCd hC (by rw [c1]; exact hneg)
    have l2 : st1.line = -1 := l1
    rw [l2, if_neg (show ¬ ((-1 : Int) ≥ 0) by decide)] at h2
    have h3 := get_line_and_column_loop_number base [] k L
      { filename := base ++ ':' :: L, colon_count := 1, have_number := false,
        line := atoi (C ++ t), column := -1 }
      (by simp) hk hLd hL hneg
    dsimp only at h3
    rw [atoi_of_digits C hCd hC hCr t ht, atoi_of_digits L hLd hL hLr [] (Or.inl rfl),
      if_pos (Int.natCast_nonneg _)] at h3
    rw [atoi_of_digits C hCd hC hCr t ht] at h2
    rw [h2, h3]
    exact ⟨rfl, rfl, rfl⟩
  · obtain ⟨k, hk⟩ : ∃ k, base.length = k + 1 :=
      ⟨base.length - 1, by have := List.length_pos.2 hb; omega⟩
    have hne : filename.data ≠ [] := by rw [hf]; simp
    rw [get_line_and_column_from_filename_loop fs filename hx hne]
    generalize filename.data = fd at hf
    subst hf
    have hw : (base ++ ':' :: L).length = (k + 1 + L.length) + 1 := by
      simp; omega
    obtain ⟨st1, h1, f1, l1, c1⟩ := get_line_and_column_loop_trailing
      (base ++ ':' :: L) t _
      { filename := base ++ ':' :: L ++ t, colon_count := 0, have_number := false,
        line := -1, column := -1 }
      rfl hw ht rfl rfl hneg
    rw [h1]
    have h2 := get_line_and_column_loop_number base t k L st1
      (by rw [f1]) hk hLd hL (by rw [c1]; exact hneg)
    have l2 : st1.line = -1 := l1
    rw [l2, if_neg (show ¬ ((-1 : Int) ≥ 0) by decide), atoi_of_digits L hLd hL hLr t ht] at h2
    rw [h2]
    exact get_line_and_column_loop_unchanged_colon k
      { filename := base, colon_count := 1, have_number := false,
        line := (decimal_value L : Int), column := -1 }
      base.reverse [] (by simp) (by simp [hk]) hneg (le_refl 1) he
  · by_cases hne : filename.data = []
    · have h0 : filename = "" := by
        cases filename with
        | mk cs => simp only at hne; rw [hne]
      subst h0
      exact ⟨rfl, rfl, rfl⟩
    · rw [get_line_and_column_from_filename_loop fs filename hx hne]
      obtain ⟨k, hk⟩ : ∃ k, filename.data.length = k + 1 :=
        ⟨filename.data.length - 1, by have := List.length_pos.2 hne; omega⟩
      have hk2 : filename.data.length - 1 = k := by omega
      rw [hk2]
      exact get_line_and_column_loop_unchanged_start k
        { filename := filename.data, colon_count := 0, have_number := false, line := -1,
          column := -1 }
        filename.data.reverse [] (by simp) (by simp [hk]) hneg rfl rfl
        (by
          unfold ends_in_colon_digits strip_colon at he
          rw [List.reverse_reverse] at he
          exact he)
  · have hp : ∀ n, (get_line_and_column_loop n
        { filename := filename.data, colon_count := 0, have_number := false, line := -1,
          column := -1 }).filename <+: filename.data ∧
        (filename.data ≠ [] → (get_line_and_column_loop n
          { filename := filename.data, colon_count := 0, have_number := false, line := -1,
            column := -1 }).filename ≠ []) := fun n => get_line_and_column_loop_prefix n _
    have hd : filename ≠ "" → filename.data ≠ [] := by
      intro h hd
      apply h
      cases filename with
      | mk cs => simp only at hd; rw [hd]
    unfold get_line_and_column_from_filename
    simp only []
    split
    · exact ⟨List.prefix_refl _, hd⟩
    · split
      · exact ⟨List.prefix_refl _, hd⟩
      · exact ⟨(hp _).1, fun h => (hp _).2 (hd h)⟩
  · unfold get_line_and_column_from_filename
    simp only []
    split
    · exact ⟨hrange, hrange⟩
    · split
      · exact ⟨hrange, hrange⟩
      · exact get_line_and_column_loop_range _ _ hrange hrange

/-- Witness for C27: "a.c:3:7", "a.c:3", "a.c:3:" and "a.c" where no such files
exist. -/
theorem line_column_specifier_witness :
    startup_state.fs.file_exists "a.c:3:7" = false ∧
    (get_line_and_column_from_filename startup_state.fs "a.c:3:7").filename = "a.c".data ∧
    (get_line_and_column_from_filename startup_state.fs "a.c:3:7").line = 3 ∧
    (get_line_and_column_from_filename startup_state.fs "a.c:3:7").column = 7 ∧
    (get_line_and_column_from_filename startup_state.fs "a.c:3:").line = 3 ∧
    (get_line_and_column_from_filename startup_state.fs "a.c:3:").column = -1 ∧
    (get_line_and_column_from_filename startup_state.fs "a.c").filename = "a.c".data ∧
    (get_line_and_column_from_filename startup_state.fs "a.c").line = -1 :=
  ⟨by decide,
   ((line_column_specifier startup_state.fs "a.c:3:7" (by decide)).1
      "a.c".data ['3'] ['7'] [] (by decide) (by decide) (by decide) (by decide) (by decide)
      (by decide) (by decide) (Or.inl rfl) rfl).1,
   by decide, by decide,
   ((line_column_specifier startup_state.fs "a.c:3:" (by decide)).2.1
      "a.c".data ['3'] [':'] (by decide) (by decide) (by decide) (by decide) (by decide)
      (Or.inr rfl) rfl).2.1,
   by decide,
   ((line_column_specifier startup_state.fs "a.c" (by decide)).2.2.1 (by decide)).1,
   by decide⟩

/-- Claim C28: for a filename that is empty or names an existing file (such as
a file called "test:0") `get_line_and_column_from_filename` leaves the
filename as it is and line and column at -1, and `main_handle_filename` then
leaves `cl_options` (so `goto_line` and `goto_column`) unchanged: it assigns
them only values that are at least 0. -/
theorem existing_filename_untouched (s : State) (f g : String)
    (hg : utils_get_path_from_uri f = some g)
    (h : EMPTY g = true ∨ s.fs.file_exists g = true) :
    (get_line_and_column_from_filename s.fs g).filename = g.data ∧
    (get_line_and_column_from_filename s.fs g).line = -1 ∧
    (get_line_and_column_from_filename s.fs g).column = -1 ∧
    (main_handle_filename f s).2.cl_options = s.cl_options ∧
    (main_handle_filename f s).2.cl_options.goto_line = s.cl_options.goto_line ∧
    (main_handle_filename f s).2.cl_options.goto_column = s.cl_options.goto_column ∧
    (∀ lc : LineColumn, ∀ t : State,
      (main_handle_goto lc t).cl_options.goto_line =
        (if lc.line ≥ 0 then lc.line else t.cl_options.goto_line) ∧
      (main_handle_goto lc t).cl_options.goto_column =
        (if lc.column ≥ 0 then lc.column else t.cl_options.goto_column)) := by
  have hs := get_line_and_column_from_filename_skip s.fs g h
  have hc : (main_handle_filename f s).2.cl_options = s.cl_options := by
    rw [main_handle_filename_cl_options f g s hg, hs,
      (main_handle_goto_cl_options _ s).1 (show (-1 : Int) < 0 by decide)
        (show (-1 : Int) < 0 by decide)]
  refine ⟨by rw [hs], by rw [hs], by rw [hs], hc, by rw [hc], by rw [hc], fun lc t => ?_⟩
  rw [(main_handle_goto_cl_options lc t).2]
  exact ⟨rfl, rfl⟩

/-- Witness for C28: a file called "test:0" exists and is named on the command
line. -/
theorem existing_filename_untouched_witness :
    (main_handle_filename "/test:0"
        { demo_state with fs := { demo_state.fs with
            files := [("/test:0", FileData.garbage)] } }).2.cl_options =
      demo_state.cl_options ∧
    (main_handle_filename "/test:0"
        { demo_state with fs := { demo_state.fs with
            files := [("/test:0", FileData.garbage)] } }).2.docs.map (fun d => d.file_name) =
      [some "/test:0"] :=
  ⟨(existing_filename_untouched
      { demo_state with fs := { demo_state.fs with files := [("/test:0", FileData.garbage)] } }
      "/test:0" "/test:0" (by decide) (Or.inr (by decide))).2.2.2.1,
   by decide⟩

/-- Claim C29: in `load_startup_files`, with `P` the result of its first part
(the .geany argument) and `S` that of its second part (the default session):
a first argument ending in ".geany" is handed to
`main_load_project_from_command_line` and makes `load_session` true, which the
second part leaves true whatever the preference and the options say; with a
project active the second part changes nothing; otherwise it changes nothing
unless "Load files from the last session" is on, --no-session is absent and
the instance is primary, in which case the session project file is tried
and, only if still no project is active, the default session is loaded; the
third part opens the session files of the active project (and leaves the loaded
default session alone), opens the default session when no project is active,
and does nothing when `load_session` is false; and when the three conditions do
not hold and nothing of a default session was loaded before, no file of the
default session is opened. -/
theorem load_startup_files_spec (cwd : String) (argv : List String) (s : State) :
    (∀ a0 a1 rest, argv = a0 :: a1 :: rest → g_str_has_suffix a1 ".geany" = true →
      load_startup_files_project cwd argv s =
        (true, a1 :: rest,
          main_load_project_from_command_line (main_get_argv_filename cwd a1) false s) ∧
      (load_startup_files_session (load_startup_files_project cwd argv s).1
        (load_startup_files_project cwd argv s).2.2).1 = true) ∧
    (∀ ls t, t.project.isSome = true → (load_startup_files_session ls t).2 = t) ∧
    (∀ ls t,
      (load_startup_files_session ls t = (ls, t) ∧
        (t.prefs_load_session && t.cl_options.load_session && !t.cl_options.new_instance) =
          false) ∨
      ((t.prefs_load_session && t.cl_options.load_session && !t.cl_options.new_instance) =
          true ∧ (load_startup_files_session ls t).1 = true ∧
        ((t.project.isSome = true ∧ (load_startup_files_session ls t).2 = t) ∨
         (t.project = none ∧ (load_session_project_file t).project.isSome = true ∧
           (load_startup_files_session ls t).2 = load_session_project_file t ∧
           (load_startup_files_session ls t).2.startup_part = t.startup_part) ∨
         (t.project = none ∧ (load_session_project_file t).project = none ∧
           (load_startup_files_session ls t).2 =
             configuration_load_default_session (load_session_project_file t))))) ∧
    (∀ ls t,
      (ls = true → t.project.isSome = true →
        (load_startup_files_open ls t).log =
          t.log ++ (t.priv.session_files.getD []).map Event.open_file ∧
        (load_startup_files_open ls t).priv.session_files = none ∧
        (load_startup_files_open ls t).default_session_files = t.default_session_files) ∧
      (ls = true → t.project = none →
        load_startup_files_open ls t = configuration_open_default_session t) ∧
      (ls = false → load_startup_files_open ls t = t)) ∧
    ((s.prefs_load_session && s.cl_options.load_session && !s.cl_options.new_instance) = false →
      s.default_session_files = [] →
      (load_startup_files_session (load_startup_files_project cwd argv s).1
        (load_startup_files_project cwd argv s).2.2).2 = (load_startup_files_project cwd argv s).2.2 ∧
      ((load_startup_files_project cwd argv s).2.2.project = none →
        (load_startup_files_open
          (load_startup_files_session (load_startup_files_project cwd argv s).1
            (load_startup_files_project cwd argv s).2.2).1
          (load_startup_files_session (load_startup_files_project cwd argv s).1
            (load_startup_files_project cwd argv s).2.2).2).log =
          (load_startup_files_project cwd argv s).2.2.log)) := by
  refine ⟨fun a0 a1 rest ha hs => ?_, fun ls t ht => ?_, fun ls t => ?_, fun ls t => ?_,
    fun he hd => ?_⟩
  · have hP : load_startup_files_project cwd argv s =
        (true, a1 :: rest,
          main_load_project_from_command_line (main_get_argv_filename cwd a1) false s) := by
      subst ha
      unfold load_startup_files_project
      simp only [hs, if_true]
    refine ⟨hP, ?_⟩
    rw [hP]
    rcases load_startup_files_session_exact true
      (main_load_project_from_command_line (main_get_argv_filename cwd a1) false s)
      with ⟨_, h⟩ | ⟨_, h, _⟩
    · rw [h]
    · exact h
  · rcases load_startup_files_session_exact ls t with ⟨_, h⟩ | ⟨_, _, h⟩
    · rw [h]
    · rcases h with ⟨_, h⟩ | ⟨hp, _⟩ | ⟨hp, _⟩
      · exact h
      · rw [hp] at ht
        cases ht
      · rw [hp] at ht
        cases ht
  · rcases load_startup_files_session_exact ls t with ⟨hc, h⟩ | ⟨hc, h1, h⟩
    · exact Or.inl ⟨h, hc⟩
    · refine Or.inr ⟨hc, h1, ?_⟩
      rcases h with h | ⟨hp, hq, h⟩ | h
      · exact Or.inl h
      · refine Or.inr (Or.inl ⟨hp, hq, h, ?_⟩)
        rw [h]
        exact load_session_project_file_startup_part t
      · exact Or.inr (Or.inr h)
  · exact load_startup_files_open_cases ls t
  · have hf := startup_part_fields _ _ (load_startup_files_project_startup_part cwd argv s)
    generalize load_startup_files_project cwd argv s = P at hf
    have hc : (P.2.2.prefs_load_session && P.2.2.cl_options.load_session &&
        !P.2.2.cl_options.new_instance) = false := by
      rw [hf.1, hf.2.1]
      exact he
    rcases load_startup_files_session_exact P.1 P.2.2 with ⟨_, h⟩ | ⟨hc2, _⟩
    · rw [h]
      refine ⟨rfl, fun hp => ?_⟩
      cases hl : P.1
      · rfl
      · show (load_startup_files_open true P.2.2).log = _
        rw [(load_startup_files_open_cases true P.2.2).2.1 rfl hp]
        exact (configuration_open_default_session_nothing P.2.2 (hf.2.2.trans hd)).1
    · rw [hc] at hc2
      cases hc2

/-- Witness for C29: with "Load files from the last session" switched off, the
argument "/p.geany" is loaded as a project and its two session files are
opened; a missing project file opens nothing of the persisted default
session. -/
theorem load_startup_files_spec_witness :
    g_str_has_suffix "/p.geany" ".geany" = true ∧
    (load_startup_files_session
      (load_startup_files_project "/home/u" ["geany", "/p.geany"] no_load_session_state).1
      (load_startup_files_project "/home/u" ["geany", "/p.geany"] no_load_session_state).2.2).1 =
        true ∧
    (load_startup_files "/home/u" ["geany", "/p.geany"] no_load_session_state).docs.map
      (fun d => d.file_name) = [some "/src/a.c", some "/src/b.c"] ∧
    (load_startup_files_project "/home/u" ["geany", "/missing.geany"]
      no_load_session_state).2.2.project = none ∧
    (load_startup_files_open
      (load_startup_files_session
        (load_startup_files_project "/home/u" ["geany", "/missing.geany"] no_load_session_state).1
        (load_startup_files_project "/home/u" ["geany", "/missing.geany"]
          no_load_session_state).2.2).1
      (load_startup_files_session
        (load_startup_files_project "/home/u" ["geany", "/missing.geany"] no_load_session_state).1
        (load_startup_files_project "/home/u" ["geany", "/missing.geany"]
          no_load_session_state).2.2).2).log =
      (load_startup_files_project "/home/u" ["geany", "/missing.geany"]
        no_load_session_state).2.2.log ∧
    (load_startup_files "/home/u" ["geany"] session_project_state).docs.map
      (fun d => d.file_name) = [some "/src/a.c", some "/src/b.c"] ∧
    (load_startup_files "/home/u" ["geany"] default_session_state).docs.map
      (fun d => d.file_name) = [some "/home/u/c.txt"] :=
  ⟨by decide,
   ((load_startup_files_spec "/home/u" ["geany", "/p.geany"] no_load_session_state).1
      "geany" "/p.geany" [] rfl (by decide)).2,
   by decide, by decide,
   ((load_startup_files_spec "/home/u" ["geany", "/missing.geany"]
      no_load_session_state).2.2.2.2 (by decide) (by decide)).2 (by decide),
   by decide, by decide⟩

/-- Claim C30: `update_config` is atomic on failure with respect to the
project.  Whenever it returns FALSE, `app->project` is what it was (no project
was created: the allocation counter is unchanged) and none of the project's
fields, the long-line settings, the overlay fields and the build filetypes
list (all of the private part and the indentation) was modified; nothing but
the log, the scripted answers and the file system may differ. -/
theorem update_config_atomic (e : PropertyDialogElements) (np : Bool) (s : State)
    (h : (update_config e np s).1 = false) :
    (update_config e np s).2.project = s.project ∧
    (update_config e np s).2.priv = s.priv ∧
    (update_config e np s).2.indentation = s.indentation ∧
    overlay_fields (update_config e np s).2 = overlay_fields s ∧
    (update_config e np s).2.stash_groups = s.stash_groups ∧
    (update_config e np s).2.live_projects = s.live_projects ∧
    (update_config e np s).2.build_proj = s.build_proj ∧
    (update_config e np s).2.filetypes = s.filetypes ∧
    (update_config e np s).2.settled_part = s.settled_part := by
  have hs := update_config_fail_settled e np s h
  have h1 : (update_config e np s).2.priv = s.priv := congrArg (fun x => x.priv) hs
  have h2 : (update_config e np s).2.indentation = s.indentation :=
    congrArg (fun x => x.indentation) hs
  refine ⟨congrArg (fun x => x.project) hs, h1, h2, ?_, congrArg (fun x => x.stash_groups) hs,
    congrArg (fun x => x.live_projects) hs, congrArg (fun x => x.build_proj) hs,
    congrArg (fun x => x.filetypes) hs, hs⟩
  unfold overlay_fields
  rw [h1, h2]

/-- Witness for C30: a Properties edit of the loaded demo project with an empty
name fails and leaves the project as it was. -/
theorem update_config_atomic_witness :
    (update_config { demo_dialog with name := "" } false loaded_state).2.project =
      loaded_state.project :=
  (update_config_atomic { demo_dialog with name := "" } false loaded_state (by decide)).1

end Geany
